import Mathlib

/-!
Verification development for the `rrule` recurrence-rule library.

The TypeScript sources are embedded shallowly: each Lean definition mirrors
one function of the repository (`src/date.ts`, `src/sanitize.ts`,
`src/generator.ts`, `src/parse.ts`, `src/format.ts`, `src/rrule.ts`).
Strings are modelled as lists of characters, JS numbers as unbounded
integers (all numbers appearing in these code paths are integers), and the
`DateValue` union of the `@internationalized/date` collaborator as a three
variant inductive type.  Calendar arithmetic itself is provided by that
external collaborator, so it is modelled from the specification (section
4.1): proleptic Gregorian arithmetic with constrain semantics.
-/

set_option maxRecDepth 100000

namespace RRule



/-- Weekday enumeration of `types.ts` (`Weekdays`), in the MO..SU order used
by the `WEEKDAYS` table of `date.ts` (index 0 = Monday). -/
inductive Weekday
  | MO | TU | WE | TH | FR | SA | SU
deriving DecidableEq, Repr, Fintype

/-- Frequency enumeration of `types.ts` (`Frequencies`). -/
inductive Frequency
  | YEARLY | MONTHLY | WEEKLY | DAILY | HOURLY | MINUTELY | SECONDLY
deriving DecidableEq, Repr, Fintype

/-- Modelled from the spec: the Moment union of section 3.  `date` is a
PlainDate (`CalendarDate`), `dateTime` a PlainDateTime (`CalendarDateTime`)
and `zoned` a ZonedDateTime pinned to the distinguished zone UTC (offset 0),
the only zone the embedded code paths construct.  Fields are integers as in
the JS host. -/
inductive DateValue
  | date (year month day : Int)
  | dateTime (year month day hour minute second millisecond : Int)
  | zoned (year month day hour minute second millisecond : Int)
deriving DecidableEq, Repr

namespace DateValue

def year : DateValue → Int
  | .date y _ _ => y
  | .dateTime y _ _ _ _ _ _ => y
  | .zoned y _ _ _ _ _ _ => y

def month : DateValue → Int
  | .date _ m _ => m
  | .dateTime _ m _ _ _ _ _ => m
  | .zoned _ m _ _ _ _ _ => m

def day : DateValue → Int
  | .date _ _ d => d
  | .dateTime _ _ d _ _ _ _ => d
  | .zoned _ _ d _ _ _ _ => d

def hour : DateValue → Int
  | .date _ _ _ => 0
  | .dateTime _ _ _ h _ _ _ => h
  | .zoned _ _ _ h _ _ _ => h

def minute : DateValue → Int
  | .date _ _ _ => 0
  | .dateTime _ _ _ _ mi _ _ => mi
  | .zoned _ _ _ _ mi _ _ => mi

def second : DateValue → Int
  | .date _ _ _ => 0
  | .dateTime _ _ _ _ _ s _ => s
  | .zoned _ _ _ _ _ s _ => s

def millisecond : DateValue → Int
  | .date _ _ _ => 0
  | .dateTime _ _ _ _ _ _ ms => ms
  | .zoned _ _ _ _ _ _ ms => ms

/-- Corresponds to the JS `'hour' in date` test: true for the two variants
that carry time fields. -/
def hasTime : DateValue → Bool
  | .date _ _ _ => false
  | .dateTime _ _ _ _ _ _ _ => true
  | .zoned _ _ _ _ _ _ _ => true

/-- Corresponds to `value instanceof CalendarDate`. -/
def isCalendarDate : DateValue → Bool
  | .date _ _ _ => true
  | _ => false

end DateValue

/-- JS `Math.floor(a / b)` on integer operands. -/
def jsFloorDiv (a b : Int) : Int := Int.fdiv a b

/-- Modelled from the spec: leap-year test of section 4.1 (also
`isLeapYear` in `date.ts`, restricted to plain years). -/
def isLeapYear (y : Int) : Bool :=
  (y % 4 == 0 && y % 100 != 0) || y % 400 == 0

/-- Modelled from the spec: `days_in_month` of section 4.1 for the
proleptic Gregorian calendar. -/
def daysInMonth (y m : Int) : Int :=
  if m == 2 then (if isLeapYear y then 29 else 28)
  else if m == 4 || m == 6 || m == 9 || m == 11 then 30
  else 31

/-- Modelled from the spec: days since the epoch 1970-01-01 of a proleptic
Gregorian civil date (standard days-from-civil algorithm). -/
def daysFromCivil (y m d : Int) : Int :=
  let yy : Int := if m ≤ 2 then y - 1 else y
  let era : Int := Int.fdiv yy 400
  let yoe : Int := yy - era * 400
  let mp : Int := (m + 9) % 12
  let doy : Int := Int.fdiv (153 * mp + 2) 5 + d - 1
  let doe : Int := yoe * 365 + Int.fdiv yoe 4 - Int.fdiv yoe 100 + doy
  era * 146097 + doe - 719468

/-- Modelled from the spec: inverse of `daysFromCivil` (standard
civil-from-days algorithm), returning (year, month, day). -/
def civilFromDays (z0 : Int) : Int × Int × Int :=
  let z : Int := z0 + 719468
  let era : Int := Int.fdiv z 146097
  let doe : Int := z - era * 146097
  let yoe : Int :=
    Int.fdiv (doe - Int.fdiv doe 1460 + Int.fdiv doe 36524 - Int.fdiv doe 146096) 365
  let doy : Int := doe - (365 * yoe + Int.fdiv yoe 4 - Int.fdiv yoe 100)
  let mp : Int := Int.fdiv (5 * doy + 2) 153
  let d : Int := doy - Int.fdiv (153 * mp + 2) 5 + 1
  let m : Int := mp + (if mp < 10 then 3 else -9)
  let y : Int := yoe + era * 400 + (if m ≤ 2 then 1 else 0)
  (y, m, d)

/-- Milliseconds of the time-of-day carried by a moment (0 for PlainDate). -/
def timeOfDayMs (dv : DateValue) : Int :=
  dv.hour * 3600000 + dv.minute * 60000 + dv.second * 1000 + dv.millisecond

/-- Modelled from the spec: the epoch-milliseconds reading used by
`calculateDifference` in `date.ts` (`date.toDate('UTC').getTime()`); a
PlainDate reads as midnight. -/
def epochMs (dv : DateValue) : Int :=
  daysFromCivil dv.year dv.month dv.day * 86400000 + timeOfDayMs dv

/-- Modelled from the spec: the variant-agnostic total order on moments of
section 4.1 (`a.compare(b)` collapsed to a sign as in `compareDates` of
`date.ts`): chronological by date then time, a PlainDate counting as
midnight. -/
def compareDates (a b : DateValue) : Int :=
  let diff := epochMs a - epochMs b
  if diff < 0 then -1 else if diff == 0 then 0 else 1

/-- Table `WEEKDAYS` of `date.ts`: weekday of a zero-based index
(0 = Monday). -/
def weekdayOfIndex (i : Int) : Weekday :=
  if i == 0 then .MO else if i == 1 then .TU else if i == 2 then .WE
  else if i == 3 then .TH else if i == 4 then .FR else if i == 5 then .SA
  else .SU

/-- Embeds `getDayOfWeek` of `date.ts`: zero-based day of week, 0 = Monday
(the Julian-day alignment of the source; 1970-01-01 was a Thursday). -/
def getDayOfWeek (dv : DateValue) : Int :=
  (daysFromCivil dv.year dv.month dv.day + 3) % 7

/-- Embeds `getWeekday` of `date.ts`. -/
def getWeekday (dv : DateValue) : Weekday :=
  weekdayOfIndex (getDayOfWeek dv)

/-- Embeds `getWeekdayIndex` of `date.ts` (position in the `WEEKDAYS`
table). -/
def getWeekdayIndex : Weekday → Int
  | .MO => 0 | .TU => 1 | .WE => 2 | .TH => 3 | .FR => 4 | .SA => 5 | .SU => 6

/-- Clamp an integer into an inclusive range (the constrain behaviour of the
calendar collaborator). -/
def clampInt (v lo hi : Int) : Int :=
  if v < lo then lo else if v > hi then hi else v

/-- Rebuild a moment from possibly out-of-range year/month/day by
constraining month into 1..12 and day into the month (keeping the variant
and time fields).  Modelled from the spec: constrain semantics of
section 4.1. -/
def constrainDate (dv : DateValue) (y m d : Int) : DateValue :=
  let m' := clampInt m 1 12
  let d' := clampInt d 1 (daysInMonth y m')
  match dv with
  | .date _ _ _ => .date y m' d'
  | .dateTime _ _ _ h mi s ms => .dateTime y m' d' h mi s ms
  | .zoned _ _ _ h mi s ms => .zoned y m' d' h mi s ms

/-- Modelled from the spec: day addition (exact; never lands on an invalid
day). -/
def addDays (dv : DateValue) (n : Int) : DateValue :=
  let (y, m, d) := civilFromDays (daysFromCivil dv.year dv.month dv.day + n)
  match dv with
  | .date _ _ _ => .date y m d
  | .dateTime _ _ _ h mi s ms => .dateTime y m d h mi s ms
  | .zoned _ _ _ h mi s ms => .zoned y m d h mi s ms

/-- Modelled from the spec: month addition with constrain semantics
(section 4.1: a target day that does not exist clamps to the last valid
day). -/
def addMonths (dv : DateValue) (n : Int) : DateValue :=
  let idx : Int := dv.year * 12 + (dv.month - 1) + n
  let y : Int := Int.fdiv idx 12
  let m : Int := idx % 12 + 1
  constrainDate dv y m dv.day

/-- Modelled from the spec: year addition with constrain semantics. -/
def addYears (dv : DateValue) (n : Int) : DateValue :=
  constrainDate dv (dv.year + n) dv.month dv.day

/-- Modelled from the spec: time addition in milliseconds with day carry.
On a PlainDate the time part of a duration is ignored, as in the
collaborator's `CalendarDate` arithmetic. -/
def addTimeMs (dv : DateValue) (deltaMs : Int) : DateValue :=
  match dv with
  | .date y m d => .date y m d
  | _ =>
    let total : Int := epochMs dv + deltaMs
    let days : Int := Int.fdiv total 86400000
    let rem : Int := total - days * 86400000
    let (y, m, d) := civilFromDays days
    let h : Int := Int.fdiv rem 3600000
    let mi : Int := Int.fdiv (rem % 3600000) 60000
    let s : Int := Int.fdiv (rem % 60000) 1000
    let ms : Int := rem % 1000
    match dv with
    | .zoned _ _ _ _ _ _ _ => .zoned y m d h mi s ms
    | _ => .dateTime y m d h mi s ms

/-- Duration record of `date.ts` (`DateTimeDuration`); absent fields are
zero. -/
structure Duration where
  years : Int
  months : Int
  weeks : Int
  days : Int
  hours : Int
  minutes : Int
  seconds : Int
  milliseconds : Int
deriving DecidableEq, Repr

def Duration.zero : Duration := ⟨0, 0, 0, 0, 0, 0, 0, 0⟩

def Duration.ofYears (n : Int) : Duration := ⟨n, 0, 0, 0, 0, 0, 0, 0⟩

def Duration.ofMonths (n : Int) : Duration := ⟨0, n, 0, 0, 0, 0, 0, 0⟩

def Duration.ofWeeks (n : Int) : Duration := ⟨0, 0, n, 0, 0, 0, 0, 0⟩

def Duration.ofDays (n : Int) : Duration := ⟨0, 0, 0, n, 0, 0, 0, 0⟩

def Duration.ofHours (n : Int) : Duration := ⟨0, 0, 0, 0, n, 0, 0, 0⟩

def Duration.ofMinutes (n : Int) : Duration := ⟨0, 0, 0, 0, 0, n, 0, 0⟩

def Duration.ofSeconds (n : Int) : Duration := ⟨0, 0, 0, 0, 0, 0, n, 0⟩

/-- Embeds `addDuration` of `date.ts` (`date.add(duration)`): calendar
fields first (years, months, then weeks and days), then the time part.
Modelled from the spec: constrain semantics for the year/month steps. -/
def addDuration (dv : DateValue) (du : Duration) : DateValue :=
  let dv := if du.years == 0 then dv else addYears dv du.years
  let dv := if du.months == 0 then dv else addMonths dv du.months
  let dv := addDays dv (du.weeks * 7 + du.days)
  let t : Int :=
    du.hours * 3600000 + du.minutes * 60000 + du.seconds * 1000 + du.milliseconds
  if t == 0 then dv else addTimeMs dv t

/-- Embeds `subtractDuration` of `date.ts`. -/
def subtractDuration (dv : DateValue) (du : Duration) : DateValue :=
  addDuration dv
    ⟨-du.years, -du.months, -du.weeks, -du.days, -du.hours, -du.minutes,
      -du.seconds, -du.milliseconds⟩

/-- Fields record of `date.ts` `setFields` (`date.set(fields)`); `none`
leaves the field unchanged. -/
structure DateTimeFields where
  year : Option Int
  month : Option Int
  day : Option Int
  hour : Option Int
  minute : Option Int
  second : Option Int
  millisecond : Option Int
deriving DecidableEq, Repr

def DateTimeFields.empty : DateTimeFields :=
  ⟨none, none, none, none, none, none, none⟩

/-- Embeds `setFields` of `date.ts`: the collaborator's `set` with
constrain semantics (month clamped into 1..12, day into the target month,
time fields into their ranges; time fields are ignored on a PlainDate). -/
def setFields (dv : DateValue) (f : DateTimeFields) : DateValue :=
  let y := f.year.getD dv.year
  let m := clampInt (f.month.getD dv.month) 1 12
  let d := clampInt (f.day.getD dv.day) 1 (daysInMonth y m)
  match dv with
  | .date _ _ _ => .date y m d
  | .dateTime _ _ _ h mi s ms =>
    .dateTime y m d (clampInt (f.hour.getD h) 0 23) (clampInt (f.minute.getD mi) 0 59)
      (clampInt (f.second.getD s) 0 59) (clampInt (f.millisecond.getD ms) 0 999)
  | .zoned _ _ _ h mi s ms =>
    .zoned y m d (clampInt (f.hour.getD h) 0 23) (clampInt (f.minute.getD mi) 0 59)
      (clampInt (f.second.getD s) 0 59) (clampInt (f.millisecond.getD ms) 0 999)

/-- Embeds `toCalendarDate` of the collaborator: drop the time fields. -/
def toCalendarDate (dv : DateValue) : DateValue :=
  .date dv.year dv.month dv.day

/-- Embeds `toCalendarDateTime` of the collaborator: a PlainDate becomes
midnight; a zoned moment keeps its wall-clock fields. -/
def toCalendarDateTime (dv : DateValue) : DateValue :=
  match dv with
  | .date y m d => .dateTime y m d 0 0 0 0
  | .dateTime y m d h mi s ms => .dateTime y m d h mi s ms
  | .zoned y m d h mi s ms => .dateTime y m d h mi s ms

/-- Embeds `toZoned(value, 'UTC')` of the collaborator for the UTC zone:
the wall-clock fields are reinterpreted in UTC. -/
def toZonedUTC (dv : DateValue) : DateValue :=
  match dv with
  | .date y m d => .zoned y m d 0 0 0 0
  | .dateTime y m d h mi s ms => .zoned y m d h mi s ms
  | .zoned y m d h mi s ms => .zoned y m d h mi s ms

/-- Embeds `getStartOfDay` of `date.ts`: converts a PlainDate to a
PlainDateTime and zeroes the time fields. -/
def getStartOfDay (dv : DateValue) : DateValue :=
  match dv with
  | .date y m d => .dateTime y m d 0 0 0 0
  | .dateTime y m d _ _ _ _ => .dateTime y m d 0 0 0 0
  | .zoned y m d _ _ _ _ => .zoned y m d 0 0 0 0

/-- Embeds `getEndOfDay` of `date.ts`. -/
def getEndOfDay (dv : DateValue) : DateValue :=
  addDuration (getStartOfDay dv) ⟨0, 0, 0, 0, 23, 59, 59, 999⟩

/-- Embeds `getStartOfWeek` of `date.ts`. -/
def getStartOfWeek (dv : DateValue) (wkst : Weekday) : DateValue :=
  let currentIndex := getWeekdayIndex (getWeekday dv)
  let wkstIndex := getWeekdayIndex wkst
  let daysBack := (currentIndex - wkstIndex + 7) % 7
  subtractDuration dv (Duration.ofDays daysBack)

/-- Embeds `getStartOfMonth` of `date.ts`. -/
def getStartOfMonth (dv : DateValue) : DateValue :=
  subtractDuration (getStartOfDay dv) (Duration.ofDays (dv.day - 1))

/-- Embeds `getEndOfMonth` of `date.ts`. -/
def getEndOfMonth (dv : DateValue) : DateValue :=
  addDuration (getEndOfDay dv) (Duration.ofDays (daysInMonth dv.year dv.month - dv.day))

/-- Embeds `getStartOfYear` of `date.ts`. -/
def getStartOfYear (dv : DateValue) : DateValue :=
  subtractDuration (getStartOfMonth dv) (Duration.ofMonths (dv.month - 1))

/-- Embeds `getEndOfYear` of `date.ts` (months in a Gregorian year are
always 12). -/
def getEndOfYear (dv : DateValue) : DateValue :=
  addDuration (getEndOfMonth dv) (Duration.ofMonths (12 - dv.month))

/-- Embeds `getDaysInMonth` of `date.ts`. -/
def getDaysInMonth (dv : DateValue) : Int :=
  daysInMonth dv.year dv.month

/-- Embeds `calculateDifferenceInDays` of `date.ts`. -/
def calculateDifferenceInDays (start finish : DateValue) : Int :=
  jsFloorDiv (epochMs finish - epochMs start) 86400000

/-- Embeds `getWeeksInYear` of `date.ts`. -/
def getWeeksInYear (dv : DateValue) (wkst : Weekday) : Int :=
  let startOfYear := getStartOfYear dv
  let firstWeekday := getDayOfWeek startOfYear
  let wkstIndex := getWeekdayIndex wkst
  if firstWeekday == wkstIndex then 53
  else if isLeapYear startOfYear.year && firstWeekday == (wkstIndex - 1 + 7) % 7 then 53
  else 52

/-- Strings of the JS host, modelled as lists of characters. -/
abbrev Str := List Char

/-- Whitespace characters recognised by JS `trim` and `parseInt` (the ASCII
subset, which is all these code paths produce). -/
def isJsWs (c : Char) : Bool :=
  c == ' ' || c == '\t' || c == '\n' || c == '\r' || c == '\x0c' || c == '\x0b'

/-- Embeds JS `String.prototype.trim`. -/
def trimStr (s : Str) : Str :=
  ((s.dropWhile isJsWs).reverse.dropWhile isJsWs).reverse

/-- Embeds JS `String.prototype.toUpperCase` for the ASCII range. -/
def toUpperStr (s : Str) : Str :=
  s.map Char.toUpper

def isDigitChar (c : Char) : Bool := '0' ≤ c && c ≤ '9'

def isUpperAlpha (c : Char) : Bool := 'A' ≤ c && c ≤ 'Z'

def digitVal (c : Char) : Nat := c.toNat - 48

def digitChar (n : Nat) : Char := Char.ofNat (48 + n)

/-- Decimal digit writer with an explicit recursion budget (the budget is
always sufficient at `n + 1`; structural recursion keeps the definition
kernel-reducible). -/
def natDigitsAux (fuel : Nat) (n : Nat) : List Char :=
  match fuel with
  | 0 => []
  | fuel + 1 =>
    if n < 10 then [digitChar n]
    else natDigitsAux fuel (n / 10) ++ [digitChar (n % 10)]

/-- Decimal digits of a natural number, most significant first (the digits
of JS `String(n)` for `n ≥ 0`). -/
def natDigits (n : Nat) : List Char := natDigitsAux (n + 1) n

/-- Embeds JS `String(n)` for an integer. -/
def intRepr (n : Int) : Str :=
  if n < 0 then '-' :: natDigits n.natAbs else natDigits n.toNat

/-- Value of a list of decimal digits, most significant first. -/
def natFromDigits (ds : List Char) : Nat :=
  ds.foldl (fun acc c => acc * 10 + digitVal c) 0

/-- Embeds `parseInteger` of `parse.ts` (JS `Number.parseInt(s, 10)`):
leading whitespace is skipped, an optional sign and a leading digit run are
consumed, trailing characters are ignored; `none` models `NaN`. -/
def parseInteger (s : Str) : Option Int :=
  let s1 := s.dropWhile isJsWs
  let (sgn, s2) : Int × Str :=
    match s1 with
    | '+' :: rest => (1, rest)
    | '-' :: rest => (-1, rest)
    | _ => (1, s1)
  let digits := s2.takeWhile isDigitChar
  if digits.isEmpty then none else some (sgn * (natFromDigits digits : Int))

/-- Embeds `padZero` of `utils.ts` (JS `String(value).padStart(length, '0')`). -/
def padZero (value : Int) (length : Nat) : Str :=
  let s := intRepr value
  if s.length ≥ length then s else List.replicate (length - s.length) '0' ++ s

/-- Embeds the textual weekday constants of `types.ts` (`Weekdays`). -/
def weekdayStr : Weekday → Str
  | .MO => ['M', 'O'] | .TU => ['T', 'U'] | .WE => ['W', 'E'] | .TH => ['T', 'H']
  | .FR => ['F', 'R'] | .SA => ['S', 'A'] | .SU => ['S', 'U']

/-- Lookup of a string among the weekday constants; `isSome` embeds
`isWeekday` of `utils.ts` applied to a string. -/
def strToWeekday? (s : Str) : Option Weekday :=
  if s = weekdayStr .MO then some .MO
  else if s = weekdayStr .TU then some .TU
  else if s = weekdayStr .WE then some .WE
  else if s = weekdayStr .TH then some .TH
  else if s = weekdayStr .FR then some .FR
  else if s = weekdayStr .SA then some .SA
  else if s = weekdayStr .SU then some .SU
  else none

/-- Embeds the textual frequency constants of `types.ts` (`Frequencies`). -/
def freqStr : Frequency → Str
  | .YEARLY => "YEARLY".toList
  | .MONTHLY => "MONTHLY".toList
  | .WEEKLY => "WEEKLY".toList
  | .DAILY => "DAILY".toList
  | .HOURLY => "HOURLY".toList
  | .MINUTELY => "MINUTELY".toList
  | .SECONDLY => "SECONDLY".toList

/-- Lookup of a string among the frequency constants; `isSome` embeds
`isFrequency` of `utils.ts` applied to a string. -/
def strToFrequency? (s : Str) : Option Frequency :=
  if s = freqStr .YEARLY then some .YEARLY
  else if s = freqStr .MONTHLY then some .MONTHLY
  else if s = freqStr .WEEKLY then some .WEEKLY
  else if s = freqStr .DAILY then some .DAILY
  else if s = freqStr .HOURLY then some .HOURLY
  else if s = freqStr .MINUTELY then some .MINUTELY
  else if s = freqStr .SECONDLY then some .SECONDLY
  else none

/-- WeekdayValue of `types.ts`: a bare weekday constant or a
`{ weekday, n }` record. -/
inductive WeekdayValue
  | wd (w : Weekday)
  | nth (w : Weekday) (n : Int)
deriving DecidableEq, Repr

/-- Value shapes accepted for a `byweekday` entry (`string | WeekdayValue`
in `types.ts`): an arbitrary string (bare constants are strings in JS) or a
well-typed record. -/
inductive WeekdayValueInput
  | str (s : Str)
  | obj (w : Weekday) (n : Int)
deriving DecidableEq, Repr

/-- Embeds `isWeekday` of `utils.ts` applied to a `WeekdayValue`: true
exactly for the bare (string) shape. -/
def isBareWeekday : WeekdayValue → Bool
  | .wd _ => true
  | .nth _ _ => false

/-- Embeds `isWeekdayValue` of `utils.ts` on the accepted input shapes: a
string must be one of the weekday constants; a record must satisfy
`n > -53 && n < 53` (the record's `weekday` field is well-typed here). -/
def isWeekdayValue : WeekdayValueInput → Bool
  | .str s => (strToWeekday? s).isSome
  | .obj _ n => decide (n > -53 ∧ n < 53)

/-- First-occurrence deduplication helper (`[...new Set(xs)]` keeps the
first occurrence of each value). -/
def jsUniqueAux [DecidableEq α] (seen : List α) : List α → List α
  | [] => []
  | a :: rest =>
    if a ∈ seen then jsUniqueAux seen rest else a :: jsUniqueAux (a :: seen) rest

/-- Embeds `unique` of `utils.ts` (JS `[...new Set(value)]`). -/
def jsUnique [DecidableEq α] (l : List α) : List α := jsUniqueAux [] l

/-- Embeds `uniqueWeekdayValues` of `utils.ts`: first-occurrence
deduplication under structural equality (strings compared as strings,
records by `weekday` and `n`; the two shapes never compare equal). -/
def uniqueWeekdayValues (values : List WeekdayValue) : List WeekdayValue :=
  jsUnique values

/-- Semantic error kinds raised by the embedded code paths (section 7 of
the specification names them; the TS sources throw `Error` values whose
messages correspond one-to-one to these constructors). -/
inductive ErrMsg
  | invalidFrequency
  | invalidWeekday
  | invalidWeekdayFormat
  | weekdayOccurrenceZero
  | weekdayOccurrenceRange
  | invalidPositiveInteger
  | untilBeforeDtstart
  | countAndUntil
  | bysetposWithoutPartner
  | invalidRRuleString
  | invalidRRuleParam
  | unknownRRuleParam
  | freqRequired
  | invalidICSDateFormat
  | invalidMoment
  | maxIterationsBelowOne
  | invalidUntilValue
deriving DecidableEq, Repr

/-- Embeds `parseWeekday` of `parse.ts`. -/
def parseWeekday (s : Str) : Except ErrMsg Weekday :=
  let v := toUpperStr (trimStr s)
  if v.isEmpty then .error .invalidWeekday
  else
    match strToWeekday? v with
    | some w => .ok w
    | none => .error .invalidWeekday

/-- Decomposition performed by the anchored pattern
`([+-]?\d{1,2})?([A-Z]{2})` of `parseWeekdayValue`: the last two characters
must be uppercase letters, the remaining front part an optional sign
followed by one or two digits (or empty). -/
def matchWeekdayToken (v : Str) : Option (Str × Str) :=
  if v.length < 2 then none
  else
    let occ := v.take (v.length - 2)
    let wdPart := v.drop (v.length - 2)
    let occDigits := match occ with
      | '+' :: rest => rest
      | '-' :: rest => rest
      | _ => occ
    let occOk := occ.isEmpty ||
      (!occDigits.isEmpty && occDigits.length ≤ 2 && occDigits.all isDigitChar)
    if wdPart.all isUpperAlpha && occOk then some (occ, wdPart) else none

/-- Embeds `parseWeekdayValue` of `parse.ts` (`'MO'`, `'+1WE'`, `'-2FR'`). -/
def parseWeekdayValue (s : Str) : Except ErrMsg WeekdayValue :=
  let v := toUpperStr (trimStr s)
  if v.isEmpty then .error .invalidWeekday
  else
    match matchWeekdayToken v with
    | none => .error .invalidWeekdayFormat
    | some (occ, wdPart) =>
      match strToWeekday? wdPart with
      | none => .error .invalidWeekday
      | some w =>
        if occ.isEmpty then .ok (.wd w)
        else
          match parseInteger occ with
          | none => .error .invalidWeekdayFormat
          | some n =>
            if n = 0 then .error .weekdayOccurrenceZero
            else if n < -53 || n > 53 then
              .error .weekdayOccurrenceRange
            else .ok (.nth w n)

/-- Embeds `parseFrequency` of `parse.ts`. -/
def parseFrequency (s : Str) : Except ErrMsg Frequency :=
  let v := toUpperStr (trimStr s)
  if v.isEmpty then .error .invalidFrequency
  else
    match strToFrequency? v with
    | some f => .ok f
    | none => .error .invalidFrequency

/-- Embeds `parsePositiveInteger` of `parse.ts` (a `NaN` or non-positive
result is rejected; `parseInt` always yields an integer, so the
`Number.isInteger` half of `isPositiveInteger` is automatic). -/
def parsePositiveInteger (s : Str) : Except ErrMsg Int :=
  match parseInteger s with
  | some n => if n > 0 then .ok n else .error .invalidPositiveInteger
  | none => .error .invalidPositiveInteger

/-- RRuleOptions of `types.ts` (caller input; `wkst` accepts a string, the
`byweekday` entries accept strings or records). -/
structure RRuleOptions where
  freq : Option Frequency
  dtstart : Option DateValue
  interval : Option Int
  count : Option Int
  untilDate : Option DateValue
  wkst : Option Str
  bysetpos : Option (List Int)
  bymonth : Option (List Int)
  bymonthday : Option (List Int)
  byyearday : Option (List Int)
  byweekday : Option (List WeekdayValueInput)
  byweekno : Option (List Int)
  byhour : Option (List Int)
  byminute : Option (List Int)
  bysecond : Option (List Int)
deriving DecidableEq, Repr

/-- Options record with every field absent. -/
def RRuleOptions.empty : RRuleOptions :=
  ⟨none, none, none, none, none, none, none, none, none, none, none, none,
    none, none, none⟩

/-- ParsedRRuleOptions of `types.ts`: the sanitizer's output (`freq`
guaranteed, `wkst` a weekday, `byweekday` normalised records). -/
structure ParsedRRuleOptions where
  freq : Frequency
  dtstart : Option DateValue
  interval : Option Int
  count : Option Int
  untilDate : Option DateValue
  wkst : Option Weekday
  bysetpos : Option (List Int)
  bymonth : Option (List Int)
  bymonthday : Option (List Int)
  byyearday : Option (List Int)
  byweekday : Option (List WeekdayValue)
  byweekno : Option (List Int)
  byhour : Option (List Int)
  byminute : Option (List Int)
  bysecond : Option (List Int)
deriving DecidableEq, Repr

/-- Embeds `sanitizeFrequency` of `sanitize.ts`.  In this well-typed
embedding the `isFrequency` rejection branch is unreachable, leaving only
the YEARLY default. -/
def sanitizeFrequency (value : Option Frequency) : Frequency :=
  value.getD .YEARLY

/-- Embeds `sanitizeNumber` of `sanitize.ts` (`Math.trunc` is the identity
on the integers modelled here). -/
def sanitizeNumber (value : Option Int) (min? max? : Option Int)
    (allowZero : Bool) : Option Int :=
  match value with
  | none => none
  | some v =>
    if !allowZero && v == 0 then none
    else
      let v := match max? with
        | some mx => if v > mx then mx else v
        | none => v
      let v := match min? with
        | some mn => if v < mn then mn else v
        | none => v
      some v

/-- Embeds `sanitizeNumberArray` of `sanitize.ts`. -/
def sanitizeNumberArray (values : Option (List Int)) (min? max? : Option Int)
    (allowZero : Bool) : Option (List Int) :=
  match values with
  | none => none
  | some vs =>
    some (jsUnique (vs.filter (fun v =>
      !(!allowZero && v == 0) &&
      !(match max? with | some mx => v > mx | none => false) &&
      !(match min? with | some mn => v < mn | none => false))))

/-- Embeds `sanitizeUntilDate` of `sanitize.ts` (throws when UNTIL is
before DTSTART). -/
def sanitizeUntilDate (value start : Option DateValue) :
    Except ErrMsg (Option DateValue) :=
  match start with
  | none => .ok value
  | some s =>
    match value with
    | some v =>
      if compareDates v s < 0 then
        .error .untilBeforeDtstart
      else .ok value
    | none => .ok value

/-- Embeds `sanitizeWeekday` of `sanitize.ts` (a failed parse is swallowed
by the `try`/`catch`). -/
def sanitizeWeekday (value : Option Str) : Option Weekday :=
  match value with
  | none => none
  | some s =>
    match strToWeekday? s with
    | some w => some w
    | none => (parseWeekday s).toOption

/-- Conversion of an input that passed `isWeekdayValue` to the normalised
shape (a matching string becomes the bare constant). -/
def toWeekdayValue : WeekdayValueInput → WeekdayValue
  | .str s => .wd ((strToWeekday? s).getD .MO)
  | .obj w n => .nth w n

/-- Embeds `sanitizeWeekdayValue` of `sanitize.ts`: keep a value passing
`isWeekdayValue`, otherwise try `parseWeekdayValue` on strings, otherwise
drop. -/
def sanitizeWeekdayValue (value : Option WeekdayValueInput) :
    Option WeekdayValue :=
  match value with
  | none => none
  | some v =>
    if isWeekdayValue v then some (toWeekdayValue v)
    else
      match v with
      | .str s => (parseWeekdayValue s).toOption
      | .obj _ _ => none

/-- Embeds `sanitizeWeekdayValueArray` of `sanitize.ts`. -/
def sanitizeWeekdayValueArray (values : Option (List WeekdayValueInput)) :
    Option (List WeekdayValue) :=
  match values with
  | none => none
  | some vs =>
    some (uniqueWeekdayValues (vs.filterMap (fun v => sanitizeWeekdayValue (some v))))

/-- Embeds `validateBySetPos` of `sanitize.ts`: BYSETPOS requires at least
one other BYxxx rule. -/
def validateBySetPos (parsed : ParsedRRuleOptions) : Bool :=
  match parsed.bysetpos with
  | none => true
  | some ps =>
    if ps.isEmpty then true
    else
      (parsed.bymonth.getD []).length > 0 ||
      (parsed.bymonthday.getD []).length > 0 ||
      (parsed.byyearday.getD []).length > 0 ||
      (parsed.byweekday.getD []).length > 0 ||
      (parsed.byweekno.getD []).length > 0 ||
      (parsed.byhour.getD []).length > 0 ||
      (parsed.byminute.getD []).length > 0 ||
      (parsed.bysecond.getD []).length > 0

/-- Record literal built by `sanitizeRRuleOptions` once `sanitizeUntilDate`
has succeeded with `untilD`. -/
def buildParsed (options : RRuleOptions) (untilD : Option DateValue) :
    ParsedRRuleOptions where
  freq := sanitizeFrequency options.freq
  dtstart := options.dtstart
  interval := sanitizeNumber options.interval (some 1) none false
  count := sanitizeNumber options.count (some 1) none false
  untilDate := untilD
  wkst := sanitizeWeekday options.wkst
  bysetpos := sanitizeNumberArray options.bysetpos (some (-366)) (some 366) false
  bymonth := sanitizeNumberArray options.bymonth (some 1) (some 12) false
  bymonthday := sanitizeNumberArray options.bymonthday (some (-31)) (some 31) false
  byyearday := sanitizeNumberArray options.byyearday (some (-366)) (some 366) false
  byweekday := sanitizeWeekdayValueArray options.byweekday
  byweekno := sanitizeNumberArray options.byweekno (some (-53)) (some 53) false
  byhour := sanitizeNumberArray options.byhour (some 0) (some 23) true
  byminute := sanitizeNumberArray options.byminute (some 0) (some 59) true
  bysecond := sanitizeNumberArray options.bysecond (some 0) (some 59) true

/-- Embeds `sanitizeRRuleOptions` of `sanitize.ts` (the `throw` raised by
`sanitizeUntilDate` while the record literal is being built propagates, as
in the source). -/
def sanitizeRRuleOptions (options : RRuleOptions) :
    Except ErrMsg ParsedRRuleOptions :=
  match sanitizeUntilDate options.untilDate options.dtstart with
  | .error e => .error e
  | .ok untilD =>
    let parsed : ParsedRRuleOptions := buildParsed options untilD
    if parsed.count.isSome && parsed.untilDate.isSome then
      .error .countAndUntil
    else if !validateBySetPos parsed then
      .error .bysetposWithoutPartner
    else
      .ok parsed

/-- Stable insertion of a moment into a chronologically sorted list: it
lands before the first strictly later element and after earlier or equal
ones. -/
def insertByDate (a : DateValue) : List DateValue → List DateValue
  | [] => [a]
  | b :: rest =>
    if compareDates a b ≤ 0 then a :: b :: rest else b :: insertByDate a rest

/-- Stable chronological sort used throughout the generator
(`[...].sort((a, b) => compareDates(a, b))`; JS `sort` is stable, modelled
here by stable insertion sort). -/
def jsSortDates (l : List DateValue) : List DateValue :=
  l.foldr insertByDate []

def fieldsDay (d : Int) : DateTimeFields :=
  ⟨none, none, some d, none, none, none, none⟩

def fieldsMonth (m : Int) : DateTimeFields :=
  ⟨none, some m, none, none, none, none, none⟩

def fieldsMonthDay1 (m : Int) : DateTimeFields :=
  ⟨none, some m, some 1, none, none, none, none⟩

def fieldsMonth1Day4 : DateTimeFields :=
  ⟨none, some 1, some 4, none, none, none, none⟩

def fieldsHMS (h mi s : Int) : DateTimeFields :=
  ⟨none, none, none, some h, some mi, some s, none⟩

def fieldsTimeOf (cursor : DateValue) : DateTimeFields :=
  ⟨none, none, none, some cursor.hour, some cursor.minute, some cursor.second,
    some cursor.millisecond⟩

/-- Embeds `expandDaily` of `generator.ts`: the cursor passes the
date-level limiters or the period is empty (only bare weekdays count for
DAILY). -/
def expandDaily (cursor : DateValue) (options : ParsedRRuleOptions) :
    List DateValue :=
  let bymonth := options.bymonth.getD []
  let bymonthday := options.bymonthday.getD []
  let byweekday := options.byweekday.getD []
  if bymonth.length > 0 && !(bymonth.contains cursor.month) then []
  else
    let daysInM := getDaysInMonth cursor
    let normalized := bymonthday.map (fun d => if d > 0 then d else daysInM + d + 1)
    if bymonthday.length > 0 && !(normalized.contains cursor.day) then []
    else
      let simpleWeekdays := byweekday.filterMap (fun d =>
        match d with | .wd w => some w | .nth _ _ => none)
      if byweekday.length > 0 && simpleWeekdays.length > 0 &&
          !(simpleWeekdays.contains (getWeekday cursor)) then []
      else [cursor]

/-- Embeds `expandWeekly` of `generator.ts`: all target weekdays of the
cursor's week (per `wkst`), limited by BYMONTH and BYMONTHDAY. -/
def expandWeekly (cursor : DateValue) (options : ParsedRRuleOptions) :
    List DateValue :=
  let byweekday := options.byweekday.getD []
  let bymonth := options.bymonth.getD []
  let bymonthday := options.bymonthday.getD []
  let startOfWeek := getStartOfWeek cursor (options.wkst.getD .MO)
  let targetWeekdays : List Weekday :=
    if byweekday.length > 0 then
      jsUnique (byweekday.map (fun d => match d with | .wd w => w | .nth w _ => w))
    else [getWeekday cursor]
  let results := (List.range 7).filterMap (fun i =>
    let date := addDuration startOfWeek (Duration.ofDays i)
    let weekday := getWeekday date
    if targetWeekdays.contains weekday then
      if bymonth.length > 0 && !(bymonth.contains date.month) then none
      else
        let daysInM := getDaysInMonth date
        let normalized := bymonthday.map (fun d => if d > 0 then d else daysInM + d + 1)
        if bymonthday.length > 0 && !(normalized.contains date.day) then none
        else some date
    else none)
  jsSortDates results

/-- Bucket of `expandByWeekdayInMonth`: the days of the cursor's month
carrying a given weekday, in ascending day order (the `Map` of the source
collects them in the day 1..daysInMonth loop order). -/
def weekdayBucket (cursor : DateValue) (w : Weekday) : List DateValue :=
  ((List.range' 1 (daysInMonth cursor.year cursor.month).toNat).map (fun day =>
    setFields cursor (fieldsDay day))).filter (fun date => getWeekday date == w)

/-- Embeds `expandByWeekdayInMonth` of `generator.ts`: each BYDAY token
contributes its whole bucket (bare weekday) or the single ordinal pick. -/
def expandByWeekdayInMonth (cursor : DateValue) (byweekday : List WeekdayValue) :
    List DateValue :=
  byweekday.flatMap (fun day =>
    match day with
    | .wd w => weekdayBucket cursor w
    | .nth w n =>
      let dates := weekdayBucket cursor w
      if dates.length > 0 then
        let idx : Int := if n > 0 then n - 1 else (dates.length : Int) + n
        if idx ≥ 0 && idx < (dates.length : Int) then (dates.get? idx.toNat).toList
        else []
      else [])

/-- Embeds `expandMonthly` of `generator.ts`. -/
def expandMonthly (cursor : DateValue) (options : ParsedRRuleOptions) :
    List DateValue :=
  let bymonth := options.bymonth.getD []
  let bymonthday := options.bymonthday.getD []
  let byweekday := options.byweekday.getD []
  if bymonth.length > 0 && !(bymonth.contains cursor.month) then []
  else if byweekday.isEmpty && bymonthday.isEmpty then [cursor]
  else
    let daysInM := getDaysInMonth cursor
    let byMonthDayHits : List Int := jsUnique (bymonthday.filterMap (fun d =>
      let normalized := if d > 0 then d else daysInM + d + 1
      if normalized ≥ 1 && normalized ≤ daysInM then some normalized else none))
    if byMonthDayHits.length > 0 && byweekday.isEmpty then
      jsSortDates (byMonthDayHits.map (fun day => setFields cursor (fieldsDay day)))
    else
      let results :=
        if byweekday.length > 0 then
          let byDayHits := expandByWeekdayInMonth cursor byweekday
          if byMonthDayHits.length > 0 then
            byDayHits.filter (fun date => byMonthDayHits.contains date.day)
          else byDayHits
        else []
      jsSortDates results

/-- Time/variant fix-up appearing at the end of the yearly expanders:
preserve the cursor's time fields when both sides carry time, then convert
back to a plain date when the cursor was one. -/
def restoreCursorShape (cursor date : DateValue) : DateValue :=
  let date := if cursor.hasTime && date.hasTime then
      setFields date (fieldsTimeOf cursor)
    else date
  if cursor.isCalendarDate && date.hasTime then toCalendarDate date else date

/-- Embeds `expandByYearDay` of `generator.ts`. -/
def expandByYearDay (cursor : DateValue) (byyearday : List Int) :
    List DateValue :=
  let startOfYear := getStartOfYear cursor
  let endOfYear := getEndOfYear cursor
  let daysInYear := calculateDifferenceInDays startOfYear endOfYear + 1
  jsSortDates (byyearday.filterMap (fun yearDay =>
    let dayNum := if yearDay > 0 then yearDay else daysInYear + yearDay + 1
    if dayNum ≤ 0 || dayNum > daysInYear then none
    else
      let date := addDuration startOfYear (Duration.ofDays (dayNum - 1))
      let date := restoreCursorShape cursor date
      if date.year == cursor.year then some date else none))

/-- Embeds `expandOrdinalByDayInYear` of `generator.ts` (bare weekdays are
skipped by this function). -/
def expandOrdinalByDayInYear (cursor : DateValue) (byweekday : List WeekdayValue) :
    List DateValue :=
  byweekday.filterMap (fun day =>
    match day with
    | .wd _ => none
    | .nth w n =>
      let weekdayNum := getWeekdayIndex w
      let date :=
        if n > 0 then
          let startOfYear := getStartOfYear cursor
          let firstWeekdayIndex := getWeekdayIndex (getWeekday startOfYear)
          let delta := (weekdayNum - firstWeekdayIndex + 7) % 7
          addDuration startOfYear (Duration.ofDays (delta + 7 * (n - 1)))
        else
          let endOfYear := getEndOfYear cursor
          let lastWeekdayIndex := getWeekdayIndex (getWeekday endOfYear)
          let delta := (lastWeekdayIndex - weekdayNum + 7) % 7
          subtractDuration endOfYear (Duration.ofDays (delta + 7 * (-n - 1)))
      let date := restoreCursorShape cursor date
      if date.year == cursor.year then some date else none)

/-- Embeds `expandByWeekNo` of `generator.ts`. -/
def expandByWeekNo (cursor : DateValue) (byweekno : List Int)
    (byweekday : List WeekdayValue) (wkst : Weekday) : List DateValue :=
  let weeksInYear := getWeeksInYear cursor wkst
  let targetWeekdays : List Weekday :=
    if byweekday.length > 0 then
      byweekday.map (fun d => match d with | .wd w => w | .nth w _ => w)
    else [.MO, .TU, .WE, .TH, .FR, .SA, .SU]
  byweekno.flatMap (fun weekNo =>
    let normalizedWeekNo := if weekNo > 0 then weekNo else weeksInYear + weekNo + 1
    if normalizedWeekNo ≤ 0 || normalizedWeekNo > weeksInYear then []
    else
      let startOfYear := getStartOfYear cursor
      let jan4 := setFields startOfYear fieldsMonth1Day4
      let week1Monday := getStartOfWeek jan4 wkst
      let weekStartDate := addDuration week1Monday (Duration.ofWeeks (normalizedWeekNo - 1))
      (List.range 7).filterMap (fun i =>
        let date := addDuration weekStartDate (Duration.ofDays i)
        let weekday := getWeekday date
        if targetWeekdays.contains weekday && date.year == cursor.year then
          some (restoreCursorShape cursor date)
        else none))

/-- Embeds `expandHourly` of `generator.ts` (also the body of
`expandMinutely` and `expandSecondly`). -/
def expandHourly (cursor : DateValue) (options : ParsedRRuleOptions) :
    List DateValue :=
  let bymonth := options.bymonth.getD []
  let bymonthday := options.bymonthday.getD []
  let byweekday := options.byweekday.getD []
  if bymonth.length > 0 && !(bymonth.contains cursor.month) then []
  else
    let daysInM := getDaysInMonth cursor
    let normalized := bymonthday.map (fun d => if d > 0 then d else daysInM + d + 1)
    if bymonthday.length > 0 && !(normalized.contains cursor.day) then []
    else
      let simpleWeekdays := byweekday.filterMap (fun d =>
        match d with | .wd w => some w | .nth _ _ => none)
      if byweekday.length > 0 && simpleWeekdays.length > 0 &&
          !(simpleWeekdays.contains (getWeekday cursor)) then []
      else [cursor]

/-- Embeds `expandMinutely` of `generator.ts`. -/
def expandMinutely (cursor : DateValue) (options : ParsedRRuleOptions) :
    List DateValue :=
  expandHourly cursor options

/-- Embeds `expandSecondly` of `generator.ts`. -/
def expandSecondly (cursor : DateValue) (options : ParsedRRuleOptions) :
    List DateValue :=
  expandHourly cursor options

/-- Embeds `expandYearly` of `generator.ts`. -/
def expandYearly (cursor : DateValue) (options : ParsedRRuleOptions) :
    List DateValue :=
  let bymonth := options.bymonth.getD []
  let bymonthday := options.bymonthday.getD []
  let byweekday := options.byweekday.getD []
  let byyearday := options.byyearday.getD []
  let byweekno := options.byweekno.getD []
  let hasOrdinalByDay := byweekday.any (fun d => !(isBareWeekday d))
  if hasOrdinalByDay && bymonth.isEmpty then
    jsSortDates (expandOrdinalByDayInYear cursor byweekday)
  else
    let results1 :=
      if byyearday.length > 0 then
        let yearDayResults := expandByYearDay cursor byyearday
        if bymonth.length > 0 then
          yearDayResults.filter (fun date => bymonth.contains date.month)
        else yearDayResults
      else []
    let results2 :=
      if byweekno.length > 0 then
        expandByWeekNo cursor byweekno byweekday (options.wkst.getD .MO)
      else []
    let results3 :=
      if byyearday.isEmpty && byweekno.isEmpty then
        let targetMonths :=
          if bymonth.length > 0 then bymonth
          else if bymonthday.length > 0 || byweekday.length > 0 then
            [1, 2, 3, 4, 5, 6, 7, 8, 9, 10, 11, 12]
          else [cursor.month]
        targetMonths.flatMap (fun month =>
          if byweekday.length > 0 || bymonthday.length > 0 then
            expandMonthly (setFields cursor (fieldsMonthDay1 month)) options
          else [setFields cursor (fieldsMonth month)])
      else []
    jsSortDates (results1 ++ results2 ++ results3)

/-- Embeds `expandByTime` of `generator.ts` (cartesian expansion over
BYHOUR, BYMINUTE, BYSECOND; a no-op on moments without time fields). -/
def expandByTime (date : DateValue) (options : ParsedRRuleOptions) :
    List DateValue :=
  let byhour := options.byhour.getD []
  let byminute := options.byminute.getD []
  let bysecond := options.bysecond.getD []
  if byhour.isEmpty && byminute.isEmpty && bysecond.isEmpty then [date]
  else if !date.hasTime then [date]
  else
    let hours := if byhour.length > 0 then byhour else [date.hour]
    let minutes := if byminute.length > 0 then byminute else [date.minute]
    let seconds := if bysecond.length > 0 then bysecond else [date.second]
    hours.flatMap (fun h =>
      minutes.flatMap (fun mi =>
        seconds.map (fun s => setFields date (fieldsHMS h mi s))))

/-- Embeds `applyBySetPos` of `generator.ts`: position picks over the
chronologically sorted expanded set (the loop pushes one element per
in-range position). -/
def applyBySetPos (dates : List DateValue) (options : ParsedRRuleOptions) :
    List DateValue :=
  let bysetpos := options.bysetpos.getD []
  if bysetpos.isEmpty then dates
  else
    let sorted := jsSortDates dates
    let results := bysetpos.foldl (fun acc position =>
      let index : Int := if position > 0 then position - 1 else (sorted.length : Int) + position
      if index ≥ 0 && index < (sorted.length : Int) then
        acc ++ (sorted.get? index.toNat).toList
      else acc) []
    jsSortDates results

/-- Embeds `getFrequencyExpander` of `generator.ts` (the dispatch applied
to the cursor). -/
def expandPeriod (freq : Frequency) (cursor : DateValue)
    (options : ParsedRRuleOptions) : List DateValue :=
  match freq with
  | .YEARLY => expandYearly cursor options
  | .MONTHLY => expandMonthly cursor options
  | .WEEKLY => expandWeekly cursor options
  | .DAILY => expandDaily cursor options
  | .HOURLY => expandHourly cursor options
  | .MINUTELY => expandMinutely cursor options
  | .SECONDLY => expandSecondly cursor options

/-- Embeds `getPeriodStart` of `generator.ts` (the frequency is well-typed
here, so the guard never throws and the cursor starts at the date itself). -/
def getPeriodStart (date : DateValue) (_freq : Frequency) : DateValue :=
  date

/-- Embeds `advancePeriod` of `generator.ts`. -/
def advancePeriod (cursor : DateValue) (freq : Frequency) (interval : Int) :
    DateValue :=
  match freq with
  | .YEARLY => addDuration cursor (Duration.ofYears interval)
  | .MONTHLY => addDuration cursor (Duration.ofMonths interval)
  | .WEEKLY => addDuration cursor (Duration.ofWeeks interval)
  | .DAILY => addDuration cursor (Duration.ofDays interval)
  | .HOURLY => addDuration cursor (Duration.ofHours interval)
  | .MINUTELY => addDuration cursor (Duration.ofMinutes interval)
  | .SECONDLY => addDuration cursor (Duration.ofSeconds interval)

/-- Embeds `advanceCursorToDate` of `generator.ts` (the seeking
approximation). -/
def advanceCursorToDate (cursor target : DateValue) (freq : Frequency)
    (interval : Int) : DateValue :=
  match freq with
  | .YEARLY =>
    let yearDiff := target.year - cursor.year
    let periodsToSkip := jsFloorDiv yearDiff interval
    if periodsToSkip > 0 then addDuration cursor (Duration.ofYears (periodsToSkip * interval))
    else cursor
  | .MONTHLY =>
    let monthDiff := (target.year - cursor.year) * 12 + (target.month - cursor.month)
    let periodsToSkip := jsFloorDiv monthDiff interval
    if periodsToSkip > 0 then addDuration cursor (Duration.ofMonths (periodsToSkip * interval))
    else cursor
  | .WEEKLY =>
    let dayDiff := calculateDifferenceInDays cursor target
    let weekDiff := jsFloorDiv dayDiff 7
    let periodsToSkip := jsFloorDiv weekDiff interval
    if periodsToSkip > 0 then addDuration cursor (Duration.ofWeeks (periodsToSkip * interval))
    else cursor
  | .DAILY =>
    let dayDiff := calculateDifferenceInDays cursor target
    let periodsToSkip := jsFloorDiv dayDiff interval
    if periodsToSkip > 0 then addDuration cursor (Duration.ofDays (periodsToSkip * interval))
    else cursor
  | .HOURLY => cursor
  | .MINUTELY => cursor
  | .SECONDLY => cursor

/-- Ways in which a generator run ends in this embedding.  `done` is normal
termination (including the empty-period detector), the two error outcomes
model the thrown exceptions, and `outOfFuel` marks an exhausted step budget
of the embedding (never reached by the theorems below). -/
inductive GenOutcome
  | done
  | maxIterExceeded
  | missingDtstart
  | outOfFuel
deriving DecidableEq, Repr

/-- Result of driving the generator to the end: the emitted moments in
order, how the run ended, and how many cursor advances were performed. -/
structure GenResult where
  emissions : List DateValue
  outcome : GenOutcome
  advances : Int
deriving DecidableEq, Repr

/-- Embeds the emission loop of `generateDates` for one period's filtered
list: skip moments before `dtstart`, return on a moment past `until`,
yield and count otherwise, return when COUNT is reached.  Returns the
yields, the new `emitted` counter and whether the generator returned. -/
def emitLoop (dtstart : DateValue) (untilDate : Option DateValue)
    (count : Option Int) (emitted : Int) :
    List DateValue → List DateValue × Int × Bool
  | [] => ([], emitted, false)
  | d :: rest =>
    if compareDates d dtstart < 0 then emitLoop dtstart untilDate count emitted rest
    else if (match untilDate with | some u => decide (compareDates d u > 0) | none => false) then
      ([], emitted, true)
    else
      let emitted' := emitted + 1
      if (match count with | some c => decide (emitted' ≥ c) | none => false) then
        ([d], emitted', true)
      else
        let (ys, e, t) := emitLoop dtstart untilDate count emitted' rest
        (d :: ys, e, t)

/-- One full period of `generateDates`: expansion, time expansion and
BYSETPOS, then the emission loop. -/
def periodFiltered (options : ParsedRRuleOptions) (cursor : DateValue) :
    List DateValue :=
  let candidates := expandPeriod options.freq cursor options
  let expanded := candidates.flatMap (fun date => expandByTime date options)
  applyBySetPos expanded options

/-- Moments a single period would yield (the emission loop of
`generateDates` run on the period's filtered list with the given totals). -/
def periodYields (options : ParsedRRuleOptions) (dtstart : DateValue)
    (emitted : Int) (cursor : DateValue) : List DateValue :=
  (emitLoop dtstart options.untilDate options.count emitted
    (periodFiltered options cursor)).1

/-- Embeds the `while (true)` loop of `generateDates`.  `iterations` holds
the source's counter before the `iterations++ > maxIterations` check of the
current entry; one fuel unit is spent per loop entry. -/
def genLoop (options : ParsedRRuleOptions) (maxIterations : Int)
    (dtstart : DateValue) (interval : Int) :
    Nat → DateValue → Int → Int → Int → Int → GenResult
  | 0, _, _, _, _, adv => ⟨[], .outOfFuel, adv⟩
  | fuel + 1, cursor, emitted, iterations, consecutiveEmpty, adv =>
    if iterations > maxIterations then ⟨[], .maxIterExceeded, adv⟩
    else
      let filtered := periodFiltered options cursor
      let (ys, emitted', term) :=
        emitLoop dtstart options.untilDate options.count emitted filtered
      if term then ⟨ys, .done, adv⟩
      else
        let yieldedThisPeriod := !ys.isEmpty
        if !yieldedThisPeriod && consecutiveEmpty + 1 ≥ 1000 && emitted' == 0 then
          ⟨ys, .done, adv⟩
        else
          let r := genLoop options maxIterations dtstart interval fuel
            (advancePeriod cursor options.freq interval) emitted'
            (iterations + 1)
            (if yieldedThisPeriod then 0 else consecutiveEmpty + 1)
            (adv + 1)
          ⟨ys ++ r.emissions, r.outcome, r.advances⟩

/-- Embeds `generateDates` of `generator.ts`, driven to completion with an
explicit fuel (one unit per loop entry).  `after` is the optional seek
target of the third parameter. -/
def generateDates (options : ParsedRRuleOptions) (maxIterations : Int)
    (after : Option DateValue) (fuel : Nat) : GenResult :=
  match options.dtstart with
  | none => ⟨[], .missingDtstart, 0⟩
  | some dtstart =>
    let interval := options.interval.getD 1
    if interval == 0 then ⟨[], .done, 0⟩
    else if (match options.untilDate with
        | some u => decide (compareDates u dtstart < 0)
        | none => false) then ⟨[], .done, 0⟩
    else
      let cursor0 := getPeriodStart dtstart options.freq
      let cursor :=
        match after with
        | some a =>
          if compareDates a dtstart > 0 then
            advanceCursorToDate cursor0 a options.freq interval
          else cursor0
        | none => cursor0
      genLoop options maxIterations dtstart interval fuel cursor 0 0 0 0

/-- Default of the `maxIterations` parameter of `generateDates`. -/
def defaultMaxIterations : Int := 10000

/-- Embeds the `maxIterations` setter of `rrule.ts` (`RRule`): values below
1 are rejected. -/
def setMaxIterations (value : Option Int) : Except ErrMsg (Option Int) :=
  match value with
  | some v => if v < 1 then .error .maxIterationsBelowOne else .ok (some v)
  | none => .ok none

/-- Embeds the `dtstart` setter of `rrule.ts`: the raw value is stored with
no validation against `until`. -/
def setDtstart (options : ParsedRRuleOptions) (value : Option DateValue) :
    ParsedRRuleOptions :=
  { options with dtstart := value }

/-- Collection loop of `RRule.after`: skip occurrences at or before the
reference (strictly before when inclusive), stop once `limit` items are
collected (a `limit` of 0 is falsy in JS and means no limit).  Returns the
collected list and whether the loop broke early at the limit. -/
def collectAfter (date : DateValue) (inclusive : Bool) (limit : Option Int)
    (acc : List DateValue) : List DateValue → List DateValue × Bool
  | [] => (acc, false)
  | current :: rest =>
    let cmp := compareDates current date
    if cmp < 0 then collectAfter date inclusive limit acc rest
    else if cmp == 0 && !inclusive then collectAfter date inclusive limit acc rest
    else
      let acc' := acc ++ [current]
      if (match limit with | some l => !(l == 0) && decide ((acc'.length : Int) ≥ l) | none => false) then
        (acc', true)
      else collectAfter date inclusive limit acc' rest

/-- Embeds `RRule.after` of `rrule.ts`: drives `generateDates` with the
reference date as seek target; an exceptional end of the generator
surfaces unless the limit break came first. -/
def afterFn (options : ParsedRRuleOptions) (maxIterations : Int) (fuel : Nat)
    (date : DateValue) (inclusive : Bool) (limit : Option Int) :
    Except GenOutcome (List DateValue) :=
  let r := generateDates options maxIterations (some date) fuel
  let (result, brokeEarly) := collectAfter date inclusive limit [] r.emissions
  if brokeEarly then .ok result
  else
    match r.outcome with
    | .done => .ok result
    | o => .error o

/-- Corresponds to `value instanceof CalendarDateTime`. -/
def DateValue.isPlainDateTime : DateValue → Bool
  | .dateTime _ _ _ _ _ _ _ => true
  | _ => false

/-- Embeds `formatICSDateValue` of `format.ts` (the modelled zoned variant
is always in the zone UTC, hence the `Z` suffix). -/
def formatICSDateValue (value : DateValue) : Str :=
  let datePart := padZero value.year 4 ++ padZero value.month 2 ++ padZero value.day 2
  match value with
  | .date _ _ _ => datePart
  | .dateTime _ _ _ _ _ _ _ =>
    datePart ++ 'T' :: (padZero value.hour 2 ++ padZero value.minute 2 ++ padZero value.second 2)
  | .zoned _ _ _ _ _ _ _ =>
    datePart ++ 'T' :: (padZero value.hour 2 ++ padZero value.minute 2 ++ padZero value.second 2) ++ ['Z']

/-- Embeds `formatWeekdayValue` of `format.ts` (an ordinal of 0 is falsy in
JS and collapses to the bare weekday). -/
def formatWeekdayValue (value : WeekdayValue) : Str :=
  match value with
  | .wd w => weekdayStr w
  | .nth w n => if n == 0 then weekdayStr w else intRepr n ++ weekdayStr w

/-- Embeds `formatUntilICSDateValue` of `format.ts`: UNTIL is emitted in
the shape of DTSTART (date form, datetime form, or UTC datetime with `Z`),
failing when UNTIL is before DTSTART.  The `toTimeZone(value, 'UTC')`
branch is the identity here because the modelled zoned variant is already
in UTC. -/
def formatUntilICSDateValue (value : DateValue) (start : Option DateValue) :
    Except ErrMsg DateValue :=
  match start with
  | none => .ok value
  | some s =>
    if compareDates value s < 0 then .error .untilBeforeDtstart
    else
      let value := if s.isCalendarDate then toCalendarDate value else value
      let value := if s.isPlainDateTime then toCalendarDateTime value else value
      let value :=
        match s with
        | .zoned _ _ _ _ _ _ _ =>
          if value.isCalendarDate || value.isPlainDateTime then toZonedUTC value else value
        | _ => value
      .ok value

/-- Selector part of `formatRRule`: `KEY=` followed by the comma-joined
values, emitted only when the list is present and non-empty. -/
def numListParts (key : Str) (o : Option (List Int)) : List Str :=
  match o with
  | some l => if l.length > 0 then [key ++ List.intercalate [','] (l.map intRepr)] else []
  | none => []

/-- INTERVAL part pushed by `formatRRule` (omitted when the interval is 1
or absent). -/
def intervalPart (o : Option Int) : List Str :=
  match o with
  | some i => if !(i == 1) then [("INTERVAL=".toList) ++ intRepr i] else []
  | none => []

/-- COUNT part pushed by `formatRRule`. -/
def countPart (o : Option Int) : List Str :=
  match o with
  | some c => [("COUNT=".toList) ++ intRepr c]
  | none => []

/-- WKST part pushed by `formatRRule`. -/
def wkstPart (o : Option Weekday) : List Str :=
  match o with
  | some w => [("WKST=".toList) ++ weekdayStr w]
  | none => []

/-- BYDAY part pushed by `formatRRule` (omitted when the list is empty). -/
def byDayPart (o : Option (List WeekdayValue)) : List Str :=
  match o with
  | some l =>
    if l.length > 0 then
      [("BYDAY=".toList) ++ List.intercalate [','] (l.map formatWeekdayValue)]
    else []
  | none => []

/-- Parts pushed by `formatRRule` of `format.ts`, in its fixed order. -/
def formatRRuleParts (options : ParsedRRuleOptions) : Except ErrMsg (List Str) := do
  let untilParts ←
    match options.untilDate with
    | some u => do
      let uv ← formatUntilICSDateValue u options.dtstart
      pure [("UNTIL=".toList) ++ formatICSDateValue uv]
    | none => pure []
  pure (
    [("FREQ=".toList) ++ freqStr options.freq]
    ++ intervalPart options.interval
    ++ countPart options.count
    ++ untilParts
    ++ wkstPart options.wkst
    ++ numListParts ("BYMONTH=".toList) options.bymonth
    ++ numListParts ("BYMONTHDAY=".toList) options.bymonthday
    ++ numListParts ("BYYEARDAY=".toList) options.byyearday
    ++ numListParts ("BYWEEKNO=".toList) options.byweekno
    ++ byDayPart options.byweekday
    ++ numListParts ("BYHOUR=".toList) options.byhour
    ++ numListParts ("BYMINUTE=".toList) options.byminute
    ++ numListParts ("BYSECOND=".toList) options.bysecond
    ++ numListParts ("BYSETPOS=".toList) options.bysetpos)

/-- Embeds `formatRRule` of `format.ts`. -/
def formatRRule (options : ParsedRRuleOptions) : Except ErrMsg Str :=
  (formatRRuleParts options).map (fun parts =>
    ("RRULE:".toList) ++ List.intercalate [';'] parts)

/-- Embeds `unfoldLine` of `utils.ts`: the global replacement of
`\r?\n([ \t])(?![ \t])` by the empty string (a line fold is removed
together with the single following space or tab). -/
def unfoldLine : Str → Str
  | [] => []
  | '\r' :: '\n' :: c :: rest =>
    if (c == ' ' || c == '\t') &&
        !(match rest with | c2 :: _ => c2 == ' ' || c2 == '\t' | [] => false) then
      unfoldLine rest
    else '\r' :: unfoldLine ('\n' :: c :: rest)
  | '\n' :: c :: rest =>
    if (c == ' ' || c == '\t') &&
        !(match rest with | c2 :: _ => c2 == ' ' || c2 == '\t' | [] => false) then
      unfoldLine rest
    else '\n' :: unfoldLine (c :: rest)
  | c :: rest => c :: unfoldLine rest

/-- Embeds `splitOnce` of `utils.ts` (JS `value.split(separator, 2)`). -/
def splitOnce (s : Str) (sep : Char) : Str × Option Str :=
  match List.splitOn sep s with
  | [] => ([], none)
  | [a] => (a, none)
  | a :: b :: _ => (a, some b)

/-- Embeds `parseList` of `parse.ts`. -/
def parseList (value : Str) (sep : Char) : List Str :=
  if (trimStr value).isEmpty then []
  else ((List.splitOn sep value).map trimStr).filter (fun item => item.length > 0)

/-- Embeds `parseIntegerList` of `parse.ts` (`NaN` entries are dropped). -/
def parseIntegerList (value : Str) (sep : Char) : List Int :=
  (parseList value sep).filterMap parseInteger

/-- Embeds `isNumberInRange` of `utils.ts` with its default inclusive
bounds. -/
def isNumberInRange (value min' max' : Int) : Bool :=
  value ≥ min' && value ≤ max'

/-- Shape test performed by the pattern `^\d{8}(?:T\d{6}Z?)?$` of
`parseICSDateValue`. -/
def icsShapeOk (s : Str) : Bool :=
  (s.take 8).length == 8 && (s.take 8).all isDigitChar &&
  (match s.drop 8 with
   | [] => true
   | 'T' :: rest =>
     (rest.length == 6 && rest.all isDigitChar) ||
     (rest.length == 7 && (rest.take 6).all isDigitChar && rest.getLast? == some 'Z')
   | _ => false)

/-- Embeds JS `String.prototype.slice(a, b)` for `0 ≤ a ≤ b`. -/
def sliceStr (s : Str) (a b : Nat) : Str :=
  (s.drop a).take (b - a)

/-- Embeds `parseICSDateValue` of `parse.ts`.  The slice/`parseInt` reads
mirror the source; the `parseDate`/`parseDateTime`/`parseAbsolute`
constructors of the collaborator constrain their fields, modelled by the
same clamps as `setFields`. -/
def parseICSDateValue (s : Str) : Except ErrMsg DateValue :=
  let v := trimStr s
  if !icsShapeOk v then .error .invalidICSDateFormat
  else
    let year := (parseInteger (sliceStr v 0 4)).getD 0
    let month := (parseInteger (sliceStr v 4 6)).getD 0
    let day := (parseInteger (sliceStr v 6 8)).getD 0
    match parseInteger (sliceStr v 9 11), parseInteger (sliceStr v 11 13),
        parseInteger (sliceStr v 13 15) with
    | some h, some mi, some sec =>
      let m' := clampInt month 1 12
      let d' := clampInt day 1 (daysInMonth year m')
      let h' := clampInt h 0 23
      let mi' := clampInt mi 0 59
      let s' := clampInt sec 0 59
      if v.getLast? == some 'Z' then .ok (.zoned year m' d' h' mi' s' 0)
      else .ok (.dateTime year m' d' h' mi' s' 0)
    | _, _, _ =>
      let m' := clampInt month 1 12
      .ok (.date year m' (clampInt day 1 (daysInMonth year m')))

/-- Embeds `parseRRuleFrequency` of `parser.ts`. -/
def parseRRuleFrequency (value : Str) (strict : Bool) : Except ErrMsg Frequency :=
  match parseFrequency value with
  | .ok f => .ok f
  | .error _ => if strict then .error .invalidFrequency else .ok .YEARLY

/-- Embeds `parseRRuleInterval` of `parser.ts`. -/
def parseRRuleInterval (value : Str) (strict : Bool) : Except ErrMsg Int :=
  match parsePositiveInteger value with
  | .ok n => .ok n
  | .error _ => if strict then .error .invalidPositiveInteger else .ok 1

/-- Embeds `parseRRuleCount` of `parser.ts` (`none` models the lenient
`return undefined`). -/
def parseRRuleCount (value : Str) (strict : Bool) : Except ErrMsg (Option Int) :=
  match parsePositiveInteger value with
  | .ok n => .ok (some n)
  | .error _ => if strict then .error .invalidPositiveInteger else .ok none

/-- Embeds `parseRRuleUntil` of `parser.ts`. -/
def parseRRuleUntil (value : Str) (strict : Bool) : Except ErrMsg (Option DateValue) :=
  match parseICSDateValue (trimStr value) with
  | .ok d => .ok (some d)
  | .error _ => if strict then .error .invalidUntilValue else .ok none

/-- Embeds `parseRRuleWkst` of `parser.ts` (an all-whitespace value yields
`undefined` without error). -/
def parseRRuleWkst (value : Str) (strict : Bool) : Except ErrMsg (Option Weekday) :=
  if (trimStr value).isEmpty then .ok none
  else
    match parseWeekday value with
    | .ok w => .ok (some w)
    | .error _ => if strict then .error .invalidWeekday else .ok none

/-- Token loop of `parseRRuleByDay` of `parser.ts`. -/
def parseByDayTokens (strict : Bool) : List Str → Except ErrMsg (List WeekdayValue)
  | [] => .ok []
  | day :: rest =>
    match parseWeekdayValue day with
    | .ok wv => (parseByDayTokens strict rest).map (fun tail => wv :: tail)
    | .error _ =>
      if strict then .error .invalidWeekdayFormat
      else parseByDayTokens strict rest

/-- Embeds `parseRRuleByDay` of `parser.ts`. -/
def parseRRuleByDay (value : Str) (strict : Bool) : Except ErrMsg (List WeekdayValue) :=
  let weekdays := parseList value ','
  if weekdays.isEmpty then .ok []
  else (parseByDayTokens strict weekdays).map uniqueWeekdayValues

/-- Value loop of `parseRRuleNumberList` of `parser.ts`. -/
def numberListLoop (min' max' : Int) (excludeZero strict : Bool) :
    List Int → Except ErrMsg (List Int)
  | [] => .ok []
  | number :: rest =>
    if excludeZero && number == 0 then
      if strict then .error .invalidRRuleParam
      else numberListLoop min' max' excludeZero strict rest
    else if !isNumberInRange number min' max' then
      if strict then .error .invalidRRuleParam
      else numberListLoop min' max' excludeZero strict rest
    else (numberListLoop min' max' excludeZero strict rest).map (fun tail => number :: tail)

/-- Embeds `parseRRuleNumberList` of `parser.ts`. -/
def parseRRuleNumberList (value : Str) (min' max' : Int)
    (excludeZero strict : Bool) : Except ErrMsg (List Int) :=
  let numbers := parseIntegerList value ','
  if numbers.isEmpty then .ok []
  else (numberListLoop min' max' excludeZero strict numbers).map jsUnique

/-- Accumulator of the `parseRRule` parameter loop (the `options` object
being filled in; `byweekday` and `wkst` are already in parsed shape). -/
structure ParseAccum where
  freq : Option Frequency
  interval : Option Int
  count : Option Int
  untilDate : Option DateValue
  wkst : Option Weekday
  bysetpos : Option (List Int)
  bymonth : Option (List Int)
  bymonthday : Option (List Int)
  byyearday : Option (List Int)
  byweekday : Option (List WeekdayValue)
  byweekno : Option (List Int)
  byhour : Option (List Int)
  byminute : Option (List Int)
  bysecond : Option (List Int)
deriving DecidableEq, Repr

def ParseAccum.empty : ParseAccum :=
  ⟨none, none, none, none, none, none, none, none, none, none, none, none,
    none, none⟩

/-- Body of one iteration of the parameter loop of `parseRRule` (the
`switch` on the upper-cased key); errors escape to the surrounding
`try`/`catch`. -/
def applyRRuleParamBody (strict : Bool) (o : ParseAccum) (param : Str) :
    Except ErrMsg ParseAccum := do
  let (key, valueOpt) := splitOnce param '='
  match valueOpt with
  | none => throw .invalidRRuleParam
  | some value =>
    if key.isEmpty || value.isEmpty then throw .invalidRRuleParam
    else
      let k := toUpperStr key
      if k = "FREQ".toList then do
        let f ← parseRRuleFrequency value strict
        pure { o with freq := some f }
      else if k = "INTERVAL".toList then do
        let i ← parseRRuleInterval value strict
        pure { o with interval := some i }
      else if k = "COUNT".toList then do
        let c ← parseRRuleCount value strict
        pure { o with count := c }
      else if k = "UNTIL".toList then do
        let u ← parseRRuleUntil value strict
        pure { o with untilDate := u }
      else if k = "WKST".toList then do
        let w ← parseRRuleWkst value strict
        pure { o with wkst := w }
      else if k = "BYDAY".toList || k = "BYWEEKDAY".toList then do
        let l ← parseRRuleByDay value strict
        pure { o with byweekday := some l }
      else if k = "BYMONTH".toList then do
        let l ← parseRRuleNumberList value 1 12 true strict
        pure { o with bymonth := some l }
      else if k = "BYMONTHDAY".toList then do
        let l ← parseRRuleNumberList value (-31) 31 true strict
        pure { o with bymonthday := some l }
      else if k = "BYYEARDAY".toList then do
        let l ← parseRRuleNumberList value (-366) 366 true strict
        pure { o with byyearday := some l }
      else if k = "BYWEEKNO".toList then do
        let l ← parseRRuleNumberList value (-53) 53 true strict
        pure { o with byweekno := some l }
      else if k = "BYHOUR".toList then do
        let l ← parseRRuleNumberList value 0 23 false strict
        pure { o with byhour := some l }
      else if k = "BYMINUTE".toList then do
        let l ← parseRRuleNumberList value 0 59 false strict
        pure { o with byminute := some l }
      else if k = "BYSECOND".toList then do
        let l ← parseRRuleNumberList value 0 59 false strict
        pure { o with bysecond := some l }
      else if k = "BYSETPOS".toList then do
        let l ← parseRRuleNumberList value (-366) 366 true strict
        pure { o with bysetpos := some l }
      else throw .unknownRRuleParam

/-- One iteration of the parameter loop with its `try`/`catch`: lenient
mode swallows the error and keeps the options unchanged. -/
def applyRRuleParam (strict : Bool) (o : ParseAccum) (param : Str) :
    Except ErrMsg ParseAccum :=
  match applyRRuleParamBody strict o param with
  | .ok o' => .ok o'
  | .error e => if strict then .error e else .ok o

/-- Match of the anchored pattern `^RRULE:(.+)$` (case-insensitive; `.`
matches neither `\n` nor `\r`). -/
def rrulePayload (s : Str) : Option Str :=
  if toUpperStr (s.take 6) = "RRULE:".toList then
    let rest := s.drop 6
    if !rest.isEmpty && rest.all (fun c => !(c == '\n') && !(c == '\r')) then some rest
    else none
  else none

/-- Embeds `parseRRule` of `parser.ts` (the returned object never carries a
`dtstart`; `parseICS` merges one in separately). -/
def parseRRule (rruleString : Str) (strict : Bool) :
    Except ErrMsg ParsedRRuleOptions := do
  let unfolded := unfoldLine (trimStr rruleString)
  match rrulePayload unfolded with
  | none => throw .invalidRRuleString
  | some rrule =>
    let params := parseList rrule ';'
    let o ← params.foldlM (applyRRuleParam strict) ParseAccum.empty
    match o.freq with
    | none => throw .freqRequired
    | some f =>
      if o.count.isSome && o.untilDate.isSome then throw .countAndUntil
      else
        pure ⟨f, none, o.interval, o.count, o.untilDate, o.wkst, o.bysetpos,
          o.bymonth, o.bymonthday, o.byyearday, o.byweekday, o.byweekno,
          o.byhour, o.byminute, o.bysecond⟩

instance {ε α : Type} [DecidableEq ε] [DecidableEq α] : DecidableEq (Except ε α)
  | .ok a, .ok b => if h : a = b then .isTrue (by rw [h]) else .isFalse (by simp [h])
  | .ok _, .error _ => .isFalse (by simp)
  | .error _, .ok _ => .isFalse (by simp)
  | .error e, .error f => if h : e = f then .isTrue (by rw [h]) else .isFalse (by simp [h])

/-- Rule of the C1 analysis: `FREQ=MONTHLY;COUNT=3` anchored at 2025-01-31,
with no BY* selector. -/
def c1opts : ParsedRRuleOptions :=
  ⟨.MONTHLY, some (.date 2025 1 31), none, some 3, none, none, none, none,
    none, none, none, none, none, none, none⟩

/-- Input whose sanitization yields `c1opts`. -/
def c1input : RRuleOptions :=
  { RRuleOptions.empty with
      freq := some .MONTHLY, dtstart := some (.date 2025 1 31), count := some 3 }

/-- Rule of the C2 analysis: `FREQ=MONTHLY;COUNT=3;BYDAY=MO,1MO` anchored
at 1997-style 2025-09-01T09:00 (a Monday): the bare `MO` and the ordinal
`1MO` both select the first Monday. -/
def c2opts : ParsedRRuleOptions :=
  ⟨.MONTHLY, some (.dateTime 2025 9 1 9 0 0 0), none, some 3, none, none,
    none, none, none, none, some [.wd .MO, .nth .MO 1], none, none, none, none⟩

/-- Input whose sanitization yields `c2opts`. -/
def c2input : RRuleOptions :=
  { RRuleOptions.empty with
      freq := some .MONTHLY, dtstart := some (.dateTime 2025 9 1 9 0 0 0),
      count := some 3,
      byweekday := some [.str ['M', 'O'], .obj .MO 1] }

/-- Rule of the C4 analysis: `FREQ=DAILY;COUNT=5` anchored at 2025-01-01. -/
def c4opts : ParsedRRuleOptions :=
  ⟨.DAILY, some (.date 2025 1 1), none, some 5, none, none, none, none,
    none, none, none, none, none, none, none⟩

/-- Seek target of the C4 analysis. -/
def c4target : DateValue := .date 2025 1 3

/-- Concrete rule for the C10 witness: an until of 2025-01-01 with the
dtstart setter moving the anchor to 2025-06-01. -/
def c10opts : ParsedRRuleOptions :=
  ⟨.DAILY, some (.date 2024 1 1), none, none, some (.date 2025 1 1), none,
    none, none, none, none, none, none, none, none, none⟩

/-- Position picks of the BYSETPOS step, as described by the specification:
for each `p`, index `p - 1` when `p > 0`, `len + p` when `p < 0`,
out-of-range indices discarded. -/
def bySetPosPicks (sorted : List DateValue) (ps : List Int) : List DateValue :=
  ps.filterMap (fun p =>
    let index : Int := if p > 0 then p - 1 else (sorted.length : Int) + p
    if index ≥ 0 && index < (sorted.length : Int) then sorted.get? index.toNat
    else none)

/-- BYSETPOS step exactly as the claim words it ("collect unique
survivors"): sort, pick positions, deduplicate, re-sort. -/
def applyBySetPosSpec (dates : List DateValue) (bysetpos : List Int) :
    List DateValue :=
  if bysetpos.isEmpty then dates
  else jsSortDates (jsUnique (bySetPosPicks (jsSortDates dates) bysetpos))

/-- Violations that actually make the sanitizer fail: the claim's three
structural conditions, but evaluated on the sanitized field values (a
COUNT that sanitizes away no longer collides; a BYSETPOS list whose every
entry is dropped no longer needs a partner). -/
def C6Violation (O : RRuleOptions) : Prop :=
  ((sanitizeNumber O.count (some 1) none false).isSome ∧ O.untilDate.isSome) ∨
  (match O.untilDate, O.dtstart with
   | some u, some s => compareDates u s < 0
   | _, _ => False) ∨
  ((sanitizeNumberArray O.bysetpos (some (-366)) (some 366) false).getD [] ≠ [] ∧
   (sanitizeNumberArray O.bymonth (some 1) (some 12) false).getD [] = [] ∧
   (sanitizeNumberArray O.bymonthday (some (-31)) (some 31) false).getD [] = [] ∧
   (sanitizeNumberArray O.byyearday (some (-366)) (some 366) false).getD [] = [] ∧
   (sanitizeWeekdayValueArray O.byweekday).getD [] = [] ∧
   (sanitizeNumberArray O.byweekno (some (-53)) (some 53) false).getD [] = [] ∧
   (sanitizeNumberArray O.byhour (some 0) (some 23) true).getD [] = [] ∧
   (sanitizeNumberArray O.byminute (some 0) (some 59) true).getD [] = [] ∧
   (sanitizeNumberArray O.bysecond (some 0) (some 59) true).getD [] = [])

/-- Options record with COUNT=0 and UNTIL both set. -/
def c6inputA : RRuleOptions :=
  { RRuleOptions.empty with
      count := some 0
      untilDate := some (.date 2025 1 2)
      dtstart := some (.date 2025 1 1) }

/-- Options record with a non-empty BYSETPOS list (its only entry is the
forbidden 0) and no other selector. -/
def c6inputB : RRuleOptions :=
  { RRuleOptions.empty with bysetpos := some [0] }

/-- Unbounded DAILY rule used by the C7 witness. -/
def c7opts : ParsedRRuleOptions :=
  ⟨.DAILY, some (.date 2025 1 1), none, none, none, none, none, none, none,
    none, none, none, none, none, none⟩

/-- Cursor of the k-th period of an unseeked run (dtstart's period start,
then k advances). -/
def cursorAtPeriod (options : ParsedRRuleOptions) (dtstart : DateValue)
    (interval : Int) : Nat → DateValue
  | 0 => getPeriodStart dtstart options.freq
  | k + 1 => advancePeriod (cursorAtPeriod options dtstart interval k) options.freq interval

/-- Impossible rule of the C8 witness: `MONTHLY;BYMONTHDAY=31;BYMONTH=4`
(April has 30 days). -/
def c8opts : ParsedRRuleOptions :=
  ⟨.MONTHLY, some (.date 2025 1 31), none, none, none, none, none,
    some [4], some [31], none, none, none, none, none, none⟩

def plainOk (c : Char) : Prop :=
  isJsWs c = false ∧ Char.toUpper c = c ∧ c ≠ ',' ∧ c ≠ ';' ∧ c ≠ '=' ∧
  c ≠ Char.ofNat 10 ∧ c ≠ Char.ofNat 13

instance (c : Char) : Decidable (plainOk c) := by
  unfold plainOk
  infer_instance

/-- Characters of each emitted RRULE parameter: never whitespace, never the
parameter separator. -/
def partOk (p : Str) : Prop :=
  p ≠ [] ∧ ∀ c ∈ p, isJsWs c = false ∧ c ≠ ';'

/-- Round-trip condition on a `byweekday` entry: an ordinal is nonzero and
within the range that both the token regex (two digits) and
`parseWeekdayValue` (±53) accept. -/
def wvOK : WeekdayValue → Prop
  | .wd _ => True
  | .nth _ n => n ≠ 0 ∧ -53 ≤ n ∧ n ≤ 53

instance (wv : WeekdayValue) : Decidable (wvOK wv) := by
  cases wv <;> (unfold wvOK; infer_instance)

/-- Round-trip condition on a numeric selector field: absent, or a
non-empty duplicate-free list of in-range values (nonzero when the key
forbids zero). -/
def numFieldOK (o : Option (List Int)) (mn mx : Int) (ez : Bool) : Prop :=
  match o with
  | none => True
  | some l => l ≠ [] ∧ l.Nodup ∧ ∀ x ∈ l, (ez = true → x ≠ 0) ∧ mn ≤ x ∧ x ≤ mx

instance (o : Option (List Int)) (mn mx : Int) (ez : Bool) :
    Decidable (numFieldOK o mn mx ez) := by
  cases o <;> (unfold numFieldOK; infer_instance)

/-- Round-trip condition on the interval field: absent or at least 2 (a
stored interval of 1 is omitted by the formatter and lost). -/
def intervalFieldOK (o : Option Int) : Prop :=
  match o with
  | none => True
  | some i => 2 ≤ i

instance (o : Option Int) : Decidable (intervalFieldOK o) := by
  cases o <;> (unfold intervalFieldOK; infer_instance)

/-- Round-trip condition on the count field: absent or positive. -/
def countFieldOK (o : Option Int) : Prop :=
  match o with
  | none => True
  | some c => 1 ≤ c

instance (o : Option Int) : Decidable (countFieldOK o) := by
  cases o <;> (unfold countFieldOK; infer_instance)

/-- Round-trip condition on the byweekday field: absent, or a non-empty
duplicate-free list of entries whose ordinals round-trip. -/
def bydayFieldOK (o : Option (List WeekdayValue)) : Prop :=
  match o with
  | none => True
  | some l => l ≠ [] ∧ l.Nodup ∧ ∀ wv ∈ l, wvOK wv

instance (o : Option (List WeekdayValue)) : Decidable (bydayFieldOK o) := by
  cases o <;> (unfold bydayFieldOK; infer_instance)

def c5bugInput : RRuleOptions :=
  { RRuleOptions.empty with
    freq := some .DAILY
    interval := some 1
    dtstart := some (.date 2025 1 1) }

def c5bugSan : ParsedRRuleOptions :=
  ⟨.DAILY, some (.date 2025 1 1), some 1, none, none, none, none, none, none,
    none, none, none, none, none, none⟩

def c5opts : ParsedRRuleOptions :=
  ⟨.WEEKLY, none, some 2, none, some (.date 2025 6 15), some .SU, none,
    some [6, 7], none, none, some [.wd .TU, .nth .FR (-2)], none, none, none,
    none⟩

/-- Round-trip condition on a stored UNTIL value: calendar fields in
range, year within the four-digit window, and no millisecond part (the
ICS text carries none). -/
def icsRoundOK (u : DateValue) : Prop :=
  0 ≤ u.year ∧ u.year ≤ 9999 ∧ 1 ≤ u.month ∧ u.month ≤ 12 ∧ 1 ≤ u.day ∧
  u.day ≤ daysInMonth u.year u.month ∧ 0 ≤ u.hour ∧ u.hour ≤ 23 ∧
  0 ≤ u.minute ∧ u.minute ≤ 59 ∧ 0 ≤ u.second ∧ u.second ≤ 59 ∧
  u.millisecond = 0

instance (u : DateValue) : Decidable (icsRoundOK u) := by
  unfold icsRoundOK
  infer_instance

/-- Round-trip condition on the until field: absent or a value whose ICS
text reads back identically. -/
def untilFieldOK (o : Option DateValue) : Prop :=
  match o with
  | none => True
  | some u => icsRoundOK u

instance (o : Option DateValue) : Decidable (untilFieldOK o) := by
  cases o <;> (unfold untilFieldOK; infer_instance)

/-- UNTIL part pushed by `formatRRule` in the shape its DTSTART-free
branch produces (with no dtstart, `formatUntilICSDateValue` returns the
value unchanged). -/
def untilPart (o : Option DateValue) : List Str :=
  match o with
  | some u => [("UNTIL=".toList) ++ formatICSDateValue u]
  | none => []

theorem natDigitsAux_congr :
    ∀ (fuelA : Nat), ∀ (fuelB n : Nat), n < fuelA → n < fuelB →
      natDigitsAux fuelA n = natDigitsAux fuelB n := by
  intro fuelA
  induction fuelA with
  | zero => intro fuelB n h; omega
  | succ fA ih =>
    intro fuelB n h1 h2
    cases fuelB with
    | zero => omega
    | succ fB =>
      simp only [natDigitsAux]
      by_cases h : n < 10
      · simp [h]
      · simp only [h, if_false]
        have hdiv : n / 10 < n := Nat.div_lt_self (by omega) (by omega)
        rw [ih fB (n / 10) (by omega) (by omega)]

theorem natDigits_unfold (n : Nat) :
    natDigits n = if n < 10 then [digitChar n]
      else natDigits (n / 10) ++ [digitChar (n % 10)] := by
  unfold natDigits
  by_cases h : n < 10
  · simp [natDigitsAux, h]
  · simp only [natDigitsAux, h, if_false]
    have hdiv : n / 10 < n := Nat.div_lt_self (by omega) (by omega)
    rw [natDigitsAux_congr n (n / 10 + 1) (n / 10) (by omega) (by omega)]
    congr 1

theorem natDigits_digits (n : Nat) :
    ∀ c ∈ natDigits n, ∃ m, m < 10 ∧ c = digitChar m := by
  induction n using Nat.strong_induction_on with
  | _ n ih =>
    rw [natDigits_unfold]
    by_cases h : n < 10
    · simp only [h, if_true, List.mem_singleton]
      intro c hc
      exact ⟨n, h, hc⟩
    · simp only [h, if_false, List.mem_append, List.mem_singleton]
      intro c hc
      rcases hc with hc | hc
      · exact ih (n / 10) (Nat.div_lt_self (by omega) (by omega)) c hc
      · exact ⟨n % 10, by omega, hc⟩

theorem natDigits_ne_nil (n : Nat) : natDigits n ≠ [] := by
  rw [natDigits_unfold]
  by_cases h : n < 10 <;> simp [h]

theorem natFromDigits_append_one (ds : List Char) (c : Char) :
    natFromDigits (ds ++ [c]) = natFromDigits ds * 10 + digitVal c := by
  simp [natFromDigits, List.foldl_append]

theorem natFromDigits_natDigits (n : Nat) : natFromDigits (natDigits n) = n := by
  induction n using Nat.strong_induction_on with
  | _ n ih =>
    rw [natDigits_unfold]
    by_cases h : n < 10
    · simp only [h, if_true]
      show 0 * 10 + digitVal (digitChar n) = n
      have : digitVal (digitChar n) = n := by interval_cases n <;> decide
      omega
    · simp only [h, if_false, natFromDigits_append_one]
      rw [ih (n / 10) (Nat.div_lt_self (by omega) (by omega))]
      have : digitVal (digitChar (n % 10)) = n % 10 := by
        have h10 : n % 10 < 10 := Nat.mod_lt _ (by omega)
        interval_cases hm : n % 10 <;> decide
      omega

theorem natDigits_length_le_two (n : Nat) (h : n ≤ 99) :
    (natDigits n).length ≤ 2 := by
  rw [natDigits_unfold]
  by_cases h10 : n < 10
  · simp [h10]
  · simp only [h10, if_false, List.length_append, List.length_singleton]
    rw [natDigits_unfold]
    have : n / 10 < 10 := by omega
    simp [this]

theorem digitChar_plainOk (m : Nat) (h : m < 10) :
    plainOk (digitChar m) ∧ isDigitChar (digitChar m) = true ∧
    digitChar m ≠ '+' ∧ digitChar m ≠ '-' := by
  interval_cases m <;> exact ⟨by decide, by decide, by decide, by decide⟩

theorem natDigits_plain (n : Nat) :
    ∀ c ∈ natDigits n, plainOk c ∧ isDigitChar c = true ∧ c ≠ '+' ∧ c ≠ '-' := by
  intro c hc
  obtain ⟨m, hm, rfl⟩ := natDigits_digits n c hc
  exact digitChar_plainOk m hm

theorem intRepr_plain (k : Int) : ∀ c ∈ intRepr k, plainOk c := by
  intro c hc
  unfold intRepr at hc
  by_cases hk : k < 0
  · rw [if_pos hk] at hc
    rcases List.mem_cons.mp hc with rfl | hc
    · decide
    · exact (natDigits_plain _ c hc).1
  · rw [if_neg hk] at hc
    exact (natDigits_plain _ c hc).1

theorem dropWhile_ws_eq_self (s : Str) (h : ∀ c ∈ s, isJsWs c = false) :
    s.dropWhile isJsWs = s := by
  cases s with
  | nil => rfl
  | cons c rest => simp [List.dropWhile_cons, h c (by simp)]

theorem takeWhile_digits_eq_self (s : Str) (h : ∀ c ∈ s, isDigitChar c = true) :
    s.takeWhile isDigitChar = s := by
  induction s with
  | nil => rfl
  | cons c rest ih =>
    simp only [List.takeWhile_cons, h c (by simp), if_true]
    rw [ih (fun c hc => h c (by simp [hc]))]

theorem trim_eq_self (s : Str) (h : ∀ c ∈ s, isJsWs c = false) :
    trimStr s = s := by
  unfold trimStr
  rw [dropWhile_ws_eq_self s h, dropWhile_ws_eq_self s.reverse (by
    intro c hc
    exact h c (List.mem_reverse.mp hc)), List.reverse_reverse]

theorem toUpperStr_eq_self (s : Str) (h : ∀ c ∈ s, Char.toUpper c = c) :
    toUpperStr s = s := by
  unfold toUpperStr
  exact List.map_congr_left h |>.trans (List.map_id _)

theorem parseInteger_intRepr (k : Int) : parseInteger (intRepr k) = some k := by
  by_cases hk : k < 0
  · have hrepr : intRepr k = '-' :: natDigits k.natAbs := by
      unfold intRepr
      rw [if_pos hk]
    rw [hrepr]
    unfold parseInteger
    rw [List.dropWhile_cons, if_neg (by decide)]
    dsimp only
    have hm : (match '-' :: natDigits k.natAbs with
        | '+' :: rest => ((1 : Int), rest)
        | '-' :: rest => ((-1 : Int), rest)
        | _ => ((1 : Int), '-' :: natDigits k.natAbs)) = (-1, natDigits k.natAbs) := rfl
    rw [hm]
    rw [takeWhile_digits_eq_self _ (fun c hc => (natDigits_plain _ c hc).2.1)]
    rw [show (natDigits k.natAbs).isEmpty = false from by
      simpa [List.isEmpty_iff] using natDigits_ne_nil k.natAbs]
    simp only [Bool.false_eq_true, if_false, natFromDigits_natDigits]
    congr 1
    omega
  · have hrepr : intRepr k = natDigits k.toNat := by
      unfold intRepr
      rw [if_neg hk]
    obtain ⟨c, rest, hcr⟩ := List.exists_cons_of_ne_nil (natDigits_ne_nil k.toNat)
    have hcfacts := natDigits_plain k.toNat c (by rw [hcr]; simp)
    rw [hrepr, hcr]
    unfold parseInteger
    rw [List.dropWhile_cons, if_neg (by rw [hcfacts.1.1]; simp)]
    have hm : (match c :: rest with
        | '+' :: rest => ((1 : Int), rest)
        | '-' :: rest => ((-1 : Int), rest)
        | _ => ((1 : Int), c :: rest)) = (1, c :: rest) := by
      split
      · next heq => rw [List.cons.injEq] at heq; exact absurd heq.1 hcfacts.2.2.1
      · next heq => rw [List.cons.injEq] at heq; exact absurd heq.1 hcfacts.2.2.2
      · next => rfl
    dsimp only
    rw [hm]
    rw [takeWhile_digits_eq_self _ (by
      intro x hx
      rw [← hcr] at hx
      exact (natDigits_plain k.toNat x hx).2.1)]
    rw [show (c :: rest).isEmpty = false from by simp]
    simp only [Bool.false_eq_true, if_false]
    rw [← hcr, natFromDigits_natDigits]
    congr 1
    omega

theorem jsUniqueAux_eq_self [DecidableEq α] (l : List α) :
    ∀ seen : List α, l.Nodup → (∀ a ∈ l, a ∉ seen) → jsUniqueAux seen l = l := by
  induction l with
  | nil => intro seen _ _; rfl
  | cons a rest ih =>
    intro seen hnd hdisj
    unfold jsUniqueAux
    rw [if_neg (hdisj a (by simp))]
    rw [ih (a :: seen) (List.nodup_cons.mp hnd).2]
    intro b hb
    rw [List.mem_cons]
    push_neg
    exact ⟨fun hba => (List.nodup_cons.mp hnd).1 (hba ▸ hb),
      hdisj b (List.mem_cons_of_mem a hb)⟩

theorem jsUnique_eq_self [DecidableEq α] (l : List α) (h : l.Nodup) :
    jsUnique l = l :=
  jsUniqueAux_eq_self l [] h (by simp)

theorem unfoldLine_eq_self (s : Str) (h : ∀ c ∈ s, isJsWs c = false) :
    unfoldLine s = s := by
  induction s with
  | nil => rfl
  | cons c rest ih =>
    have hc := h c (by simp)
    unfold unfoldLine
    split
    · next heq => exact absurd heq (List.cons_ne_nil c rest)
    · next heq =>
      rw [List.cons.injEq] at heq
      rw [heq.1] at hc
      exact absurd hc (by decide)
    · next heq =>
      rw [List.cons.injEq] at heq
      rw [heq.1] at hc
      exact absurd hc (by decide)
    · next heq =>
      rw [List.cons.injEq] at heq
      rw [← heq.1, ← heq.2]
      rw [ih (fun x hx => h x (by simp [hx]))]

theorem mem_intercalate_char (sep c : Char) :
    ∀ ls : List Str, c ∈ List.intercalate [sep] ls →
      c = sep ∨ ∃ l ∈ ls, c ∈ l := by
  intro ls
  induction ls with
  | nil => intro hmem; simp [List.intercalate] at hmem
  | cons a tl ih =>
    intro hmem
    cases tl with
    | nil =>
      simp only [List.intercalate, List.intersperse, List.flatten,
        List.append_nil] at hmem
      exact Or.inr ⟨a, by simp, hmem⟩
    | cons b tl' =>
      rw [show List.intercalate [sep] (a :: b :: tl') =
          a ++ [sep] ++ List.intercalate [sep] (b :: tl') from by
        simp [List.intercalate, List.intersperse]] at hmem
      rcases List.mem_append.mp hmem with hab | htail
      · rcases List.mem_append.mp hab with ha | hsep
        · exact Or.inr ⟨a, by simp, ha⟩
        · exact Or.inl (by simpa using hsep)
      · rcases ih htail with hs | ⟨l, hl, hcl⟩
        · exact Or.inl hs
        · exact Or.inr ⟨l, by simp [hl], hcl⟩

theorem parseList_intercalate (sep : Char) (parts : List Str)
    (hws : isJsWs sep = false) (hne : parts ≠ [])
    (hp : ∀ p ∈ parts, p ≠ [] ∧ ∀ c ∈ p, isJsWs c = false ∧ c ≠ sep) :
    parseList (List.intercalate [sep] parts) sep = parts := by
  have hchars : ∀ c ∈ List.intercalate [sep] parts, isJsWs c = false := by
    intro c hc
    rcases mem_intercalate_char sep c parts hc with rfl | ⟨l, hl, hcl⟩
    · exact hws
    · exact ((hp l hl).2 c hcl).1
  have hsplit : (List.intercalate [sep] parts).splitOn sep = parts :=
    List.splitOn_intercalate parts sep (fun l hl hxl => ((hp l hl).2 sep hxl).2 rfl) hne
  have hvne : List.intercalate [sep] parts ≠ [] := by
    cases parts with
    | nil => exact absurd rfl hne
    | cons a tl =>
      cases tl with
      | nil =>
        rw [show List.intercalate [sep] [a] = a from by
          simp [List.intercalate, List.intersperse]]
        exact (hp a (by simp)).1
      | cons b tl' =>
        rw [show List.intercalate [sep] (a :: b :: tl') =
            a ++ [sep] ++ List.intercalate [sep] (b :: tl') from by
          simp [List.intercalate, List.intersperse]]
        simp
  unfold parseList
  rw [trim_eq_self _ hchars, hsplit]
  rw [if_neg (by simpa [List.isEmpty_iff] using hvne)]
  rw [List.map_congr_left (fun p hp' => trim_eq_self p (fun c hc => ((hp p hp').2 c hc).1)),
    List.map_id']
  exact List.filter_eq_self.mpr (fun p hp' => by
    simpa [List.length_pos] using (hp p hp').1)

theorem weekdayStr_plain (w : Weekday) :
    weekdayStr w ≠ [] ∧ ∀ c ∈ weekdayStr w, plainOk c ∧ isUpperAlpha c = true := by
  cases w <;> exact ⟨by decide, by decide⟩

theorem freqStr_plain (f : Frequency) :
    freqStr f ≠ [] ∧ ∀ c ∈ freqStr f, plainOk c := by
  cases f <;> exact ⟨by decide, by decide⟩

theorem intRepr_ne_nil (k : Int) : intRepr k ≠ [] := by
  unfold intRepr
  split
  · exact List.cons_ne_nil _ _
  · exact natDigits_ne_nil _

theorem parseWeekday_weekdayStr (w : Weekday) :
    parseWeekday (weekdayStr w) = .ok w := by
  cases w <;> rfl

theorem parseFrequency_freqStr (f : Frequency) :
    parseFrequency (freqStr f) = .ok f := by
  cases f <;> rfl

theorem parsePositiveInteger_intRepr (k : Int) (h : 1 ≤ k) :
    parsePositiveInteger (intRepr k) = .ok k := by
  unfold parsePositiveInteger
  rw [parseInteger_intRepr]
  show (if k > 0 then (Except.ok k : Except ErrMsg Int)
    else Except.error ErrMsg.invalidPositiveInteger) = Except.ok k
  rw [if_pos (by omega)]

theorem parseIntegerList_map (l : List Int) (hl : l ≠ []) :
    parseIntegerList (List.intercalate [','] (l.map intRepr)) ',' = l := by
  unfold parseIntegerList
  rw [parseList_intercalate ',' (l.map intRepr) (by decide)
    (by simpa using hl)
    (by
      intro p hp
      obtain ⟨k, _, rfl⟩ := List.mem_map.mp hp
      refine ⟨intRepr_ne_nil k, ?_⟩
      intro c hc
      have := intRepr_plain k c hc
      exact ⟨this.1, this.2.2.1⟩)]
  rw [List.filterMap_map]
  rw [show (parseInteger ∘ intRepr) = some from funext parseInteger_intRepr]
  exact List.filterMap_some l

theorem numberListLoop_ok (mn mx : Int) (ez strict : Bool) (l : List Int)
    (h : ∀ x ∈ l, (ez = true → x ≠ 0) ∧ mn ≤ x ∧ x ≤ mx) :
    numberListLoop mn mx ez strict l = .ok l := by
  induction l with
  | nil => rfl
  | cons x rest ih =>
    have hx := h x (by simp)
    unfold numberListLoop
    rw [if_neg (by
      rcases hx with ⟨h0, _, _⟩
      cases ez with
      | false => simp
      | true => simp [h0 rfl])]
    rw [if_neg (by
      simp only [isNumberInRange, Bool.not_eq_true']
      rcases hx with ⟨_, h1, h2⟩
      simp [decide_eq_true (by omega : x ≥ mn), decide_eq_true (by omega : x ≤ mx)])]
    rw [ih (fun y hy => h y (by simp [hy]))]
    rfl

theorem parseRRuleNumberList_round (l : List Int) (mn mx : Int) (ez strict : Bool)
    (hl : l ≠ []) (hnd : l.Nodup)
    (h : ∀ x ∈ l, (ez = true → x ≠ 0) ∧ mn ≤ x ∧ x ≤ mx) :
    parseRRuleNumberList (List.intercalate [','] (l.map intRepr)) mn mx ez strict =
      .ok l := by
  unfold parseRRuleNumberList
  rw [parseIntegerList_map l hl]
  rw [if_neg (by simpa [List.isEmpty_iff] using hl)]
  rw [numberListLoop_ok mn mx ez strict l h]
  show Except.ok (jsUnique l) = Except.ok l
  rw [jsUnique_eq_self l hnd]

theorem weekdayStr_length (w : Weekday) : (weekdayStr w).length = 2 := by
  cases w <;> rfl

theorem strToWeekday?_weekdayStr (w : Weekday) :
    strToWeekday? (weekdayStr w) = some w := by
  cases w <;> rfl

theorem natDigits_all_digits (n : Nat) : (natDigits n).all isDigitChar = true := by
  rw [List.all_eq_true]
  intro c hc
  exact (natDigits_plain n c hc).2.1

theorem matchWeekdayToken_intRepr (n : Int) (w : Weekday)
    (h1 : -99 ≤ n) (h2 : n ≤ 99) (_hn : n ≠ 0) :
    matchWeekdayToken (intRepr n ++ weekdayStr w) =
      some (intRepr n, weekdayStr w) := by
  have hw2 : (weekdayStr w).length = 2 := weekdayStr_length w
  have hlen : (intRepr n ++ weekdayStr w).length - 2 = (intRepr n).length := by
    simp [List.length_append, hw2]
  unfold matchWeekdayToken
  rw [if_neg (by
    simp only [List.length_append, hw2, not_lt]
    omega)]
  dsimp only
  rw [hlen, List.take_left, List.drop_left]
  have hdig : ∀ m : Nat, m ≤ 99 →
      ((!(natDigits m).isEmpty && decide ((natDigits m).length ≤ 2) &&
        (natDigits m).all isDigitChar) = true) := by
    intro m hm99
    rw [show (natDigits m).isEmpty = false from by
      simpa [List.isEmpty_iff] using natDigits_ne_nil m]
    rw [decide_eq_true (natDigits_length_le_two m hm99)]
    rw [natDigits_all_digits]
    rfl
  have hwdall : (weekdayStr w).all isUpperAlpha = true := by
    rw [List.all_eq_true]
    intro c hc
    exact ((weekdayStr_plain w).2 c hc).2
  by_cases hneg : n < 0
  · rw [show intRepr n = '-' :: natDigits n.natAbs from by
      unfold intRepr
      rw [if_pos hneg]]
    have hocc : (match '-' :: natDigits n.natAbs with
        | '+' :: rest => rest
        | '-' :: rest => rest
        | _ => '-' :: natDigits n.natAbs) = natDigits n.natAbs := rfl
    rw [hocc]
    rw [if_pos]
    rw [Bool.and_eq_true]
    refine ⟨hwdall, ?_⟩
    rw [Bool.or_eq_true]
    exact Or.inr (hdig n.natAbs (by omega))
  · rw [show intRepr n = natDigits n.toNat from by
      unfold intRepr
      rw [if_neg hneg]]
    obtain ⟨c, rest, hcr⟩ := List.exists_cons_of_ne_nil (natDigits_ne_nil n.toNat)
    have hcfacts := natDigits_plain n.toNat c (by rw [hcr]; simp)
    rw [hcr]
    have hocc : (match c :: rest with
        | '+' :: rest => rest
        | '-' :: rest => rest
        | _ => c :: rest) = c :: rest := by
      split
      · next heq => rw [List.cons.injEq] at heq; exact absurd heq.1 hcfacts.2.2.1
      · next heq => rw [List.cons.injEq] at heq; exact absurd heq.1 hcfacts.2.2.2
      · next => rfl
    rw [hocc]
    rw [if_pos]
    rw [Bool.and_eq_true]
    refine ⟨hwdall, ?_⟩
    rw [Bool.or_eq_true]
    right
    rw [← hcr]
    exact hdig n.toNat (by omega)

theorem formatWeekdayValue_plain (wv : WeekdayValue) (hok : wvOK wv) :
    formatWeekdayValue wv ≠ [] ∧ ∀ c ∈ formatWeekdayValue wv, plainOk c := by
  cases wv with
  | wd w => exact (weekdayStr_plain w).imp id (fun h c hc => (h c hc).1)
  | nth w n =>
    simp only [formatWeekdayValue]
    rw [if_neg (by simpa using hok.1)]
    refine ⟨by simp [intRepr_ne_nil n], ?_⟩
    intro c hc
    rcases List.mem_append.mp hc with hc | hc
    · exact intRepr_plain n c hc
    · exact ((weekdayStr_plain w).2 c hc).1

theorem parseWeekdayValue_format (wv : WeekdayValue) (hok : wvOK wv) :
    parseWeekdayValue (formatWeekdayValue wv) = .ok wv := by
  cases wv with
  | wd w => cases w <;> rfl
  | nth w n =>
    obtain ⟨hn, hl, hr⟩ := hok
    have hfmt : formatWeekdayValue (.nth w n) = intRepr n ++ weekdayStr w := by
      simp only [formatWeekdayValue]
      rw [if_neg (by simpa using hn)]
    rw [hfmt]
    have hplain : ∀ c ∈ intRepr n ++ weekdayStr w, plainOk c := by
      intro c hc
      rcases List.mem_append.mp hc with hc | hc
      · exact intRepr_plain n c hc
      · exact ((weekdayStr_plain w).2 c hc).1
    have hne : intRepr n ++ weekdayStr w ≠ [] := by
      simp [intRepr_ne_nil n]
    unfold parseWeekdayValue
    rw [trim_eq_self _ (fun c hc => (hplain c hc).1)]
    rw [toUpperStr_eq_self _ (fun c hc => (hplain c hc).2.1)]
    rw [if_neg (by simpa [List.isEmpty_iff] using hne)]
    rw [matchWeekdayToken_intRepr n w (by omega) (by omega) hn]
    dsimp only
    rw [strToWeekday?_weekdayStr w]
    dsimp only
    rw [if_neg (by simpa [List.isEmpty_iff] using intRepr_ne_nil n)]
    rw [parseInteger_intRepr n]
    dsimp only
    rw [if_neg hn]
    rw [if_neg (by
      rw [Bool.or_eq_true]
      push_neg
      constructor <;> simp <;> omega)]

theorem parseByDayTokens_ok (strict : Bool) :
    ∀ l : List WeekdayValue, (∀ wv ∈ l, wvOK wv) →
      parseByDayTokens strict (l.map formatWeekdayValue) = .ok l := by
  intro l
  induction l with
  | nil => intro _; rfl
  | cons wv rest ih =>
    intro h
    rw [List.map_cons]
    unfold parseByDayTokens
    rw [parseWeekdayValue_format wv (h wv (by simp))]
    rw [ih (fun x hx => h x (by simp [hx]))]
    rfl

theorem parseRRuleByDay_round (l : List WeekdayValue) (strict : Bool)
    (hl : l ≠ []) (hnd : l.Nodup) (h : ∀ wv ∈ l, wvOK wv) :
    parseRRuleByDay (List.intercalate [','] (l.map formatWeekdayValue)) strict =
      .ok l := by
  unfold parseRRuleByDay
  rw [parseList_intercalate ',' (l.map formatWeekdayValue) (by decide)
    (by simpa using hl)
    (by
      intro p hp
      obtain ⟨wv, hwv, rfl⟩ := List.mem_map.mp hp
      obtain ⟨hne, hpl⟩ := formatWeekdayValue_plain wv (h wv hwv)
      exact ⟨hne, fun c hc => ⟨(hpl c hc).1, (hpl c hc).2.2.1⟩⟩)]
  rw [if_neg (by simpa [List.isEmpty_iff] using hl)]
  rw [parseByDayTokens_ok strict l h]
  show Except.ok (uniqueWeekdayValues l) = Except.ok l
  unfold uniqueWeekdayValues
  rw [jsUnique_eq_self l hnd]

theorem splitOnce_keyval (key v : Str) (hkey : '=' ∉ key) (hv : '=' ∉ v) :
    splitOnce (key ++ '=' :: v) '=' = (key, some v) := by
  have h1 : (key ++ '=' :: v).splitOn '=' = key :: v.splitOn '=' := by
    unfold List.splitOn
    exact List.splitOnP_first (· == '=') key
      (fun x hx => by
        simp only [beq_iff_eq]
        intro hEq
        exact hkey (hEq ▸ hx)) '=' (by simp) v
  have h2 : v.splitOn '=' = [v] := by
    unfold List.splitOn
    exact List.splitOnP_eq_single (· == '=') v (fun x hx => by
      simp only [beq_iff_eq]
      intro hEq
      exact hv (hEq ▸ hx))
  unfold splitOnce
  rw [h1, h2]

theorem apply_param_freq (strict : Bool) (acc : ParseAccum) (f : Frequency) :
    applyRRuleParam strict acc (("FREQ=".toList) ++ freqStr f) =
      .ok { acc with freq := some f } := by
  have hkey : ("FREQ=".toList : Str) ++ freqStr f = "FREQ".toList ++ '=' :: freqStr f := rfl
  rw [hkey]
  unfold applyRRuleParam applyRRuleParamBody
  rw [splitOnce_keyval "FREQ".toList (freqStr f) (by decide)
    (fun hmem => absurd rfl ((freqStr_plain f).2 '=' hmem).2.2.2.2.1)]
  dsimp only
  rw [if_neg (by
    rw [Bool.or_eq_true]
    push_neg
    exact ⟨by decide, by simpa [List.isEmpty_iff] using (freqStr_plain f).1⟩)]
  rw [show toUpperStr ("FREQ".toList) = "FREQ".toList from rfl]
  rw [if_pos rfl]
  rw [show parseRRuleFrequency (freqStr f) strict = .ok f from by
    unfold parseRRuleFrequency
    rw [parseFrequency_freqStr f]]
  rfl

theorem intercalate_ne_nil (sep : Char) (parts : List Str) (hne : parts ≠ [])
    (hp : ∀ p ∈ parts, p ≠ []) : List.intercalate [sep] parts ≠ [] := by
  cases parts with
  | nil => exact absurd rfl hne
  | cons a tl =>
    cases tl with
    | nil =>
      rw [show List.intercalate [sep] [a] = a from by
        simp [List.intercalate, List.intersperse]]
      exact hp a (by simp)
    | cons b tl' =>
      rw [show List.intercalate [sep] (a :: b :: tl') =
          a ++ [sep] ++ List.intercalate [sep] (b :: tl') from by
        simp [List.intercalate, List.intersperse]]
      simp

theorem numValue_ne_nil (l : List Int) (hl : l ≠ []) :
    List.intercalate [','] (l.map intRepr) ≠ [] :=
  intercalate_ne_nil ',' (l.map intRepr) (by simpa using hl)
    (by
      intro p hp
      obtain ⟨k, _, rfl⟩ := List.mem_map.mp hp
      exact intRepr_ne_nil k)

theorem numValue_no_eq (l : List Int) :
    '=' ∉ List.intercalate [','] (l.map intRepr) := by
  intro hmem
  rcases mem_intercalate_char ',' '=' (l.map intRepr) hmem with h | ⟨p, hp, hcp⟩
  · exact absurd h (by decide)
  · obtain ⟨k, _, rfl⟩ := List.mem_map.mp hp
    exact absurd rfl (intRepr_plain k '=' hcp).2.2.2.2.1

theorem bydayValue_ne_nil (l : List WeekdayValue) (hl : l ≠ [])
    (h : ∀ wv ∈ l, wvOK wv) :
    List.intercalate [','] (l.map formatWeekdayValue) ≠ [] :=
  intercalate_ne_nil ',' (l.map formatWeekdayValue) (by simpa using hl)
    (by
      intro p hp
      obtain ⟨wv, hwv, rfl⟩ := List.mem_map.mp hp
      exact (formatWeekdayValue_plain wv (h wv hwv)).1)

theorem bydayValue_no_eq (l : List WeekdayValue) (h : ∀ wv ∈ l, wvOK wv) :
    '=' ∉ List.intercalate [','] (l.map formatWeekdayValue) := by
  intro hmem
  rcases mem_intercalate_char ',' '=' (l.map formatWeekdayValue) hmem with h' | ⟨p, hp, hcp⟩
  · exact absurd h' (by decide)
  · obtain ⟨wv, hwv, rfl⟩ := List.mem_map.mp hp
    exact absurd rfl ((formatWeekdayValue_plain wv (h wv hwv)).2 '=' hcp).2.2.2.2.1

theorem apply_param_interval (strict : Bool) (acc : ParseAccum) (i : Int)
    (hi : 1 ≤ i) :
    applyRRuleParam strict acc (("INTERVAL=".toList) ++ intRepr i) =
      .ok { acc with interval := some i } := by
  have hkey : ("INTERVAL=".toList : Str) ++ intRepr i =
      "INTERVAL".toList ++ '=' :: intRepr i := rfl
  rw [hkey]
  unfold applyRRuleParam applyRRuleParamBody
  rw [splitOnce_keyval "INTERVAL".toList _ (by decide)
    (fun hmem => absurd rfl (intRepr_plain i '=' hmem).2.2.2.2.1)]
  dsimp only
  rw [if_neg (by
    rw [Bool.or_eq_true]
    push_neg
    exact ⟨by decide, by simpa [List.isEmpty_iff] using intRepr_ne_nil i⟩)]
  rw [show toUpperStr ("INTERVAL".toList) = "INTERVAL".toList from rfl]
  rw [if_neg (by decide)]
  rw [if_pos (by decide)]
  rw [show parseRRuleInterval (intRepr i) strict = .ok i from by
    unfold parseRRuleInterval
    rw [parsePositiveInteger_intRepr i hi]]
  rfl

theorem apply_param_count (strict : Bool) (acc : ParseAccum) (c : Int)
    (hc : 1 ≤ c) :
    applyRRuleParam strict acc (("COUNT=".toList) ++ intRepr c) =
      .ok { acc with count := some c } := by
  have hkey : ("COUNT=".toList : Str) ++ intRepr c =
      "COUNT".toList ++ '=' :: intRepr c := rfl
  rw [hkey]
  unfold applyRRuleParam applyRRuleParamBody
  rw [splitOnce_keyval "COUNT".toList _ (by decide)
    (fun hmem => absurd rfl (intRepr_plain c '=' hmem).2.2.2.2.1)]
  dsimp only
  rw [if_neg (by
    rw [Bool.or_eq_true]
    push_neg
    exact ⟨by decide, by simpa [List.isEmpty_iff] using intRepr_ne_nil c⟩)]
  rw [show toUpperStr ("COUNT".toList) = "COUNT".toList from rfl]
  rw [if_neg (by decide)]
  rw [if_neg (by decide)]
  rw [if_pos (by decide)]
  rw [show parseRRuleCount (intRepr c) strict = .ok (some c) from by
    unfold parseRRuleCount
    rw [parsePositiveInteger_intRepr c hc]]
  rfl

theorem apply_param_wkst (strict : Bool) (acc : ParseAccum) (w : Weekday) :
    applyRRuleParam strict acc (("WKST=".toList) ++ weekdayStr w) =
      .ok { acc with wkst := some w } := by
  have hkey : ("WKST=".toList : Str) ++ weekdayStr w =
      "WKST".toList ++ '=' :: weekdayStr w := rfl
  rw [hkey]
  unfold applyRRuleParam applyRRuleParamBody
  rw [splitOnce_keyval "WKST".toList _ (by decide)
    (fun hmem => absurd rfl (((weekdayStr_plain w).2 '=' hmem).1).2.2.2.2.1)]
  dsimp only
  rw [if_neg (by
    rw [Bool.or_eq_true]
    push_neg
    exact ⟨by decide, by simpa [List.isEmpty_iff] using (weekdayStr_plain w).1⟩)]
  rw [show toUpperStr ("WKST".toList) = "WKST".toList from rfl]
  rw [if_neg (by decide)]
  rw [if_neg (by decide)]
  rw [if_neg (by decide)]
  rw [if_neg (by decide)]
  rw [if_pos (by decide)]
  rw [show parseRRuleWkst (weekdayStr w) strict = .ok (some w) from by
    cases w <;> rfl]
  rfl

theorem apply_param_byday (strict : Bool) (acc : ParseAccum)
    (l : List WeekdayValue) (hl : l ≠ []) (hnd : l.Nodup)
    (h : ∀ wv ∈ l, wvOK wv) :
    applyRRuleParam strict acc
      (("BYDAY=".toList) ++ List.intercalate [','] (l.map formatWeekdayValue)) =
      .ok { acc with byweekday := some l } := by
  have hkey : ("BYDAY=".toList : Str) ++
      List.intercalate [','] (l.map formatWeekdayValue) =
      "BYDAY".toList ++ '=' :: List.intercalate [','] (l.map formatWeekdayValue) := rfl
  rw [hkey]
  unfold applyRRuleParam applyRRuleParamBody
  rw [splitOnce_keyval "BYDAY".toList _ (by decide) (bydayValue_no_eq l h)]
  dsimp only
  rw [if_neg (by
    rw [Bool.or_eq_true]
    push_neg
    exact ⟨by decide, by simpa [List.isEmpty_iff] using bydayValue_ne_nil l hl h⟩)]
  rw [show toUpperStr ("BYDAY".toList) = "BYDAY".toList from rfl]
  rw [if_neg (by decide)]
  rw [if_neg (by decide)]
  rw [if_neg (by decide)]
  rw [if_neg (by decide)]
  rw [if_neg (by decide)]
  rw [if_pos (by decide)]
  rw [parseRRuleByDay_round l strict hl hnd h]
  rfl

theorem apply_param_bymonth (strict : Bool) (acc : ParseAccum) (l : List Int)
    (hl : l ≠ []) (hnd : l.Nodup) (h : ∀ x ∈ l, x ≠ 0 ∧ (1 : Int) ≤ x ∧ x ≤ 12) :
    applyRRuleParam strict acc
      (("BYMONTH=".toList) ++ List.intercalate [','] (l.map intRepr)) =
      .ok { acc with bymonth := some l } := by
  have hkey : ("BYMONTH=".toList : Str) ++ List.intercalate [','] (l.map intRepr) =
      "BYMONTH".toList ++ '=' :: List.intercalate [','] (l.map intRepr) := rfl
  rw [hkey]
  unfold applyRRuleParam applyRRuleParamBody
  rw [splitOnce_keyval "BYMONTH".toList _ (by decide) (numValue_no_eq l)]
  dsimp only
  rw [if_neg (by
    rw [Bool.or_eq_true]
    push_neg
    exact ⟨by decide, by simpa [List.isEmpty_iff] using numValue_ne_nil l hl⟩)]
  rw [show toUpperStr ("BYMONTH".toList) = "BYMONTH".toList from rfl]
  rw [if_neg (by decide)]
  rw [if_neg (by decide)]
  rw [if_neg (by decide)]
  rw [if_neg (by decide)]
  rw [if_neg (by decide)]
  rw [if_neg (by decide)]
  rw [if_pos (by decide)]
  rw [parseRRuleNumberList_round l (1) (12) true strict hl hnd (fun x hx => ⟨fun _ => (h x hx).1, (h x hx).2.1, (h x hx).2.2⟩)]
  rfl

theorem apply_param_bymonthday (strict : Bool) (acc : ParseAccum) (l : List Int)
    (hl : l ≠ []) (hnd : l.Nodup) (h : ∀ x ∈ l, x ≠ 0 ∧ (-31 : Int) ≤ x ∧ x ≤ 31) :
    applyRRuleParam strict acc
      (("BYMONTHDAY=".toList) ++ List.intercalate [','] (l.map intRepr)) =
      .ok { acc with bymonthday := some l } := by
  have hkey : ("BYMONTHDAY=".toList : Str) ++ List.intercalate [','] (l.map intRepr) =
      "BYMONTHDAY".toList ++ '=' :: List.intercalate [','] (l.map intRepr) := rfl
  rw [hkey]
  unfold applyRRuleParam applyRRuleParamBody
  rw [splitOnce_keyval "BYMONTHDAY".toList _ (by decide) (numValue_no_eq l)]
  dsimp only
  rw [if_neg (by
    rw [Bool.or_eq_true]
    push_neg
    exact ⟨by decide, by simpa [List.isEmpty_iff] using numValue_ne_nil l hl⟩)]
  rw [show toUpperStr ("BYMONTHDAY".toList) = "BYMONTHDAY".toList from rfl]
  rw [if_neg (by decide)]
  rw [if_neg (by decide)]
  rw [if_neg (by decide)]
  rw [if_neg (by decide)]
  rw [if_neg (by decide)]
  rw [if_neg (by decide)]
  rw [if_neg (by decide)]
  rw [if_pos (by decide)]
  rw [parseRRuleNumberList_round l (-31) (31) true strict hl hnd (fun x hx => ⟨fun _ => (h x hx).1, (h x hx).2.1, (h x hx).2.2⟩)]
  rfl

theorem apply_param_byyearday (strict : Bool) (acc : ParseAccum) (l : List Int)
    (hl : l ≠ []) (hnd : l.Nodup) (h : ∀ x ∈ l, x ≠ 0 ∧ (-366 : Int) ≤ x ∧ x ≤ 366) :
    applyRRuleParam strict acc
      (("BYYEARDAY=".toList) ++ List.intercalate [','] (l.map intRepr)) =
      .ok { acc with byyearday := some l } := by
  have hkey : ("BYYEARDAY=".toList : Str) ++ List.intercalate [','] (l.map intRepr) =
      "BYYEARDAY".toList ++ '=' :: List.intercalate [','] (l.map intRepr) := rfl
  rw [hkey]
  unfold applyRRuleParam applyRRuleParamBody
  rw [splitOnce_keyval "BYYEARDAY".toList _ (by decide) (numValue_no_eq l)]
  dsimp only
  rw [if_neg (by
    rw [Bool.or_eq_true]
    push_neg
    exact ⟨by decide, by simpa [List.isEmpty_iff] using numValue_ne_nil l hl⟩)]
  rw [show toUpperStr ("BYYEARDAY".toList) = "BYYEARDAY".toList from rfl]
  rw [if_neg (by decide)]
  rw [if_neg (by decide)]
  rw [if_neg (by decide)]
  rw [if_neg (by decide)]
  rw [if_neg (by decide)]
  rw [if_neg (by decide)]
  rw [if_neg (by decide)]
  rw [if_neg (by decide)]
  rw [if_pos (by decide)]
  rw [parseRRuleNumberList_round l (-366) (366) true strict hl hnd (fun x hx => ⟨fun _ => (h x hx).1, (h x hx).2.1, (h x hx).2.2⟩)]
  rfl

theorem apply_param_byweekno (strict : Bool) (acc : ParseAccum) (l : List Int)
    (hl : l ≠ []) (hnd : l.Nodup) (h : ∀ x ∈ l, x ≠ 0 ∧ (-53 : Int) ≤ x ∧ x ≤ 53) :
    applyRRuleParam strict acc
      (("BYWEEKNO=".toList) ++ List.intercalate [','] (l.map intRepr)) =
      .ok { acc with byweekno := some l } := by
  have hkey : ("BYWEEKNO=".toList : Str) ++ List.intercalate [','] (l.map intRepr) =
      "BYWEEKNO".toList ++ '=' :: List.intercalate [','] (l.map intRepr) := rfl
  rw [hkey]
  unfold applyRRuleParam applyRRuleParamBody
  rw [splitOnce_keyval "BYWEEKNO".toList _ (by decide) (numValue_no_eq l)]
  dsimp only
  rw [if_neg (by
    rw [Bool.or_eq_true]
    push_neg
    exact ⟨by decide, by simpa [List.isEmpty_iff] using numValue_ne_nil l hl⟩)]
  rw [show toUpperStr ("BYWEEKNO".toList) = "BYWEEKNO".toList from rfl]
  rw [if_neg (by decide)]
  rw [if_neg (by decide)]
  rw [if_neg (by decide)]
  rw [if_neg (by decide)]
  rw [if_neg (by decide)]
  rw [if_neg (by decide)]
  rw [if_neg (by decide)]
  rw [if_neg (by decide)]
  rw [if_neg (by decide)]
  rw [if_pos (by decide)]
  rw [parseRRuleNumberList_round l (-53) (53) true strict hl hnd (fun x hx => ⟨fun _ => (h x hx).1, (h x hx).2.1, (h x hx).2.2⟩)]
  rfl

theorem apply_param_byhour (strict : Bool) (acc : ParseAccum) (l : List Int)
    (hl : l ≠ []) (hnd : l.Nodup) (h : ∀ x ∈ l, (0 : Int) ≤ x ∧ x ≤ 23) :
    applyRRuleParam strict acc
      (("BYHOUR=".toList) ++ List.intercalate [','] (l.map intRepr)) =
      .ok { acc with byhour := some l } := by
  have hkey : ("BYHOUR=".toList : Str) ++ List.intercalate [','] (l.map intRepr) =
      "BYHOUR".toList ++ '=' :: List.intercalate [','] (l.map intRepr) := rfl
  rw [hkey]
  unfold applyRRuleParam applyRRuleParamBody
  rw [splitOnce_keyval "BYHOUR".toList _ (by decide) (numValue_no_eq l)]
  dsimp only
  rw [if_neg (by
    rw [Bool.or_eq_true]
    push_neg
    exact ⟨by decide, by simpa [List.isEmpty_iff] using numValue_ne_nil l hl⟩)]
  rw [show toUpperStr ("BYHOUR".toList) = "BYHOUR".toList from rfl]
  rw [if_neg (by decide)]
  rw [if_neg (by decide)]
  rw [if_neg (by decide)]
  rw [if_neg (by decide)]
  rw [if_neg (by decide)]
  rw [if_neg (by decide)]
  rw [if_neg (by decide)]
  rw [if_neg (by decide)]
  rw [if_neg (by decide)]
  rw [if_neg (by decide)]
  rw [if_pos (by decide)]
  rw [parseRRuleNumberList_round l (0) (23) false strict hl hnd (fun x hx => ⟨fun hF => absurd hF (by decide), (h x hx).1, (h x hx).2⟩)]
  rfl

theorem apply_param_byminute (strict : Bool) (acc : ParseAccum) (l : List Int)
    (hl : l ≠ []) (hnd : l.Nodup) (h : ∀ x ∈ l, (0 : Int) ≤ x ∧ x ≤ 59) :
    applyRRuleParam strict acc
      (("BYMINUTE=".toList) ++ List.intercalate [','] (l.map intRepr)) =
      .ok { acc with byminute := some l } := by
  have hkey : ("BYMINUTE=".toList : Str) ++ List.intercalate [','] (l.map intRepr) =
      "BYMINUTE".toList ++ '=' :: List.intercalate [','] (l.map intRepr) := rfl
  rw [hkey]
  unfold applyRRuleParam applyRRuleParamBody
  rw [splitOnce_keyval "BYMINUTE".toList _ (by decide) (numValue_no_eq l)]
  dsimp only
  rw [if_neg (by
    rw [Bool.or_eq_true]
    push_neg
    exact ⟨by decide, by simpa [List.isEmpty_iff] using numValue_ne_nil l hl⟩)]
  rw [show toUpperStr ("BYMINUTE".toList) = "BYMINUTE".toList from rfl]
  rw [if_neg (by decide)]
  rw [if_neg (by decide)]
  rw [if_neg (by decide)]
  rw [if_neg (by decide)]
  rw [if_neg (by decide)]
  rw [if_neg (by decide)]
  rw [if_neg (by decide)]
  rw [if_neg (by decide)]
  rw [if_neg (by decide)]
  rw [if_neg (by decide)]
  rw [if_neg (by decide)]
  rw [if_pos (by decide)]
  rw [parseRRuleNumberList_round l (0) (59) false strict hl hnd (fun x hx => ⟨fun hF => absurd hF (by decide), (h x hx).1, (h x hx).2⟩)]
  rfl

theorem apply_param_bysecond (strict : Bool) (acc : ParseAccum) (l : List Int)
    (hl : l ≠ []) (hnd : l.Nodup) (h : ∀ x ∈ l, (0 : Int) ≤ x ∧ x ≤ 59) :
    applyRRuleParam strict acc
      (("BYSECOND=".toList) ++ List.intercalate [','] (l.map intRepr)) =
      .ok { acc with bysecond := some l } := by
  have hkey : ("BYSECOND=".toList : Str) ++ List.intercalate [','] (l.map intRepr) =
      "BYSECOND".toList ++ '=' :: List.intercalate [','] (l.map intRepr) := rfl
  rw [hkey]
  unfold applyRRuleParam applyRRuleParamBody
  rw [splitOnce_keyval "BYSECOND".toList _ (by decide) (numValue_no_eq l)]
  dsimp only
  rw [if_neg (by
    rw [Bool.or_eq_true]
    push_neg
    exact ⟨by decide, by simpa [List.isEmpty_iff] using numValue_ne_nil l hl⟩)]
  rw [show toUpperStr ("BYSECOND".toList) = "BYSECOND".toList from rfl]
  rw [if_neg (by decide)]
  rw [if_neg (by decide)]
  rw [if_neg (by decide)]
  rw [if_neg (by decide)]
  rw [if_neg (by decide)]
  rw [if_neg (by decide)]
  rw [if_neg (by decide)]
  rw [if_neg (by decide)]
  rw [if_neg (by decide)]
  rw [if_neg (by decide)]
  rw [if_neg (by decide)]
  rw [if_neg (by decide)]
  rw [if_pos (by decide)]
  rw [parseRRuleNumberList_round l (0) (59) false strict hl hnd (fun x hx => ⟨fun hF => absurd hF (by decide), (h x hx).1, (h x hx).2⟩)]
  rfl

theorem apply_param_bysetpos (strict : Bool) (acc : ParseAccum) (l : List Int)
    (hl : l ≠ []) (hnd : l.Nodup) (h : ∀ x ∈ l, x ≠ 0 ∧ (-366 : Int) ≤ x ∧ x ≤ 366) :
    applyRRuleParam strict acc
      (("BYSETPOS=".toList) ++ List.intercalate [','] (l.map intRepr)) =
      .ok { acc with bysetpos := some l } := by
  have hkey : ("BYSETPOS=".toList : Str) ++ List.intercalate [','] (l.map intRepr) =
      "BYSETPOS".toList ++ '=' :: List.intercalate [','] (l.map intRepr) := rfl
  rw [hkey]
  unfold applyRRuleParam applyRRuleParamBody
  rw [splitOnce_keyval "BYSETPOS".toList _ (by decide) (numValue_no_eq l)]
  dsimp only
  rw [if_neg (by
    rw [Bool.or_eq_true]
    push_neg
    exact ⟨by decide, by simpa [List.isEmpty_iff] using numValue_ne_nil l hl⟩)]
  rw [show toUpperStr ("BYSETPOS".toList) = "BYSETPOS".toList from rfl]
  rw [if_neg (by decide)]
  rw [if_neg (by decide)]
  rw [if_neg (by decide)]
  rw [if_neg (by decide)]
  rw [if_neg (by decide)]
  rw [if_neg (by decide)]
  rw [if_neg (by decide)]
  rw [if_neg (by decide)]
  rw [if_neg (by decide)]
  rw [if_neg (by decide)]
  rw [if_neg (by decide)]
  rw [if_neg (by decide)]
  rw [if_neg (by decide)]
  rw [if_pos (by decide)]
  rw [parseRRuleNumberList_round l (-366) (366) true strict hl hnd (fun x hx => ⟨fun _ => (h x hx).1, (h x hx).2.1, (h x hx).2.2⟩)]
  rfl

theorem except_bind_ok {ε α β : Type} (a : α) (g : α → Except ε β) :
    (Except.ok a >>= g) = g a := rfl

theorem foldlM_single {ε : Type} (f : ParseAccum → Str → Except ε ParseAccum)
    (b c : ParseAccum) (a : Str) (h : f b a = .ok c) :
    List.foldlM f b [a] = .ok c := by
  rw [show List.foldlM f b [a] = f b a >>= fun b2 => List.foldlM f b2 [] from rfl]
  rw [h]
  rfl

theorem foldlM_except_append {ε : Type} (f : ParseAccum → Str → Except ε ParseAccum)
    (l1 l2 : List Str) (b c : ParseAccum) (h1 : List.foldlM f b l1 = .ok c) :
    List.foldlM f b (l1 ++ l2) = List.foldlM f c l2 := by
  rw [List.foldlM_append, h1]
  rfl

theorem foldseg_interval (strict : Bool) (acc : ParseAccum) (o : Option Int)
    (ho : intervalFieldOK o) (hacc : acc.interval = none) :
    List.foldlM (applyRRuleParam strict) acc (intervalPart o) =
      .ok { acc with interval := o } := by
  cases o with
  | none =>
    show Except.ok acc = _
    rw [show ({ acc with interval := none } : ParseAccum) = acc from by
      cases acc
      simp_all]
  | some i =>
    have h2 : 2 ≤ i := ho
    simp only [intervalPart]
    rw [if_pos (by simpa using (by omega : ¬i = 1))]
    exact foldlM_single _ _ _ _ (apply_param_interval strict acc i (by omega))

theorem foldseg_count (strict : Bool) (acc : ParseAccum) (o : Option Int)
    (ho : countFieldOK o) (hacc : acc.count = none) :
    List.foldlM (applyRRuleParam strict) acc (countPart o) =
      .ok { acc with count := o } := by
  cases o with
  | none =>
    show Except.ok acc = _
    rw [show ({ acc with count := none } : ParseAccum) = acc from by
      cases acc
      simp_all]
  | some c =>
    have h1 : 1 ≤ c := ho
    simp only [countPart]
    exact foldlM_single _ _ _ _ (apply_param_count strict acc c h1)

theorem foldseg_wkst (strict : Bool) (acc : ParseAccum) (o : Option Weekday)
    (hacc : acc.wkst = none) :
    List.foldlM (applyRRuleParam strict) acc (wkstPart o) =
      .ok { acc with wkst := o } := by
  cases o with
  | none =>
    show Except.ok acc = _
    rw [show ({ acc with wkst := none } : ParseAccum) = acc from by
      cases acc
      simp_all]
  | some w =>
    simp only [wkstPart]
    exact foldlM_single _ _ _ _ (apply_param_wkst strict acc w)

theorem foldseg_byday (strict : Bool) (acc : ParseAccum)
    (o : Option (List WeekdayValue)) (ho : bydayFieldOK o)
    (hacc : acc.byweekday = none) :
    List.foldlM (applyRRuleParam strict) acc (byDayPart o) =
      .ok { acc with byweekday := o } := by
  cases o with
  | none =>
    show Except.ok acc = _
    rw [show ({ acc with byweekday := none } : ParseAccum) = acc from by
      cases acc
      simp_all]
  | some l =>
    obtain ⟨hl, hnd, hok⟩ := ho
    simp only [byDayPart]
    rw [if_pos (by simpa [List.length_pos] using hl)]
    exact foldlM_single _ _ _ _ (apply_param_byday strict acc l hl hnd hok)

theorem foldseg_bymonth (strict : Bool) (acc : ParseAccum) (o : Option (List Int))
    (ho : numFieldOK o (1) (12) true) (hacc : acc.bymonth = none) :
    List.foldlM (applyRRuleParam strict) acc (numListParts ("BYMONTH=".toList) o) =
      .ok { acc with bymonth := o } := by
  cases o with
  | none =>
    show Except.ok acc = _
    rw [show ({ acc with bymonth := none } : ParseAccum) = acc from by
      cases acc
      simp_all]
  | some l =>
    have ho' : l ≠ [] ∧ l.Nodup ∧ ∀ x ∈ l, (true = true → x ≠ 0) ∧ (1 : Int) ≤ x ∧ x ≤ 12 := ho
    simp only [numListParts]
    rw [if_pos (by simpa [List.length_pos] using ho'.1)]
    exact foldlM_single _ _ _ _
      (apply_param_bymonth strict acc l ho'.1 ho'.2.1 (fun x hx => ⟨((ho'.2.2 x hx).1 rfl), (ho'.2.2 x hx).2.1, (ho'.2.2 x hx).2.2⟩))

theorem foldseg_bymonthday (strict : Bool) (acc : ParseAccum) (o : Option (List Int))
    (ho : numFieldOK o (-31) (31) true) (hacc : acc.bymonthday = none) :
    List.foldlM (applyRRuleParam strict) acc (numListParts ("BYMONTHDAY=".toList) o) =
      .ok { acc with bymonthday := o } := by
  cases o with
  | none =>
    show Except.ok acc = _
    rw [show ({ acc with bymonthday := none } : ParseAccum) = acc from by
      cases acc
      simp_all]
  | some l =>
    have ho' : l ≠ [] ∧ l.Nodup ∧ ∀ x ∈ l, (true = true → x ≠ 0) ∧ (-31 : Int) ≤ x ∧ x ≤ 31 := ho
    simp only [numListParts]
    rw [if_pos (by simpa [List.length_pos] using ho'.1)]
    exact foldlM_single _ _ _ _
      (apply_param_bymonthday strict acc l ho'.1 ho'.2.1 (fun x hx => ⟨((ho'.2.2 x hx).1 rfl), (ho'.2.2 x hx).2.1, (ho'.2.2 x hx).2.2⟩))

theorem foldseg_byyearday (strict : Bool) (acc : ParseAccum) (o : Option (List Int))
    (ho : numFieldOK o (-366) (366) true) (hacc : acc.byyearday = none) :
    List.foldlM (applyRRuleParam strict) acc (numListParts ("BYYEARDAY=".toList) o) =
      .ok { acc with byyearday := o } := by
  cases o with
  | none =>
    show Except.ok acc = _
    rw [show ({ acc with byyearday := none } : ParseAccum) = acc from by
      cases acc
      simp_all]
  | some l =>
    have ho' : l ≠ [] ∧ l.Nodup ∧ ∀ x ∈ l, (true = true → x ≠ 0) ∧ (-366 : Int) ≤ x ∧ x ≤ 366 := ho
    simp only [numListParts]
    rw [if_pos (by simpa [List.length_pos] using ho'.1)]
    exact foldlM_single _ _ _ _
      (apply_param_byyearday strict acc l ho'.1 ho'.2.1 (fun x hx => ⟨((ho'.2.2 x hx).1 rfl), (ho'.2.2 x hx).2.1, (ho'.2.2 x hx).2.2⟩))

theorem foldseg_byweekno (strict : Bool) (acc : ParseAccum) (o : Option (List Int))
    (ho : numFieldOK o (-53) (53) true) (hacc : acc.byweekno = none) :
    List.foldlM (applyRRuleParam strict) acc (numListParts ("BYWEEKNO=".toList) o) =
      .ok { acc with byweekno := o } := by
  cases o with
  | none =>
    show Except.ok acc = _
    rw [show ({ acc with byweekno := none } : ParseAccum) = acc from by
      cases acc
      simp_all]
  | some l =>
    have ho' : l ≠ [] ∧ l.Nodup ∧ ∀ x ∈ l, (true = true → x ≠ 0) ∧ (-53 : Int) ≤ x ∧ x ≤ 53 := ho
    simp only [numListParts]
    rw [if_pos (by simpa [List.length_pos] using ho'.1)]
    exact foldlM_single _ _ _ _
      (apply_param_byweekno strict acc l ho'.1 ho'.2.1 (fun x hx => ⟨((ho'.2.2 x hx).1 rfl), (ho'.2.2 x hx).2.1, (ho'.2.2 x hx).2.2⟩))

theorem foldseg_byhour (strict : Bool) (acc : ParseAccum) (o : Option (List Int))
    (ho : numFieldOK o (0) (23) false) (hacc : acc.byhour = none) :
    List.foldlM (applyRRuleParam strict) acc (numListParts ("BYHOUR=".toList) o) =
      .ok { acc with byhour := o } := by
  cases o with
  | none =>
    show Except.ok acc = _
    rw [show ({ acc with byhour := none } : ParseAccum) = acc from by
      cases acc
      simp_all]
  | some l =>
    have ho' : l ≠ [] ∧ l.Nodup ∧ ∀ x ∈ l, (false = true → x ≠ 0) ∧ (0 : Int) ≤ x ∧ x ≤ 23 := ho
    simp only [numListParts]
    rw [if_pos (by simpa [List.length_pos] using ho'.1)]
    exact foldlM_single _ _ _ _
      (apply_param_byhour strict acc l ho'.1 ho'.2.1 (fun x hx => ⟨(ho'.2.2 x hx).2.1, (ho'.2.2 x hx).2.2⟩))

theorem foldseg_byminute (strict : Bool) (acc : ParseAccum) (o : Option (List Int))
    (ho : numFieldOK o (0) (59) false) (hacc : acc.byminute = none) :
    List.foldlM (applyRRuleParam strict) acc (numListParts ("BYMINUTE=".toList) o) =
      .ok { acc with byminute := o } := by
  cases o with
  | none =>
    show Except.ok acc = _
    rw [show ({ acc with byminute := none } : ParseAccum) = acc from by
      cases acc
      simp_all]
  | some l =>
    have ho' : l ≠ [] ∧ l.Nodup ∧ ∀ x ∈ l, (false = true → x ≠ 0) ∧ (0 : Int) ≤ x ∧ x ≤ 59 := ho
    simp only [numListParts]
    rw [if_pos (by simpa [List.length_pos] using ho'.1)]
    exact foldlM_single _ _ _ _
      (apply_param_byminute strict acc l ho'.1 ho'.2.1 (fun x hx => ⟨(ho'.2.2 x hx).2.1, (ho'.2.2 x hx).2.2⟩))

theorem foldseg_bysecond (strict : Bool) (acc : ParseAccum) (o : Option (List Int))
    (ho : numFieldOK o (0) (59) false) (hacc : acc.bysecond = none) :
    List.foldlM (applyRRuleParam strict) acc (numListParts ("BYSECOND=".toList) o) =
      .ok { acc with bysecond := o } := by
  cases o with
  | none =>
    show Except.ok acc = _
    rw [show ({ acc with bysecond := none } : ParseAccum) = acc from by
      cases acc
      simp_all]
  | some l =>
    have ho' : l ≠ [] ∧ l.Nodup ∧ ∀ x ∈ l, (false = true → x ≠ 0) ∧ (0 : Int) ≤ x ∧ x ≤ 59 := ho
    simp only [numListParts]
    rw [if_pos (by simpa [List.length_pos] using ho'.1)]
    exact foldlM_single _ _ _ _
      (apply_param_bysecond strict acc l ho'.1 ho'.2.1 (fun x hx => ⟨(ho'.2.2 x hx).2.1, (ho'.2.2 x hx).2.2⟩))

theorem foldseg_bysetpos (strict : Bool) (acc : ParseAccum) (o : Option (List Int))
    (ho : numFieldOK o (-366) (366) true) (hacc : acc.bysetpos = none) :
    List.foldlM (applyRRuleParam strict) acc (numListParts ("BYSETPOS=".toList) o) =
      .ok { acc with bysetpos := o } := by
  cases o with
  | none =>
    show Except.ok acc = _
    rw [show ({ acc with bysetpos := none } : ParseAccum) = acc from by
      cases acc
      simp_all]
  | some l =>
    have ho' : l ≠ [] ∧ l.Nodup ∧ ∀ x ∈ l, (true = true → x ≠ 0) ∧ (-366 : Int) ≤ x ∧ x ≤ 366 := ho
    simp only [numListParts]
    rw [if_pos (by simpa [List.length_pos] using ho'.1)]
    exact foldlM_single _ _ _ _
      (apply_param_bysetpos strict acc l ho'.1 ho'.2.1 (fun x hx => ⟨((ho'.2.2 x hx).1 rfl), (ho'.2.2 x hx).2.1, (ho'.2.2 x hx).2.2⟩))

theorem notNl_of_notWs (c : Char) (h : isJsWs c = false) :
    (!(c == Char.ofNat 10) && !(c == Char.ofNat 13)) = true := by
  have h1 : c ≠ Char.ofNat 10 := by
    intro hEq
    subst hEq
    exact absurd h (by decide)
  have h2 : c ≠ Char.ofNat 13 := by
    intro hEq
    subst hEq
    exact absurd h (by decide)
  simp [h1, h2]

theorem partOk_freq (f : Frequency) : partOk (("FREQ=".toList) ++ freqStr f) := by
  refine ⟨by simp, ?_⟩
  intro c hc
  rcases List.mem_append.mp hc with h | h
  · revert h
    have : ∀ c ∈ ("FREQ=".toList : Str), isJsWs c = false ∧ c ≠ ';' := by decide
    exact this c
  · have := (freqStr_plain f).2 c h
    exact ⟨this.1, this.2.2.2.1⟩

theorem partOk_intervalPart (o : Option Int) :
    ∀ p ∈ intervalPart o, partOk p := by
  intro p hp
  cases o with
  | none => simp [intervalPart] at hp
  | some i =>
    simp only [intervalPart] at hp
    split at hp
    · simp only [List.mem_singleton] at hp
      subst hp
      refine ⟨by simp, ?_⟩
      intro c hc
      rcases List.mem_append.mp hc with h | h
      · revert h
        have : ∀ c ∈ ("INTERVAL=".toList : Str), isJsWs c = false ∧ c ≠ ';' := by decide
        exact this c
      · have := intRepr_plain i c h
        exact ⟨this.1, this.2.2.2.1⟩
    · simp at hp

theorem partOk_countPart (o : Option Int) :
    ∀ p ∈ countPart o, partOk p := by
  intro p hp
  cases o with
  | none => simp [countPart] at hp
  | some c0 =>
    simp only [countPart, List.mem_singleton] at hp
    subst hp
    refine ⟨by simp, ?_⟩
    intro c hc
    rcases List.mem_append.mp hc with h | h
    · revert h
      have : ∀ c ∈ ("COUNT=".toList : Str), isJsWs c = false ∧ c ≠ ';' := by decide
      exact this c
    · have := intRepr_plain c0 c h
      exact ⟨this.1, this.2.2.2.1⟩

theorem partOk_wkstPart (o : Option Weekday) :
    ∀ p ∈ wkstPart o, partOk p := by
  intro p hp
  cases o with
  | none => simp [wkstPart] at hp
  | some w =>
    simp only [wkstPart, List.mem_singleton] at hp
    subst hp
    refine ⟨by simp, ?_⟩
    intro c hc
    rcases List.mem_append.mp hc with h | h
    · revert h
      have : ∀ c ∈ ("WKST=".toList : Str), isJsWs c = false ∧ c ≠ ';' := by decide
      exact this c
    · have := ((weekdayStr_plain w).2 c h).1
      exact ⟨this.1, this.2.2.2.1⟩

theorem partOk_byDayPart (o : Option (List WeekdayValue)) (ho : bydayFieldOK o) :
    ∀ p ∈ byDayPart o, partOk p := by
  intro p hp
  cases o with
  | none => simp [byDayPart] at hp
  | some l =>
    simp only [byDayPart] at hp
    split at hp
    · simp only [List.mem_singleton] at hp
      subst hp
      refine ⟨by simp, ?_⟩
      intro c hc
      rcases List.mem_append.mp hc with h | h
      · revert h
        have : ∀ c ∈ ("BYDAY=".toList : Str), isJsWs c = false ∧ c ≠ ';' := by decide
        exact this c
      · rcases mem_intercalate_char ',' c (l.map formatWeekdayValue) h with rfl | ⟨q, hq, hcq⟩
        · exact ⟨by decide, by decide⟩
        · obtain ⟨wv, hwv, rfl⟩ := List.mem_map.mp hq
          have := (formatWeekdayValue_plain wv (ho.2.2 wv hwv)).2 c hcq
          exact ⟨this.1, this.2.2.2.1⟩
    · simp at hp

theorem numListParts_partOk (key : Str) (o : Option (List Int))
    (hkey : key ≠ [] ∧ ∀ c ∈ key, isJsWs c = false ∧ c ≠ ';') :
    ∀ p ∈ numListParts key o, partOk p := by
  intro p hp
  cases o with
  | none => simp [numListParts] at hp
  | some l =>
    simp only [numListParts] at hp
    split at hp
    · simp only [List.mem_singleton] at hp
      subst hp
      refine ⟨by simp [hkey.1], ?_⟩
      intro c hc
      rcases List.mem_append.mp hc with h | h
      · exact hkey.2 c h
      · rcases mem_intercalate_char ',' c (l.map intRepr) h with rfl | ⟨q, hq, hcq⟩
        · exact ⟨by decide, by decide⟩
        · obtain ⟨k, _, rfl⟩ := List.mem_map.mp hq
          have := intRepr_plain k c hcq
          exact ⟨this.1, this.2.2.2.1⟩
    · simp at hp

/-- C5 counterexample: a sanitized rule with INTERVAL=1 and a dtstart
formats to `RRULE:FREQ=DAILY`, which parses back with no interval and no
dtstart, so parse of format is not the identity on sanitized rules. -/
theorem counterexample_C5 :
    ∃ (O : RRuleOptions) (R : ParsedRRuleOptions) (s : Str),
      sanitizeRRuleOptions O = .ok R ∧ formatRRule R = .ok s ∧
        parseRRule s true ≠ .ok R := by
  refine ⟨c5bugInput, c5bugSan, "RRULE:FREQ=DAILY".toList, by decide, by decide,
    by decide⟩

/-- Claim C1 (code bug evidence).  The claim says a MONTHLY rule with no
BY* selectors anchored on day-of-month 31 emits only day-31 moments and
skips short months.  The code instead clamps the cursor (constrain month
addition) and emits the clamped day, after which the cursor stays drifted:
from 2025-01-31 the first three emissions are Jan 31, Feb 28 and Mar 28. -/
theorem claim_C1 :
    sanitizeRRuleOptions c1input = .ok c1opts ∧
    (generateDates c1opts defaultMaxIterations none 10).emissions =
      [.date 2025 1 31, .date 2025 2 28, .date 2025 3 28] ∧
    (generateDates c1opts defaultMaxIterations none 10).outcome = .done := by
  refine ⟨by decide, by decide, by decide⟩

/-- Claim C2 (code bug evidence).  The claim says emissions are strictly
increasing.  With the overlapping `BYDAY=MO,1MO` selectors the first
Monday is pushed twice (`expandByWeekdayInMonth` collects every token's
picks without deduplication), so the generator emits the same moment twice
in a row: the first two emissions of this rule are both
2025-09-01T09:00. -/
theorem claim_C2 :
    sanitizeRRuleOptions c2input = .ok c2opts ∧
    (generateDates c2opts defaultMaxIterations none 10).emissions =
      [.dateTime 2025 9 1 9 0 0 0, .dateTime 2025 9 1 9 0 0 0,
        .dateTime 2025 9 8 9 0 0 0] ∧
    compareDates (.dateTime 2025 9 1 9 0 0 0) (.dateTime 2025 9 1 9 0 0 0) = 0 := by
  refine ⟨by decide, by decide, by decide⟩

/-- Claim C4 (code bug evidence).  The claim says `after` (which seeks)
returns exactly the unseeked sequence filtered by the same predicate.  For
`FREQ=DAILY;COUNT=5` from 2025-01-01 the rule's occurrences are Jan 1-5,
so occurrences strictly after Jan 3 are Jan 4 and Jan 5; but the seeked
generator starts its COUNT at the seek point and `after` returns four
moments, Jan 4 through Jan 7. -/
theorem claim_C4 :
    afterFn c4opts defaultMaxIterations 40 c4target false none =
      .ok [.date 2025 1 4, .date 2025 1 5, .date 2025 1 6, .date 2025 1 7] ∧
    (generateDates c4opts defaultMaxIterations none 40).emissions.filter
        (fun d => decide (compareDates d c4target > 0)) =
      [.date 2025 1 4, .date 2025 1 5] ∧
    (generateDates c4opts defaultMaxIterations none 40).outcome = .done := by
  refine ⟨by decide, by decide, by decide⟩

/-- Claim C10 (confirmed).  If at generation time `until` is strictly
before the dtstart installed by the unvalidated `dtstart` setter, the
generator returns the empty sequence normally (`done`), raising no
error. -/
theorem claim_C10 (opts : ParsedRRuleOptions) (d u : DateValue) (maxIter : Int)
    (fuel : Nat) (hu : (setDtstart opts (some d)).untilDate = some u)
    (hlt : compareDates u d < 0) :
    generateDates (setDtstart opts (some d)) maxIter none fuel = ⟨[], .done, 0⟩ := by
  have hu' : opts.untilDate = some u := hu
  simp only [generateDates, setDtstart, hu', hlt]
  split
  · rfl
  · simp [hlt]

/-- Witness for claim C10 at a concrete rule. -/
theorem claim_C10_witness :
    generateDates (setDtstart c10opts (some (.date 2025 6 1))) defaultMaxIterations
      none 10 = ⟨[], .done, 0⟩ :=
  claim_C10 c10opts (.date 2025 6 1) (.date 2025 1 1) defaultMaxIterations 10
    (by decide) (by decide)

/-- Claim C3 counterexample.  On the singleton candidate list with
`BYSETPOS=1,-1` both positions pick the same element; the code returns it
twice while the claim's description (with its deduplication step) returns
it once. -/
theorem counterexample_C3 :
    applyBySetPos [.date 2025 1 1]
        ⟨.MONTHLY, none, none, none, none, none, some [1, -1], none, some [1],
          none, none, none, none, none, none⟩ =
      [.date 2025 1 1, .date 2025 1 1] ∧
    applyBySetPosSpec [.date 2025 1 1] [1, -1] = [.date 2025 1 1] := by
  refine ⟨by decide, by decide⟩

/-- Helper for claim C3: the push loop of `applyBySetPos` collects exactly
the position picks, in bysetpos order, appended to the accumulator. -/
theorem picks_fold (sorted : List DateValue) (ps : List Int) (acc : List DateValue) :
    ps.foldl (fun acc position =>
      let index : Int := if position > 0 then position - 1 else (sorted.length : Int) + position
      if index ≥ 0 && index < (sorted.length : Int) then
        acc ++ (sorted.get? index.toNat).toList
      else acc) acc = acc ++ bySetPosPicks sorted ps := by
  induction ps generalizing acc with
  | nil => simp [bySetPosPicks]
  | cons p rest ih =>
    simp only [List.foldl_cons, bySetPosPicks, List.filterMap_cons]
    by_cases hc : ((if p > 0 then p - 1 else (sorted.length : Int) + p) ≥ 0 &&
        (if p > 0 then p - 1 else (sorted.length : Int) + p) < (sorted.length : Int)) = true
    · cases hg : sorted.get? (if p > 0 then p - 1 else (sorted.length : Int) + p).toNat with
      | none => simp only [hc, if_true, hg, Option.toList_none, List.append_nil, ih,
          bySetPosPicks]
      | some x => simp only [hc, if_true, hg, Option.toList_some, ih, bySetPosPicks,
          List.append_assoc, List.singleton_append]
    · simp only [Bool.not_eq_true] at hc
      simp only [hc, Bool.false_eq_true, if_false, ih, bySetPosPicks]

/-- Claim C3 as amended: the BYSETPOS step returns the chronologically
re-sorted position picks of the sorted candidate list — keeping repeats
(there is no deduplication); when bysetpos is empty all candidates survive
unchanged. -/
theorem claim_C3 (dates : List DateValue) (options : ParsedRRuleOptions) :
    applyBySetPos dates options =
      (match options.bysetpos with
       | none => dates
       | some ps =>
         if ps.isEmpty then dates
         else jsSortDates (bySetPosPicks (jsSortDates dates) ps)) := by
  unfold applyBySetPos
  match options.bysetpos with
  | none => simp
  | some ps =>
    by_cases h : ps.isEmpty
    · simp [h]
    · simp only [Option.getD_some, h, Bool.false_eq_true, if_false]
      rw [picks_fold]
      simp

/-- Claim C9 counterexample.  The record form is validated by
`isWeekdayValue` with the strict bounds `n > -53 && n < 53` and no zero
check, so `{weekday: MO, n: 0}` is kept while `{FR, 53}` and `{SA, -53}`
are dropped — the reverse of the claim (the repository's own tests assert
the ±53 rejections, so this is the intended record behaviour). -/
theorem counterexample_C9 :
    sanitizeWeekdayValue (some (.obj .MO 0)) = some (.nth .MO 0) ∧
    sanitizeWeekdayValue (some (.obj .FR 53)) = none ∧
    sanitizeWeekdayValue (some (.obj .SA (-53))) = none := by
  refine ⟨by decide, by decide, by decide⟩

/-- Claim C9 as amended.  A record `{weekday, n}` is kept exactly when
`-53 < n < 53` (zero included, |n| = 53 excluded); a textual token built
from a sign-and-digits ordinal and a weekday (every ordinal from -99 to 99)
is kept exactly when `1 ≤ |n| ≤ 53`, rejecting `n = 0` and `|n| ≥ 54` as
the claim describes for tokens. -/
theorem claim_C9 :
    (∀ (w : Weekday) (n : Int), -53 < n → n < 53 →
        sanitizeWeekdayValue (some (.obj w n)) = some (.nth w n)) ∧
    (∀ (w : Weekday) (n : Int), n ≤ -53 ∨ 53 ≤ n →
        sanitizeWeekdayValue (some (.obj w n)) = none) ∧
    (∀ k : Nat, k < 199 → ∀ w : Weekday,
        sanitizeWeekdayValue (some (.str (intRepr ((k : Int) - 99) ++ weekdayStr w))) =
          if 1 ≤ ((k : Int) - 99).natAbs ∧ ((k : Int) - 99).natAbs ≤ 53 then
            some (.nth w ((k : Int) - 99))
          else none) := by
  refine ⟨?_, ?_, by decide⟩
  · intro w n h1 h2
    have hv : isWeekdayValue (.obj w n) = true := by
      simp only [isWeekdayValue, decide_eq_true_eq]
      exact ⟨h1, h2⟩
    simp [sanitizeWeekdayValue, hv, toWeekdayValue]
  · intro w n h
    have hv : isWeekdayValue (.obj w n) = false := by
      simp only [isWeekdayValue, decide_eq_false_iff_not]
      omega
    simp [sanitizeWeekdayValue, hv]

/-- Witness for claim C9: the record `{TU, 5}` is kept, and the token
`"-51MO"` (ordinal -51) parses to the ordinal term. -/
theorem claim_C9_witness :
    sanitizeWeekdayValue (some (.obj .TU 5)) = some (.nth .TU 5) ∧
    sanitizeWeekdayValue (some (.str (intRepr ((48 : Int) - 99) ++ weekdayStr .MO))) =
      if 1 ≤ ((48 : Int) - 99).natAbs ∧ ((48 : Int) - 99).natAbs ≤ 53 then
        some (.nth .MO ((48 : Int) - 99))
      else none :=
  ⟨claim_C9.1 .TU 5 (by decide) (by decide), claim_C9.2.2 48 (by decide) .MO⟩

/-- Claim C6 counterexample.  Two options records carrying a structural
violation in the claim's literal sense which the sanitizer nevertheless
accepts: COUNT=0 together with UNTIL (the zero count is silently dropped
first), and a non-empty BYSETPOS list whose only entry 0 is dropped before
the partner check. -/
theorem counterexample_C6 :
    (sanitizeRRuleOptions c6inputA).isOk = true ∧
    c6inputA.count.isSome = true ∧ c6inputA.untilDate.isSome = true ∧
    (sanitizeRRuleOptions c6inputB).isOk = true ∧
    c6inputB.bysetpos = some [0] := by
  refine ⟨by decide, by decide, by decide, by decide, by decide⟩

/-- Helper for claim C6: `sanitizeUntilDate` fails exactly when both
moments are present with UNTIL before DTSTART; otherwise it returns the
UNTIL value unchanged. -/
theorem sanitizeUntil_cases (u s : Option DateValue) :
    (∃ e, sanitizeUntilDate u s = .error e ∧
      (match u, s with | some uv, some sv => compareDates uv sv < 0 | _, _ => False)) ∨
    (sanitizeUntilDate u s = .ok u ∧
      ¬(match u, s with | some uv, some sv => compareDates uv sv < 0 | _, _ => False)) := by
  cases s with
  | none => right; cases u <;> simp [sanitizeUntilDate]
  | some sv =>
    cases u with
    | none => right; simp [sanitizeUntilDate]
    | some uv =>
      by_cases h : compareDates uv sv < 0
      · left; exact ⟨.untilBeforeDtstart, by simp [sanitizeUntilDate, h], h⟩
      · right; simp [sanitizeUntilDate, h]

/-- Helper for claim C6: the partner check fails exactly when the
sanitized BYSETPOS list is non-empty and every other sanitized BY* list is
empty. -/
theorem validate_false_iff (parsed : ParsedRRuleOptions) :
    validateBySetPos parsed = false ↔
      (parsed.bysetpos.getD [] ≠ [] ∧
       parsed.bymonth.getD [] = [] ∧ parsed.bymonthday.getD [] = [] ∧
       parsed.byyearday.getD [] = [] ∧ parsed.byweekday.getD [] = [] ∧
       parsed.byweekno.getD [] = [] ∧ parsed.byhour.getD [] = [] ∧
       parsed.byminute.getD [] = [] ∧ parsed.bysecond.getD [] = []) := by
  unfold validateBySetPos
  cases hb : parsed.bysetpos with
  | none => simp
  | some ps =>
    by_cases hps : ps.isEmpty
    · simp [hps, List.isEmpty_iff.mp hps]
    · have hne : ps ≠ [] := by simpa [List.isEmpty_iff] using hps
      simp [hps, hne, List.length_pos, List.length_eq_zero, and_assoc]

/-- Claim C6 as amended: sanitization fails exactly when a structural
violation is present among the sanitized values — sanitized COUNT present
together with UNTIL, UNTIL earlier than DTSTART, or sanitized BYSETPOS
non-empty with every other sanitized BY* selector empty — and for every
other input it succeeds, silently dropping out-of-range selector values,
forbidden zeros and unparseable weekday terms. -/
theorem claim_C6 (O : RRuleOptions) :
    (sanitizeRRuleOptions O).isOk = true ↔ ¬ C6Violation O := by
  rcases sanitizeUntil_cases O.untilDate O.dtstart with ⟨e, he, hviol⟩ | ⟨hok, hnv⟩
  · have hres : sanitizeRRuleOptions O = .error e := by
      unfold sanitizeRRuleOptions
      rw [he]
    rw [hres]
    simp only [Except.isOk, Except.toBool, Bool.false_eq_true, false_iff, not_not,
      C6Violation]
    exact Or.inr (Or.inl hviol)
  · unfold sanitizeRRuleOptions
    rw [hok]
    simp only []
    by_cases hc : ((buildParsed O O.untilDate).count.isSome &&
        (buildParsed O O.untilDate).untilDate.isSome) = true
    · rw [if_pos hc]
      simp only [Except.isOk, Except.toBool, Bool.false_eq_true, false_iff, not_not,
        C6Violation]
      left
      simpa [buildParsed, Bool.and_eq_true] using hc
    · rw [if_neg hc]
      by_cases hv : validateBySetPos (buildParsed O O.untilDate) = true
      · simp only [hv, Bool.not_true, Bool.false_eq_true, if_false, Except.isOk,
          Except.toBool, true_iff, C6Violation]
        push_neg
        refine ⟨?_, ?_, ?_⟩
        · intro hcs hus
          exact absurd (by simp [buildParsed, hcs, hus]) hc
        · exact hnv
        · intro h1 h2 h3 h4 h5 h6 h7 h8 h9
          have := (validate_false_iff (buildParsed O O.untilDate)).mpr
            (by exact ⟨by simpa [buildParsed] using h1, by simpa [buildParsed] using h2,
              by simpa [buildParsed] using h3, by simpa [buildParsed] using h4,
              by simpa [buildParsed] using h5, by simpa [buildParsed] using h6,
              by simpa [buildParsed] using h7, by simpa [buildParsed] using h8,
              by simpa [buildParsed] using h9⟩)
          rw [hv] at this
          exact Bool.true_eq_false.mp this
      · have hv' : validateBySetPos (buildParsed O O.untilDate) = false :=
          Bool.not_eq_true _ |>.mp hv
        simp only [hv', Bool.not_false, if_true, Except.isOk, Except.toBool,
          Bool.false_eq_true, false_iff, not_not, C6Violation]
        right; right
        have := (validate_false_iff (buildParsed O O.untilDate)).mp hv'
        simpa [buildParsed] using this

/-- Helper for claim C7: along the generator loop the iteration counter
equals the advance counter, so the loop never runs out of fuel when the
budget covers the cap, never advances more than `maxIter + 1` times, and
raises the cap error exactly at advance `maxIter + 1`. -/
theorem genLoop_bound (options : ParsedRRuleOptions) (maxIter : Int)
    (dtstart : DateValue) (interval : Int) :
    ∀ (fuel : Nat) (cursor : DateValue) (emitted iterations consec adv : Int),
    0 ≤ maxIter → iterations = adv → 0 ≤ adv → adv ≤ maxIter + 1 →
    maxIter.toNat + 2 ≤ fuel + adv.toNat →
    (genLoop options maxIter dtstart interval fuel cursor emitted iterations consec adv).outcome ≠ .outOfFuel ∧
    (genLoop options maxIter dtstart interval fuel cursor emitted iterations consec adv).advances ≤ maxIter + 1 ∧
    ((genLoop options maxIter dtstart interval fuel cursor emitted iterations consec adv).outcome = .maxIterExceeded →
      (genLoop options maxIter dtstart interval fuel cursor emitted iterations consec adv).advances = maxIter + 1) := by
  intro fuel
  induction fuel with
  | zero =>
    intro cursor emitted iterations consec adv h0 hia hadv0 hadv1 hfuel
    exfalso
    omega
  | succ fuel ih =>
    intro cursor emitted iterations consec adv h0 hia hadv0 hadv1 hfuel
    simp only [genLoop]
    split
    · next hgt =>
      refine ⟨by simp, by simpa using hadv1, fun _ => ?_⟩
      show adv = maxIter + 1
      omega
    · next hgt =>
      rcases hE : emitLoop dtstart options.untilDate options.count emitted
        (periodFiltered options cursor) with ⟨ys, emitted', term⟩
      simp only [hE]
      cases term with
      | true =>
        simp only [if_pos]
        exact ⟨by simp, by simpa using hadv1, by simp⟩
      | false =>
        simp only [Bool.false_eq_true, if_false]
        split
        · exact ⟨by simp, by simpa using hadv1, by simp⟩
        · have hrec := ih (advancePeriod cursor options.freq interval) emitted'
            (iterations + 1) (if (!ys.isEmpty) = true then 0 else consec + 1) (adv + 1)
            h0 (by omega) (by omega) (by omega) (by omega)
          refine ⟨?_, ?_, ?_⟩
          · simpa using hrec.1
          · simpa using hrec.2.1
          · intro hout
            simp only at hout
            simpa using hrec.2.2 (by simpa using hout)

/-- Claim C7 (confirmed).  The default cap is 10,000; the `maxIterations`
setter accepts exactly the values ≥ 1; and for any cap ≥ 0 a fully driven
generator performs at most `maxIterations + 1` cursor advances, raising
`MaxIterationsExceeded` exactly when the advance count first exceeds the
cap (that is, at advance `maxIterations + 1`). -/
theorem claim_C7 :
    defaultMaxIterations = 10000 ∧
    (∀ v : Int, (setMaxIterations (some v)).isOk = true ↔ 1 ≤ v) ∧
    (∀ (options : ParsedRRuleOptions) (maxIter : Int) (after : Option DateValue)
        (fuel : Nat), 0 ≤ maxIter → maxIter.toNat + 2 ≤ fuel →
      (generateDates options maxIter after fuel).outcome ≠ .outOfFuel ∧
      (generateDates options maxIter after fuel).advances ≤ maxIter + 1 ∧
      ((generateDates options maxIter after fuel).outcome = .maxIterExceeded →
        (generateDates options maxIter after fuel).advances = maxIter + 1)) := by
  refine ⟨rfl, ?_, ?_⟩
  · intro v
    unfold setMaxIterations
    by_cases h : v < 1 <;> simp [h, Except.isOk, Except.toBool] <;> omega
  · intro options maxIter after fuel h0 hfuel
    unfold generateDates
    cases hd : options.dtstart with
    | none => exact ⟨by simp, by simp; omega, by simp⟩
    | some dtstart =>
      simp only []
      split
      · exact ⟨by simp, by simp; omega, by simp⟩
      · split
        · exact ⟨by simp, by simp; omega, by simp⟩
        · exact genLoop_bound options maxIter dtstart (options.interval.getD 1) fuel _
            0 0 0 0 h0 rfl (by omega) (by omega) (by omega)

/-- Witness for claim C7: with a cap of 5 the unbounded DAILY rule raises
the cap error after exactly 6 cursor advances. -/
theorem claim_C7_witness :
    ((setMaxIterations (some 5)).isOk = true ↔ 1 ≤ (5 : Int)) ∧
    ((generateDates c7opts 5 none 10).outcome ≠ .outOfFuel ∧
     (generateDates c7opts 5 none 10).advances ≤ 5 + 1 ∧
     ((generateDates c7opts 5 none 10).outcome = .maxIterExceeded →
       (generateDates c7opts 5 none 10).advances = 5 + 1)) ∧
    (generateDates c7opts 5 none 10).outcome = .maxIterExceeded ∧
    (generateDates c7opts 5 none 10).advances = 6 :=
  ⟨claim_C7.2.1 5, claim_C7.2.2 c7opts 5 none 10 (by decide) (by decide),
    by decide, by decide⟩

/-- Helper for claim C8: a period that yields nothing leaves the `emitted`
total unchanged. -/
theorem emitLoop_empty_emitted (dtstart : DateValue) (u : Option DateValue)
    (c : Option Int) :
    ∀ (l : List DateValue) (emitted : Int), (emitLoop dtstart u c emitted l).1 = [] →
      (emitLoop dtstart u c emitted l).2.1 = emitted := by
  intro l
  induction l with
  | nil => intro emitted _; rfl
  | cons d rest ih =>
    intro emitted h
    by_cases h1 : compareDates d dtstart < 0
    · simp only [emitLoop, if_pos h1] at h ⊢
      exact ih emitted h
    · simp only [emitLoop, if_neg h1] at h ⊢
      split
      · rfl
      · next hcond2 =>
        split
        · next hcond3 =>
          rw [if_neg hcond2, if_pos hcond3] at h
          exact absurd h (by simp)
        · next hcond3 =>
          rw [if_neg hcond2, if_neg hcond3] at h
          exact absurd h (by simp)

/-- Helper for claim C8: when every period from the k-th on yields nothing,
the loop entered at the k-th period with k prior consecutive-empty periods
and no emissions returns normally with no emissions (the detector fires at
the 1000th consecutive empty period). -/
theorem genLoop_emptyRun (options : ParsedRRuleOptions) (maxIter : Int)
    (dtstart : DateValue) (interval : Int)
    (hM : 999 ≤ maxIter)
    (hY : ∀ k : Nat, k < 1000 →
      periodYields options dtstart 0 (cursorAtPeriod options dtstart interval k) = []) :
    ∀ (j k : Nat), k + j = 1000 → 1 ≤ j → ∀ (fuel : Nat), j ≤ fuel → ∀ (adv : Int),
      (genLoop options maxIter dtstart interval fuel
        (cursorAtPeriod options dtstart interval k) 0 (k : Int) (k : Int) adv).emissions = [] ∧
      (genLoop options maxIter dtstart interval fuel
        (cursorAtPeriod options dtstart interval k) 0 (k : Int) (k : Int) adv).outcome = .done := by
  intro j
  induction j with
  | zero => intro k _ h1; omega
  | succ j ih =>
    intro k hkj _ fuel hfuel adv
    match fuel, hfuel with
    | fuel + 1, _ =>
      have hk1000 : k < 1000 := by omega
      have hys : (emitLoop dtstart options.untilDate options.count 0
          (periodFiltered options (cursorAtPeriod options dtstart interval k))).1 = [] :=
        hY k hk1000
      have hem := emitLoop_empty_emitted dtstart options.untilDate options.count
        (periodFiltered options (cursorAtPeriod options dtstart interval k)) 0 hys
      simp only [genLoop]
      rw [if_neg (by omega : ¬((k : Int) > maxIter))]
      rcases hE : emitLoop dtstart options.untilDate options.count 0
        (periodFiltered options (cursorAtPeriod options dtstart interval k)) with ⟨ys, e', term⟩
      rw [hE] at hys hem
      simp only at hys hem
      subst hys
      subst hem
      cases term with
      | true => exact ⟨rfl, rfl⟩
      | false =>
        simp only [Bool.false_eq_true, if_false, List.isEmpty_nil, Bool.not_true,
          Bool.false_and, Bool.not_false, Bool.true_and]
        by_cases hcond : (decide ((k : Int) + 1 ≥ 1000) && ((0 : Int) == 0)) = true
        · rw [if_pos hcond]
          exact ⟨rfl, rfl⟩
        · rw [if_neg hcond]
          have hj1 : 1 ≤ j := by
            by_contra hj0
            have hj0' : j = 0 := by omega
            subst hj0'
            have hk999 : k = 999 := by omega
            subst hk999
            exact hcond (by decide)
          have hrec := ih (k + 1) (by omega) hj1 fuel (by omega) (adv + 1)
          rw [show ((k : Int) + 1) = (((k + 1 : Nat)) : Int) by push_cast; ring]
          refine ⟨?_, ?_⟩
          · simpa [cursorAtPeriod] using hrec.1
          · simpa [cursorAtPeriod] using hrec.2

/-- Claim C8 (confirmed).  If the first 1000 periods of a rule each yield
zero emissions, the generator terminates normally with an empty sequence
(no error), the empty-period detector firing before the iteration cap
(which must cover at least the 1000 entries, as the default 10,000
does). -/
theorem claim_C8 (options : ParsedRRuleOptions) (d : DateValue) (maxIter : Int)
    (fuel : Nat) (hd : options.dtstart = some d) (hM : 999 ≤ maxIter)
    (hfuel : 1000 ≤ fuel)
    (hY : ∀ k : Nat, k < 1000 →
      periodYields options d 0
        (cursorAtPeriod options d (options.interval.getD 1) k) = []) :
    (generateDates options maxIter none fuel).emissions = [] ∧
    (generateDates options maxIter none fuel).outcome = .done := by
  unfold generateDates
  rw [hd]
  simp only []
  split
  · exact ⟨rfl, rfl⟩
  · split
    · exact ⟨rfl, rfl⟩
    · have h := genLoop_emptyRun options maxIter d (options.interval.getD 1) hM hY
        1000 0 (by omega) (by omega) fuel (by omega) 0
      exact ⟨h.1, h.2⟩

/-- Every month's expansion of the impossible rule is empty: months other
than April fail the BYMONTH limiter, and April has no day 31. -/
theorem c8_expand_empty (cursor : DateValue) : expandMonthly cursor c8opts = [] := by
  by_cases h4 : cursor.month = 4
  · have hdim : getDaysInMonth cursor = 30 := by
      simp [getDaysInMonth, daysInMonth, h4, isLeapYear]
    simp [expandMonthly, c8opts, h4, hdim, jsUnique, jsUniqueAux, jsSortDates]
  · simp [expandMonthly, c8opts, List.contains_cons, h4]

/-- Every period of the impossible rule yields nothing. -/
theorem c8_yields_empty (k : Nat) (_hk : k < 1000) :
    periodYields c8opts (.date 2025 1 31) 0
      (cursorAtPeriod c8opts (.date 2025 1 31) ((c8opts.interval).getD 1) k) = [] := by
  have hexp := c8_expand_empty
    (cursorAtPeriod c8opts (.date 2025 1 31) ((c8opts.interval).getD 1) k)
  have hfil : periodFiltered c8opts
      (cursorAtPeriod c8opts (.date 2025 1 31) ((c8opts.interval).getD 1) k) = [] := by
    simp only [periodFiltered]
    rw [show expandPeriod c8opts.freq = expandPeriod .MONTHLY from rfl]
    simp only [expandPeriod, hexp, List.flatMap_nil]
    rfl
  simp only [periodYields, hfil, emitLoop]

/-- Witness for claim C8: the impossible rule produces a finite empty
sequence, terminating normally. -/
theorem claim_C8_witness :
    (generateDates c8opts defaultMaxIterations none 1000).emissions = [] ∧
    (generateDates c8opts defaultMaxIterations none 1000).outcome = .done :=
  claim_C8 c8opts (.date 2025 1 31) defaultMaxIterations 1000 rfl (by decide)
    (by decide) c8_yields_empty

theorem digit_not_ws (c : Char) (h : isDigitChar c = true) :
    isJsWs c = false ∧ c ≠ '+' ∧ c ≠ '-' ∧ c ≠ 'Z' := by
  have hne : ∀ w : Char, isDigitChar w = false → c ≠ w := by
    intro w hw hEq
    rw [hEq, hw] at h
    exact absurd h (by decide)
  refine ⟨?_, hne '+' (by decide), hne '-' (by decide), hne 'Z' (by decide)⟩
  unfold isJsWs
  have h1 := hne ' ' (by decide)
  have h2 := hne (Char.ofNat 9) (by decide)
  have h3 := hne (Char.ofNat 10) (by decide)
  have h4 := hne (Char.ofNat 13) (by decide)
  have h5 := hne (Char.ofNat 12) (by decide)
  have h6 := hne (Char.ofNat 11) (by decide)
  simp [h1, h2, h3, h4, h5, h6]

theorem parseInteger_digits (s : Str) (hne : s ≠ [])
    (hd : ∀ c ∈ s, isDigitChar c = true) :
    parseInteger s = some ((natFromDigits s : Nat) : Int) := by
  obtain ⟨c, rest, rfl⟩ := List.exists_cons_of_ne_nil hne
  have hc := digit_not_ws c (hd c (by simp))
  unfold parseInteger
  rw [List.dropWhile_cons, if_neg (by rw [hc.1]; simp)]
  have hm : (match c :: rest with
      | '+' :: rest => ((1 : Int), rest)
      | '-' :: rest => ((-1 : Int), rest)
      | _ => ((1 : Int), c :: rest)) = (1, c :: rest) := by
    split
    · next heq => rw [List.cons.injEq] at heq; exact absurd heq.1 hc.2.1
    · next heq => rw [List.cons.injEq] at heq; exact absurd heq.1 hc.2.2.1
    · next => rfl
  dsimp only
  rw [hm]
  rw [takeWhile_digits_eq_self _ hd]
  rw [show (c :: rest).isEmpty = false from by simp]
  simp only [Bool.false_eq_true, if_false, Int.one_mul]

theorem natDigits_length_le (k : Nat) :
    ∀ n : Nat, n < 10 ^ k → 1 ≤ k → (natDigits n).length ≤ k := by
  induction k with
  | zero => intro n _ hk; omega
  | succ k ih =>
    intro n hn _
    rw [natDigits_unfold n]
    by_cases h10 : n < 10
    · rw [if_pos h10]
      simp
    · rw [if_neg h10]
      rw [List.length_append]
      have hk1 : 1 ≤ k := by
        by_contra hk0
        have : k = 0 := by omega
        subst this
        simp at hn
        omega
      have := ih (n / 10) (by
        have : 10 ^ (k + 1) = 10 ^ k * 10 := by ring
        omega) hk1
      simp
      omega

theorem natFromDigits_zeros (k : Nat) (ds : List Char) :
    natFromDigits (List.replicate k '0' ++ ds) = natFromDigits ds := by
  induction k with
  | zero => rfl
  | succ k ih =>
    rw [List.replicate_succ, List.cons_append]
    show natFromDigits (List.replicate k '0' ++ ds) = _
    exact ih

theorem padZero_eq (y : Int) (k : Nat) (hy : 0 ≤ y) :
    padZero y k =
      List.replicate (k - (natDigits y.toNat).length) '0' ++ natDigits y.toNat := by
  unfold padZero
  rw [show intRepr y = natDigits y.toNat from by
    unfold intRepr
    rw [if_neg (by omega)]]
  dsimp only
  split
  · next h =>
    rw [show k - (natDigits y.toNat).length = 0 from by omega]
    rfl
  · rfl

theorem padZero_length (y : Int) (k : Nat) (hy : 0 ≤ y)
    (h : (natDigits y.toNat).length ≤ k) : (padZero y k).length = k := by
  rw [padZero_eq y k hy, List.length_append, List.length_replicate]
  omega

theorem padZero_digits (y : Int) (k : Nat) (hy : 0 ≤ y) :
    ∀ c ∈ padZero y k, isDigitChar c = true := by
  rw [padZero_eq y k hy]
  intro c hc
  rcases List.mem_append.mp hc with h | h
  · rw [List.eq_of_mem_replicate h]
    decide
  · exact (natDigits_plain _ c h).2.1

theorem padZero_ne_nil (y : Int) (k : Nat) (hy : 0 ≤ y) : padZero y k ≠ [] := by
  rw [padZero_eq y k hy]
  simp [natDigits_ne_nil]

theorem parseInteger_padZero (y : Int) (k : Nat) (hy : 0 ≤ y) :
    parseInteger (padZero y k) = some y := by
  rw [parseInteger_digits (padZero y k) (padZero_ne_nil y k hy)
    (padZero_digits y k hy)]
  rw [padZero_eq y k hy, natFromDigits_zeros, natFromDigits_natDigits]
  congr 1
  omega

theorem clampInt_eq (x lo hi : Int) (h1 : lo ≤ x) (h2 : x ≤ hi) :
    clampInt x lo hi = x := by
  unfold clampInt
  rw [if_neg (by omega), if_neg (by omega)]

theorem slice_at (pre mid post : Str) (a b : Nat) (ha : pre.length = a)
    (hmid : mid.length = b - a) :
    sliceStr (pre ++ (mid ++ post)) a b = mid := by
  unfold sliceStr
  rw [← ha, List.drop_left]
  rw [show b - pre.length = mid.length from by rw [ha]; omega]
  exact List.take_left _ _

theorem slice_first (mid post : Str) (b : Nat) (hmid : mid.length = b) :
    sliceStr (mid ++ post) 0 b = mid := by
  unfold sliceStr
  rw [List.drop_zero, Nat.sub_zero, ← hmid, List.take_left]

theorem slice_last (pre mid : Str) (a b : Nat) (ha : pre.length = a)
    (hmid : mid.length = b - a) :
    sliceStr (pre ++ mid) a b = mid := by
  unfold sliceStr
  rw [← ha, List.drop_left]
  exact List.take_of_length_le (by omega)

theorem daysInMonth_le_31 (y mo : Int) : daysInMonth y mo ≤ 31 := by
  unfold daysInMonth
  split <;> omega

theorem icsRound_date (y mo d : Int) (hy0 : 0 ≤ y) (hy : y ≤ 9999)
    (hmo1 : 1 ≤ mo) (hmo : mo ≤ 12) (hd1 : 1 ≤ d) (hd : d ≤ daysInMonth y mo) :
    parseICSDateValue (padZero y 4 ++ padZero mo 2 ++ padZero d 2) =
      .ok (.date y mo d) := by
  have hYlen : (padZero y 4).length = 4 :=
    padZero_length y 4 hy0 (natDigits_length_le 4 y.toNat (by norm_num; omega) (by norm_num))
  have hMOlen : (padZero mo 2).length = 2 :=
    padZero_length mo 2 (by omega) (natDigits_length_le 2 mo.toNat (by norm_num; omega) (by norm_num))
  have hDlen : (padZero d 2).length = 2 :=
    padZero_length d 2 (by omega) (natDigits_length_le 2 d.toNat (by
      norm_num
      have := daysInMonth_le_31 y mo
      omega) (by norm_num))
  have hdig : ∀ c ∈ padZero y 4 ++ padZero mo 2 ++ padZero d 2, isDigitChar c = true := by
    intro c hc
    rcases List.mem_append.mp hc with h | h
    · rcases List.mem_append.mp h with h | h
      · exact padZero_digits y 4 hy0 c h
      · exact padZero_digits mo 2 (by omega) c h
    · exact padZero_digits d 2 (by omega) c h
  have hvlen : (padZero y 4 ++ padZero mo 2 ++ padZero d 2).length = 8 := by
    simp [List.length_append, hYlen, hMOlen, hDlen]
  have hws : ∀ c ∈ padZero y 4 ++ padZero mo 2 ++ padZero d 2, isJsWs c = false :=
    fun c hc => (digit_not_ws c (hdig c hc)).1
  have hshape : icsShapeOk (padZero y 4 ++ padZero mo 2 ++ padZero d 2) = true := by
    unfold icsShapeOk
    rw [List.take_of_length_le (by omega), hvlen]
    rw [List.drop_eq_nil_of_le (by omega)]
    simp only [beq_self_eq_true, Bool.true_and]
    rw [List.all_eq_true.mpr hdig]
    rfl
  unfold parseICSDateValue
  rw [trim_eq_self _ hws]
  dsimp only
  rw [hshape]
  simp only [Bool.not_true, Bool.false_eq_true, if_false]
  rw [show sliceStr (padZero y 4 ++ padZero mo 2 ++ padZero d 2) 0 4 = padZero y 4 from by
    rw [List.append_assoc]
    exact slice_first _ _ 4 hYlen]
  rw [show sliceStr (padZero y 4 ++ padZero mo 2 ++ padZero d 2) 4 6 = padZero mo 2 from by
    rw [List.append_assoc]
    exact slice_at _ _ _ 4 6 hYlen (by omega)]
  rw [show sliceStr (padZero y 4 ++ padZero mo 2 ++ padZero d 2) 6 8 = padZero d 2 from by
    exact slice_last _ _ 6 8 (by simp [hYlen, hMOlen]) (by omega)]
  rw [show sliceStr (padZero y 4 ++ padZero mo 2 ++ padZero d 2) 9 11 = [] from by
    unfold sliceStr
    rw [List.drop_eq_nil_of_le (by omega)]
    rfl]
  rw [show parseInteger [] = none from rfl]
  rw [parseInteger_padZero y 4 hy0, parseInteger_padZero mo 2 (by omega),
    parseInteger_padZero d 2 (by omega)]
  dsimp only
  simp only [Option.getD_some]
  rw [clampInt_eq mo 1 12 hmo1 hmo]
  rw [clampInt_eq d 1 (daysInMonth y mo) hd1 hd]

theorem getLast?_append_right (l1 l2 : Str) (c : Char)
    (h : l2.getLast? = some c) : (l1 ++ l2).getLast? = some c := by
  rw [List.getLast?_append, h]
  rfl

theorem icsRound_dateTime (y mo d h mi sec : Int) (hy0 : 0 ≤ y) (hy : y ≤ 9999)
    (hmo1 : 1 ≤ mo) (hmo : mo ≤ 12) (hd1 : 1 ≤ d) (hd : d ≤ daysInMonth y mo)
    (hh0 : 0 ≤ h) (hh : h ≤ 23) (hmi0 : 0 ≤ mi) (hmi : mi ≤ 59)
    (hs0 : 0 ≤ sec) (hs : sec ≤ 59) :
    parseICSDateValue (padZero y 4 ++ padZero mo 2 ++ padZero d 2 ++
      'T' :: (padZero h 2 ++ padZero mi 2 ++ padZero sec 2)) =
      .ok (.dateTime y mo d h mi sec 0) := by
  have hYlen : (padZero y 4).length = 4 :=
    padZero_length y 4 hy0 (natDigits_length_le 4 y.toNat (by norm_num; omega) (by norm_num))
  have hMOlen : (padZero mo 2).length = 2 :=
    padZero_length mo 2 (by omega) (natDigits_length_le 2 mo.toNat (by norm_num; omega) (by norm_num))
  have hDlen : (padZero d 2).length = 2 :=
    padZero_length d 2 (by omega) (natDigits_length_le 2 d.toNat (by
      norm_num
      have := daysInMonth_le_31 y mo
      omega) (by norm_num))
  have hHlen : (padZero h 2).length = 2 :=
    padZero_length h 2 (by omega) (natDigits_length_le 2 h.toNat (by norm_num; omega) (by norm_num))
  have hMIlen : (padZero mi 2).length = 2 :=
    padZero_length mi 2 (by omega) (natDigits_length_le 2 mi.toNat (by norm_num; omega) (by norm_num))
  have hSlen : (padZero sec 2).length = 2 :=
    padZero_length sec 2 (by omega) (natDigits_length_le 2 sec.toNat (by norm_num; omega) (by norm_num))
  have hdigDP : ∀ c ∈ padZero y 4 ++ padZero mo 2 ++ padZero d 2,
      isDigitChar c = true := by
    intro c hc
    rcases List.mem_append.mp hc with hc | hc
    · rcases List.mem_append.mp hc with hc | hc
      · exact padZero_digits y 4 hy0 c hc
      · exact padZero_digits mo 2 (by omega) c hc
    · exact padZero_digits d 2 (by omega) c hc
  have hdigTP : ∀ c ∈ padZero h 2 ++ padZero mi 2 ++ padZero sec 2,
      isDigitChar c = true := by
    intro c hc
    rcases List.mem_append.mp hc with hc | hc
    · rcases List.mem_append.mp hc with hc | hc
      · exact padZero_digits h 2 (by omega) c hc
      · exact padZero_digits mi 2 (by omega) c hc
    · exact padZero_digits sec 2 (by omega) c hc
  have hDPlen : (padZero y 4 ++ padZero mo 2 ++ padZero d 2).length = 8 := by
    simp [List.length_append, hYlen, hMOlen, hDlen]
  have hTPlen : (padZero h 2 ++ padZero mi 2 ++ padZero sec 2).length = 6 := by
    simp [List.length_append, hHlen, hMIlen, hSlen]
  have hws : ∀ c ∈ padZero y 4 ++ padZero mo 2 ++ padZero d 2 ++
      'T' :: (padZero h 2 ++ padZero mi 2 ++ padZero sec 2), isJsWs c = false := by
    intro c hc
    rcases List.mem_append.mp hc with hc | hc
    · exact (digit_not_ws c (hdigDP c hc)).1
    · rcases List.mem_cons.mp hc with rfl | hc
      · decide
      · exact (digit_not_ws c (hdigTP c hc)).1
  have hshape : icsShapeOk (padZero y 4 ++ padZero mo 2 ++ padZero d 2 ++
      'T' :: (padZero h 2 ++ padZero mi 2 ++ padZero sec 2)) = true := by
    unfold icsShapeOk
    rw [show (8 : Nat) = (padZero y 4 ++ padZero mo 2 ++ padZero d 2).length from
      hDPlen.symm]
    rw [List.take_left, List.drop_left, hDPlen]
    simp only [beq_self_eq_true, Bool.true_and]
    rw [List.all_eq_true.mpr hdigDP]
    rw [Bool.true_and]
    rw [hTPlen]
    simp only [beq_self_eq_true, Bool.true_and]
    rw [List.all_eq_true.mpr hdigTP]
    rfl
  obtain ⟨clast, hcS⟩ : ∃ c, (padZero sec 2).getLast? = some c := by
    cases hS : (padZero sec 2).getLast? with
    | none => exact absurd (List.getLast?_eq_none_iff.mp hS) (padZero_ne_nil sec 2 (by omega))
    | some c => exact ⟨c, rfl⟩
  have hclastdig : isDigitChar clast = true :=
    padZero_digits sec 2 (by omega) clast (List.mem_of_mem_getLast? hcS)
  have hvlast : (padZero y 4 ++ padZero mo 2 ++ padZero d 2 ++
      'T' :: (padZero h 2 ++ padZero mi 2 ++ padZero sec 2)).getLast? = some clast := by
    refine getLast?_append_right _ _ _ ?_
    exact getLast?_append_right ['T'] _ _ (getLast?_append_right _ _ _ hcS)
  unfold parseICSDateValue
  rw [trim_eq_self _ hws]
  dsimp only
  rw [hshape]
  simp only [Bool.not_true, Bool.false_eq_true, if_false]
  rw [show sliceStr (padZero y 4 ++ padZero mo 2 ++ padZero d 2 ++
      'T' :: (padZero h 2 ++ padZero mi 2 ++ padZero sec 2)) 0 4 = padZero y 4 from by
    simp only [List.append_assoc]
    exact slice_first _ _ 4 hYlen]
  rw [show sliceStr (padZero y 4 ++ padZero mo 2 ++ padZero d 2 ++
      'T' :: (padZero h 2 ++ padZero mi 2 ++ padZero sec 2)) 4 6 = padZero mo 2 from by
    simp only [List.append_assoc]
    exact slice_at _ _ _ 4 6 hYlen (by omega)]
  rw [show sliceStr (padZero y 4 ++ padZero mo 2 ++ padZero d 2 ++
      'T' :: (padZero h 2 ++ padZero mi 2 ++ padZero sec 2)) 6 8 = padZero d 2 from by
    simp only [List.append_assoc]
    rw [← List.append_assoc]
    exact slice_at _ _ _ 6 8 (by simp [hYlen, hMOlen]) (by omega)]
  rw [show sliceStr (padZero y 4 ++ padZero mo 2 ++ padZero d 2 ++
      'T' :: (padZero h 2 ++ padZero mi 2 ++ padZero sec 2)) 9 11 = padZero h 2 from by
    simp only [List.append_assoc]
    rw [show ('T' :: (padZero h 2 ++ (padZero mi 2 ++ padZero sec 2)) : Str) =
      ['T'] ++ (padZero h 2 ++ (padZero mi 2 ++ padZero sec 2)) from rfl]
    rw [← List.append_assoc, ← List.append_assoc, ← List.append_assoc]
    exact slice_at _ _ _ 9 11 (by simp [hYlen, hMOlen, hDlen]) (by omega)]
  rw [show sliceStr (padZero y 4 ++ padZero mo 2 ++ padZero d 2 ++
      'T' :: (padZero h 2 ++ padZero mi 2 ++ padZero sec 2)) 11 13 = padZero mi 2 from by
    simp only [List.append_assoc]
    rw [show ('T' :: (padZero h 2 ++ (padZero mi 2 ++ padZero sec 2)) : Str) =
      ['T'] ++ (padZero h 2 ++ (padZero mi 2 ++ padZero sec 2)) from rfl]
    rw [← List.append_assoc, ← List.append_assoc, ← List.append_assoc,
      ← List.append_assoc]
    exact slice_at _ _ _ 11 13 (by simp [hYlen, hMOlen, hDlen, hHlen]) (by omega)]
  rw [show sliceStr (padZero y 4 ++ padZero mo 2 ++ padZero d 2 ++
      'T' :: (padZero h 2 ++ padZero mi 2 ++ padZero sec 2)) 13 15 = padZero sec 2 from by
    simp only [List.append_assoc]
    rw [show ('T' :: (padZero h 2 ++ (padZero mi 2 ++ padZero sec 2)) : Str) =
      ['T'] ++ (padZero h 2 ++ (padZero mi 2 ++ padZero sec 2)) from rfl]
    rw [← List.append_assoc, ← List.append_assoc, ← List.append_assoc,
      ← List.append_assoc, ← List.append_assoc]
    exact slice_last _ _ 13 15 (by simp [hYlen, hMOlen, hDlen, hHlen, hMIlen]) (by omega)]
  rw [parseInteger_padZero y 4 hy0, parseInteger_padZero mo 2 (by omega),
    parseInteger_padZero d 2 (by omega), parseInteger_padZero h 2 (by omega),
    parseInteger_padZero mi 2 (by omega), parseInteger_padZero sec 2 (by omega)]
  dsimp only
  simp only [Option.getD_some]
  rw [hvlast]
  rw [show (some clast == some 'Z') = false from by
    simp [(digit_not_ws clast hclastdig).2.2.2]]
  simp only [Bool.false_eq_true, if_false]
  rw [clampInt_eq mo 1 12 hmo1 hmo]
  rw [clampInt_eq d 1 (daysInMonth y mo) hd1 hd]
  rw [clampInt_eq h 0 23 hh0 hh, clampInt_eq mi 0 59 hmi0 hmi,
    clampInt_eq sec 0 59 hs0 hs]

theorem icsRound_zoned (y mo d h mi sec : Int) (hy0 : 0 ≤ y) (hy : y ≤ 9999)
    (hmo1 : 1 ≤ mo) (hmo : mo ≤ 12) (hd1 : 1 ≤ d) (hd : d ≤ daysInMonth y mo)
    (hh0 : 0 ≤ h) (hh : h ≤ 23) (hmi0 : 0 ≤ mi) (hmi : mi ≤ 59)
    (hs0 : 0 ≤ sec) (hs : sec ≤ 59) :
    parseICSDateValue (padZero y 4 ++ padZero mo 2 ++ padZero d 2 ++
      'T' :: (padZero h 2 ++ padZero mi 2 ++ padZero sec 2) ++ ['Z']) =
      .ok (.zoned y mo d h mi sec 0) := by
  have hYlen : (padZero y 4).length = 4 :=
    padZero_length y 4 hy0 (natDigits_length_le 4 y.toNat (by norm_num; omega) (by norm_num))
  have hMOlen : (padZero mo 2).length = 2 :=
    padZero_length mo 2 (by omega) (natDigits_length_le 2 mo.toNat (by norm_num; omega) (by norm_num))
  have hDlen : (padZero d 2).length = 2 :=
    padZero_length d 2 (by omega) (natDigits_length_le 2 d.toNat (by
      norm_num
      have := daysInMonth_le_31 y mo
      omega) (by norm_num))
  have hHlen : (padZero h 2).length = 2 :=
    padZero_length h 2 (by omega) (natDigits_length_le 2 h.toNat (by norm_num; omega) (by norm_num))
  have hMIlen : (padZero mi 2).length = 2 :=
    padZero_length mi 2 (by omega) (natDigits_length_le 2 mi.toNat (by norm_num; omega) (by norm_num))
  have hSlen : (padZero sec 2).length = 2 :=
    padZero_length sec 2 (by omega) (natDigits_length_le 2 sec.toNat (by norm_num; omega) (by norm_num))
  have hdigDP : ∀ c ∈ padZero y 4 ++ padZero mo 2 ++ padZero d 2,
      isDigitChar c = true := by
    intro c hc
    rcases List.mem_append.mp hc with hc | hc
    · rcases List.mem_append.mp hc with hc | hc
      · exact padZero_digits y 4 hy0 c hc
      · exact padZero_digits mo 2 (by omega) c hc
    · exact padZero_digits d 2 (by omega) c hc
  have hdigTP : ∀ c ∈ padZero h 2 ++ padZero mi 2 ++ padZero sec 2,
      isDigitChar c = true := by
    intro c hc
    rcases List.mem_append.mp hc with hc | hc
    · rcases List.mem_append.mp hc with hc | hc
      · exact padZero_digits h 2 (by omega) c hc
      · exact padZero_digits mi 2 (by omega) c hc
    · exact padZero_digits sec 2 (by omega) c hc
  have hDPlen : (padZero y 4 ++ padZero mo 2 ++ padZero d 2).length = 8 := by
    simp [List.length_append, hYlen, hMOlen, hDlen]
  have hTPlen : (padZero h 2 ++ padZero mi 2 ++ padZero sec 2).length = 6 := by
    simp [List.length_append, hHlen, hMIlen, hSlen]
  have hws : ∀ c ∈ padZero y 4 ++ padZero mo 2 ++ padZero d 2 ++
      'T' :: (padZero h 2 ++ padZero mi 2 ++ padZero sec 2) ++ ['Z'],
      isJsWs c = false := by
    intro c hc
    rcases List.mem_append.mp hc with hc | hc
    · rcases List.mem_append.mp hc with hc | hc
      · exact (digit_not_ws c (hdigDP c hc)).1
      · rcases List.mem_cons.mp hc with rfl | hc
        · decide
        · exact (digit_not_ws c (hdigTP c hc)).1
    · rcases List.mem_singleton.mp hc with rfl
      decide
  have hshape : icsShapeOk (padZero y 4 ++ padZero mo 2 ++ padZero d 2 ++
      'T' :: (padZero h 2 ++ padZero mi 2 ++ padZero sec 2) ++ ['Z']) = true := by
    unfold icsShapeOk
    rw [List.append_assoc]
    rw [show (('T' :: (padZero h 2 ++ padZero mi 2 ++ padZero sec 2)) ++ ['Z'] : Str) =
      'T' :: ((padZero h 2 ++ padZero mi 2 ++ padZero sec 2) ++ ['Z']) from rfl]
    rw [show (8 : Nat) = (padZero y 4 ++ padZero mo 2 ++ padZero d 2).length from
      hDPlen.symm]
    rw [List.take_left, List.drop_left, hDPlen]
    simp only [beq_self_eq_true, Bool.true_and]
    rw [List.all_eq_true.mpr hdigDP]
    rw [Bool.true_and]
    rw [show ((padZero h 2 ++ padZero mi 2 ++ padZero sec 2) ++ ['Z']).length = 7 from by
      simp [List.length_append, hHlen, hMIlen, hSlen]]
    rw [show (6 : Nat) = (padZero h 2 ++ padZero mi 2 ++ padZero sec 2).length from
      hTPlen.symm]
    rw [List.take_left]
    rw [List.all_eq_true.mpr hdigTP]
    rw [List.getLast?_concat]
    simp
  unfold parseICSDateValue
  rw [trim_eq_self _ hws]
  dsimp only
  rw [hshape]
  simp only [Bool.not_true, Bool.false_eq_true, if_false]
  rw [show sliceStr (padZero y 4 ++ padZero mo 2 ++ padZero d 2 ++
      'T' :: (padZero h 2 ++ padZero mi 2 ++ padZero sec 2) ++ ['Z']) 0 4 =
      padZero y 4 from by
    simp only [List.append_assoc, List.cons_append]
    exact slice_first _ _ 4 hYlen]
  rw [show sliceStr (padZero y 4 ++ padZero mo 2 ++ padZero d 2 ++
      'T' :: (padZero h 2 ++ padZero mi 2 ++ padZero sec 2) ++ ['Z']) 4 6 =
      padZero mo 2 from by
    simp only [List.append_assoc, List.cons_append]
    exact slice_at _ _ _ 4 6 hYlen (by omega)]
  rw [show sliceStr (padZero y 4 ++ padZero mo 2 ++ padZero d 2 ++
      'T' :: (padZero h 2 ++ padZero mi 2 ++ padZero sec 2) ++ ['Z']) 6 8 =
      padZero d 2 from by
    simp only [List.append_assoc, List.cons_append]
    rw [← List.append_assoc]
    exact slice_at _ _ _ 6 8 (by simp [hYlen, hMOlen]) (by omega)]
  rw [show sliceStr (padZero y 4 ++ padZero mo 2 ++ padZero d 2 ++
      'T' :: (padZero h 2 ++ padZero mi 2 ++ padZero sec 2) ++ ['Z']) 9 11 =
      padZero h 2 from by
    simp only [List.append_assoc, List.cons_append]
    rw [show ('T' :: (padZero h 2 ++ (padZero mi 2 ++ (padZero sec 2 ++ ['Z']))) : Str) =
      ['T'] ++ (padZero h 2 ++ (padZero mi 2 ++ (padZero sec 2 ++ ['Z']))) from rfl]
    rw [← List.append_assoc, ← List.append_assoc, ← List.append_assoc]
    exact slice_at _ _ _ 9 11 (by simp [hYlen, hMOlen, hDlen]) (by omega)]
  rw [show sliceStr (padZero y 4 ++ padZero mo 2 ++ padZero d 2 ++
      'T' :: (padZero h 2 ++ padZero mi 2 ++ padZero sec 2) ++ ['Z']) 11 13 =
      padZero mi 2 from by
    simp only [List.append_assoc, List.cons_append]
    rw [show ('T' :: (padZero h 2 ++ (padZero mi 2 ++ (padZero sec 2 ++ ['Z']))) : Str) =
      ['T'] ++ (padZero h 2 ++ (padZero mi 2 ++ (padZero sec 2 ++ ['Z']))) from rfl]
    rw [← List.append_assoc, ← List.append_assoc, ← List.append_assoc,
      ← List.append_assoc]
    exact slice_at _ _ _ 11 13 (by simp [hYlen, hMOlen, hDlen, hHlen]) (by omega)]
  rw [show sliceStr (padZero y 4 ++ padZero mo 2 ++ padZero d 2 ++
      'T' :: (padZero h 2 ++ padZero mi 2 ++ padZero sec 2) ++ ['Z']) 13 15 =
      padZero sec 2 from by
    simp only [List.append_assoc, List.cons_append]
    rw [show ('T' :: (padZero h 2 ++ (padZero mi 2 ++ (padZero sec 2 ++ ['Z']))) : Str) =
      ['T'] ++ (padZero h 2 ++ (padZero mi 2 ++ (padZero sec 2 ++ ['Z']))) from rfl]
    rw [← List.append_assoc, ← List.append_assoc, ← List.append_assoc,
      ← List.append_assoc, ← List.append_assoc]
    exact slice_at _ _ _ 13 15 (by simp [hYlen, hMOlen, hDlen, hHlen, hMIlen]) (by omega)]
  rw [parseInteger_padZero y 4 hy0, parseInteger_padZero mo 2 (by omega),
    parseInteger_padZero d 2 (by omega), parseInteger_padZero h 2 (by omega),
    parseInteger_padZero mi 2 (by omega), parseInteger_padZero sec 2 (by omega)]
  dsimp only
  simp only [Option.getD_some]
  rw [List.getLast?_concat]
  rw [if_pos (show ((some 'Z' : Option Char) == some 'Z') = true from rfl)]
  rw [clampInt_eq mo 1 12 hmo1 hmo]
  rw [clampInt_eq d 1 (daysInMonth y mo) hd1 hd]
  rw [clampInt_eq h 0 23 hh0 hh, clampInt_eq mi 0 59 hmi0 hmi,
    clampInt_eq sec 0 59 hs0 hs]

theorem parseICSDateValue_format (u : DateValue) (h : icsRoundOK u) :
    parseICSDateValue (formatICSDateValue u) = .ok u := by
  cases u with
  | date y mo d =>
    obtain ⟨h1, h2, h3, h4, h5, h6, _⟩ := h
    exact icsRound_date y mo d h1 h2 h3 h4 h5 h6
  | dateTime y mo d hh mi sec ms =>
    obtain ⟨h1, h2, h3, h4, h5, h6, h7, h8, h9, h10, h11, h12, h13⟩ := h
    have hms : ms = 0 := h13
    subst hms
    exact icsRound_dateTime y mo d hh mi sec h1 h2 h3 h4 h5 h6 h7 h8 h9 h10 h11 h12
  | zoned y mo d hh mi sec ms =>
    obtain ⟨h1, h2, h3, h4, h5, h6, h7, h8, h9, h10, h11, h12, h13⟩ := h
    have hms : ms = 0 := h13
    subst hms
    exact icsRound_zoned y mo d hh mi sec h1 h2 h3 h4 h5 h6 h7 h8 h9 h10 h11 h12

theorem padZero_ne (v : Int) (k : Nat) : padZero v k ≠ [] := by
  unfold padZero
  dsimp only
  split
  · exact intRepr_ne_nil v
  · simp [intRepr_ne_nil v]

theorem padZero_plain (v : Int) (k : Nat) : ∀ c ∈ padZero v k, plainOk c := by
  unfold padZero
  dsimp only
  intro c hc
  split at hc
  · exact intRepr_plain v c hc
  · rcases List.mem_append.mp hc with h | h
    · rw [List.eq_of_mem_replicate h]
      decide
    · exact intRepr_plain v c h

theorem formatICSDateValue_chars (u : DateValue) :
    formatICSDateValue u ≠ [] ∧
      ∀ c ∈ formatICSDateValue u, isJsWs c = false ∧ c ≠ ';' ∧ c ≠ '=' := by
  have hpz : ∀ (v : Int) (k : Nat), ∀ c ∈ padZero v k,
      isJsWs c = false ∧ c ≠ ';' ∧ c ≠ '=' := by
    intro v k c hc
    have := padZero_plain v k c hc
    exact ⟨this.1, this.2.2.2.1, this.2.2.2.2.1⟩
  cases u with
  | date y mo d =>
    refine ⟨by
      show padZero y 4 ++ padZero mo 2 ++ padZero d 2 ≠ []
      simp [padZero_ne], ?_⟩
    intro c hc
    rcases List.mem_append.mp hc with hc | hc
    · rcases List.mem_append.mp hc with hc | hc
      · exact hpz y 4 c hc
      · exact hpz mo 2 c hc
    · exact hpz d 2 c hc
  | dateTime y mo d hh mi sec ms =>
    refine ⟨by
      show padZero y 4 ++ padZero mo 2 ++ padZero d 2 ++
        'T' :: (padZero hh 2 ++ padZero mi 2 ++ padZero sec 2) ≠ []
      simp [padZero_ne], ?_⟩
    intro c hc
    rcases List.mem_append.mp hc with hc | hc
    · rcases List.mem_append.mp hc with hc | hc
      · rcases List.mem_append.mp hc with hc | hc
        · exact hpz y 4 c hc
        · exact hpz mo 2 c hc
      · exact hpz d 2 c hc
    · rcases List.mem_cons.mp hc with rfl | hc
      · exact ⟨by decide, by decide, by decide⟩
      · rcases List.mem_append.mp hc with hc | hc
        · rcases List.mem_append.mp hc with hc | hc
          · exact hpz hh 2 c hc
          · exact hpz mi 2 c hc
        · exact hpz sec 2 c hc
  | zoned y mo d hh mi sec ms =>
    refine ⟨by
      show padZero y 4 ++ padZero mo 2 ++ padZero d 2 ++
        'T' :: (padZero hh 2 ++ padZero mi 2 ++ padZero sec 2) ++ ['Z'] ≠ []
      simp [padZero_ne], ?_⟩
    intro c hc
    rcases List.mem_append.mp hc with hc | hc
    · rcases List.mem_append.mp hc with hc | hc
      · rcases List.mem_append.mp hc with hc | hc
        · rcases List.mem_append.mp hc with hc | hc
          · exact hpz y 4 c hc
          · exact hpz mo 2 c hc
        · exact hpz d 2 c hc
      · rcases List.mem_cons.mp hc with rfl | hc
        · exact ⟨by decide, by decide, by decide⟩
        · rcases List.mem_append.mp hc with hc | hc
          · rcases List.mem_append.mp hc with hc | hc
            · exact hpz hh 2 c hc
            · exact hpz mi 2 c hc
          · exact hpz sec 2 c hc
    · rcases List.mem_singleton.mp hc with rfl
      exact ⟨by decide, by decide, by decide⟩

theorem parseRRuleUntil_format (u : DateValue) (strict : Bool) (h : icsRoundOK u) :
    parseRRuleUntil (formatICSDateValue u) strict = .ok (some u) := by
  unfold parseRRuleUntil
  rw [trim_eq_self _ (fun c hc => ((formatICSDateValue_chars u).2 c hc).1)]
  rw [parseICSDateValue_format u h]

theorem apply_param_until (strict : Bool) (acc : ParseAccum) (u : DateValue)
    (h : icsRoundOK u) :
    applyRRuleParam strict acc (("UNTIL=".toList) ++ formatICSDateValue u) =
      .ok { acc with untilDate := some u } := by
  have hkey : ("UNTIL=".toList : Str) ++ formatICSDateValue u =
      "UNTIL".toList ++ '=' :: formatICSDateValue u := rfl
  rw [hkey]
  unfold applyRRuleParam applyRRuleParamBody
  rw [splitOnce_keyval "UNTIL".toList _ (by decide)
    (fun hmem => absurd rfl ((formatICSDateValue_chars u).2 '=' hmem).2.2)]
  dsimp only
  rw [if_neg (by
    rw [Bool.or_eq_true]
    push_neg
    exact ⟨by decide, by simpa [List.isEmpty_iff] using (formatICSDateValue_chars u).1⟩)]
  rw [show toUpperStr ("UNTIL".toList) = "UNTIL".toList from rfl]
  rw [if_neg (by decide)]
  rw [if_neg (by decide)]
  rw [if_neg (by decide)]
  rw [if_pos (by decide)]
  rw [parseRRuleUntil_format u strict h]
  rfl

theorem partOk_untilPart (o : Option DateValue) :
    ∀ p ∈ untilPart o, partOk p := by
  intro p hp
  cases o with
  | none => simp [untilPart] at hp
  | some u =>
    simp only [untilPart, List.mem_singleton] at hp
    subst hp
    refine ⟨by simp, ?_⟩
    intro c hc
    rcases List.mem_append.mp hc with h | h
    · revert h
      have : ∀ c ∈ ("UNTIL=".toList : Str), isJsWs c = false ∧ c ≠ ';' := by decide
      exact this c
    · exact ⟨((formatICSDateValue_chars u).2 c h).1,
        ((formatICSDateValue_chars u).2 c h).2.1⟩

theorem foldseg_until (strict : Bool) (acc : ParseAccum) (o : Option DateValue)
    (ho : untilFieldOK o) (hacc : acc.untilDate = none) :
    List.foldlM (applyRRuleParam strict) acc (untilPart o) =
      .ok { acc with untilDate := o } := by
  cases o with
  | none =>
    show Except.ok acc = _
    rw [show ({ acc with untilDate := none } : ParseAccum) = acc from by
      cases acc
      simp_all]
  | some u =>
    simp only [untilPart]
    exact foldlM_single _ _ _ _ (apply_param_until strict acc u ho)

/-- C5 (amended): the parse/format round-trip holds for every parsed rule
whose stored fields survive formatting: no dtstart (never written to an
RRULE line), interval absent or at least 2 (INTERVAL=1 is omitted when
formatted), count absent or positive, count and until not both present,
until absent or a value whose ICS text reads back identically (in-range
fields, four-digit year, no milliseconds), every selector list absent or
non-empty, duplicate-free and in its key range, and every byweekday
ordinal nonzero in [-53, 53]. -/
theorem claim_C5 (R : ParsedRRuleOptions) (strict : Bool)
    (hdt : R.dtstart = none) (hu : untilFieldOK R.untilDate)
    (hcu : R.count = none ∨ R.untilDate = none)
    (hi : intervalFieldOK R.interval) (hc : countFieldOK R.count)
    (hbm : numFieldOK R.bymonth 1 12 true)
    (hbmd : numFieldOK R.bymonthday (-31) 31 true)
    (hbyd : numFieldOK R.byyearday (-366) 366 true)
    (hbwn : numFieldOK R.byweekno (-53) 53 true)
    (hbd : bydayFieldOK R.byweekday)
    (hbh : numFieldOK R.byhour 0 23 false)
    (hbmin : numFieldOK R.byminute 0 59 false)
    (hbs : numFieldOK R.bysecond 0 59 false)
    (hsp : numFieldOK R.bysetpos (-366) 366 true) :
    ∃ s, formatRRule R = .ok s ∧ parseRRule s strict = .ok R := by
  obtain ⟨f, dt, iv, cnt, u, wk, sp, bm, bmd, byd, bwd, bwn, bh, bmin, bsec⟩ := R
  simp only at hdt hu hcu hi hc hbm hbmd hbyd hbwn hbd hbh hbmin hbs hsp
  subst hdt
  refine ⟨"RRULE:".toList ++ List.intercalate [';']
    ([("FREQ=".toList) ++ freqStr f]
      ++ intervalPart iv ++ countPart cnt ++ untilPart u ++ wkstPart wk
      ++ numListParts ("BYMONTH=".toList) bm
      ++ numListParts ("BYMONTHDAY=".toList) bmd
      ++ numListParts ("BYYEARDAY=".toList) byd
      ++ numListParts ("BYWEEKNO=".toList) bwn
      ++ byDayPart bwd
      ++ numListParts ("BYHOUR=".toList) bh
      ++ numListParts ("BYMINUTE=".toList) bmin
      ++ numListParts ("BYSECOND=".toList) bsec
      ++ numListParts ("BYSETPOS=".toList) sp), ?_, ?_⟩
  · unfold formatRRule
    rw [show formatRRuleParts
        ⟨f, none, iv, cnt, u, wk, sp, bm, bmd, byd, bwd, bwn, bh, bmin, bsec⟩ =
        .ok ([("FREQ=".toList) ++ freqStr f]
      ++ intervalPart iv ++ countPart cnt ++ untilPart u ++ wkstPart wk
      ++ numListParts ("BYMONTH=".toList) bm
      ++ numListParts ("BYMONTHDAY=".toList) bmd
      ++ numListParts ("BYYEARDAY=".toList) byd
      ++ numListParts ("BYWEEKNO=".toList) bwn
      ++ byDayPart bwd
      ++ numListParts ("BYHOUR=".toList) bh
      ++ numListParts ("BYMINUTE=".toList) bmin
      ++ numListParts ("BYSECOND=".toList) bsec
      ++ numListParts ("BYSETPOS=".toList) sp) from by
      cases u with
      | none => rfl
      | some u0 => rfl]
    rfl
  · have hPOk : ∀ p ∈ ([("FREQ=".toList) ++ freqStr f]
      ++ intervalPart iv ++ countPart cnt ++ untilPart u ++ wkstPart wk
      ++ numListParts ("BYMONTH=".toList) bm
      ++ numListParts ("BYMONTHDAY=".toList) bmd
      ++ numListParts ("BYYEARDAY=".toList) byd
      ++ numListParts ("BYWEEKNO=".toList) bwn
      ++ byDayPart bwd
      ++ numListParts ("BYHOUR=".toList) bh
      ++ numListParts ("BYMINUTE=".toList) bmin
      ++ numListParts ("BYSECOND=".toList) bsec
      ++ numListParts ("BYSETPOS=".toList) sp), partOk p := by
      intro p hp
      simp only [List.mem_append, List.not_mem_nil, or_false, or_assoc] at hp
      rcases hp with h|h|h|h|h|h|h|h|h|h|h|h|h|h
      · rw [List.mem_singleton] at h
        subst h
        exact partOk_freq f
      · exact partOk_intervalPart iv p h
      · exact partOk_countPart cnt p h
      · exact partOk_untilPart u p h
      · exact partOk_wkstPart wk p h
      · exact numListParts_partOk _ bm ⟨by decide, by decide⟩ p h
      · exact numListParts_partOk _ bmd ⟨by decide, by decide⟩ p h
      · exact numListParts_partOk _ byd ⟨by decide, by decide⟩ p h
      · exact numListParts_partOk _ bwn ⟨by decide, by decide⟩ p h
      · exact partOk_byDayPart bwd hbd p h
      · exact numListParts_partOk _ bh ⟨by decide, by decide⟩ p h
      · exact numListParts_partOk _ bmin ⟨by decide, by decide⟩ p h
      · exact numListParts_partOk _ bsec ⟨by decide, by decide⟩ p h
      · exact numListParts_partOk _ sp ⟨by decide, by decide⟩ p h
    have hPne : ([("FREQ=".toList) ++ freqStr f]
      ++ intervalPart iv ++ countPart cnt ++ untilPart u ++ wkstPart wk
      ++ numListParts ("BYMONTH=".toList) bm
      ++ numListParts ("BYMONTHDAY=".toList) bmd
      ++ numListParts ("BYYEARDAY=".toList) byd
      ++ numListParts ("BYWEEKNO=".toList) bwn
      ++ byDayPart bwd
      ++ numListParts ("BYHOUR=".toList) bh
      ++ numListParts ("BYMINUTE=".toList) bmin
      ++ numListParts ("BYSECOND=".toList) bsec
      ++ numListParts ("BYSETPOS=".toList) sp) ≠ ([] : List Str) := List.cons_ne_nil _ _
    have hPayloadChars : ∀ c ∈ List.intercalate [';'] ([("FREQ=".toList) ++ freqStr f]
      ++ intervalPart iv ++ countPart cnt ++ untilPart u ++ wkstPart wk
      ++ numListParts ("BYMONTH=".toList) bm
      ++ numListParts ("BYMONTHDAY=".toList) bmd
      ++ numListParts ("BYYEARDAY=".toList) byd
      ++ numListParts ("BYWEEKNO=".toList) bwn
      ++ byDayPart bwd
      ++ numListParts ("BYHOUR=".toList) bh
      ++ numListParts ("BYMINUTE=".toList) bmin
      ++ numListParts ("BYSECOND=".toList) bsec
      ++ numListParts ("BYSETPOS=".toList) sp),
        isJsWs c = false := by
      intro c hc
      rcases mem_intercalate_char ';' c _ hc with rfl | ⟨p, hp, hcp⟩
      · decide
      · exact ((hPOk p hp).2 c hcp).1
    have hsChars : ∀ c ∈ ("RRULE:".toList : Str) ++ List.intercalate [';'] ([("FREQ=".toList) ++ freqStr f]
      ++ intervalPart iv ++ countPart cnt ++ untilPart u ++ wkstPart wk
      ++ numListParts ("BYMONTH=".toList) bm
      ++ numListParts ("BYMONTHDAY=".toList) bmd
      ++ numListParts ("BYYEARDAY=".toList) byd
      ++ numListParts ("BYWEEKNO=".toList) bwn
      ++ byDayPart bwd
      ++ numListParts ("BYHOUR=".toList) bh
      ++ numListParts ("BYMINUTE=".toList) bmin
      ++ numListParts ("BYSECOND=".toList) bsec
      ++ numListParts ("BYSETPOS=".toList) sp),
        isJsWs c = false := by
      intro c hcm
      rcases List.mem_append.mp hcm with h | h
      · revert h
        have : ∀ c ∈ ("RRULE:".toList : Str), isJsWs c = false := by decide
        exact this c
      · exact hPayloadChars c h
    have hPayne : List.intercalate [';'] ([("FREQ=".toList) ++ freqStr f]
      ++ intervalPart iv ++ countPart cnt ++ untilPart u ++ wkstPart wk
      ++ numListParts ("BYMONTH=".toList) bm
      ++ numListParts ("BYMONTHDAY=".toList) bmd
      ++ numListParts ("BYYEARDAY=".toList) byd
      ++ numListParts ("BYWEEKNO=".toList) bwn
      ++ byDayPart bwd
      ++ numListParts ("BYHOUR=".toList) bh
      ++ numListParts ("BYMINUTE=".toList) bmin
      ++ numListParts ("BYSECOND=".toList) bsec
      ++ numListParts ("BYSETPOS=".toList) sp) ≠ [] :=
      intercalate_ne_nil ';' _ hPne (fun p hp => (hPOk p hp).1)
    unfold parseRRule
    rw [trim_eq_self _ hsChars, unfoldLine_eq_self _ hsChars]
    dsimp only
    rw [show rrulePayload ("RRULE:".toList ++ List.intercalate [';'] ([("FREQ=".toList) ++ freqStr f]
      ++ intervalPart iv ++ countPart cnt ++ untilPart u ++ wkstPart wk
      ++ numListParts ("BYMONTH=".toList) bm
      ++ numListParts ("BYMONTHDAY=".toList) bmd
      ++ numListParts ("BYYEARDAY=".toList) byd
      ++ numListParts ("BYWEEKNO=".toList) bwn
      ++ byDayPart bwd
      ++ numListParts ("BYHOUR=".toList) bh
      ++ numListParts ("BYMINUTE=".toList) bmin
      ++ numListParts ("BYSECOND=".toList) bsec
      ++ numListParts ("BYSETPOS=".toList) sp)) =
        some (List.intercalate [';'] ([("FREQ=".toList) ++ freqStr f]
      ++ intervalPart iv ++ countPart cnt ++ untilPart u ++ wkstPart wk
      ++ numListParts ("BYMONTH=".toList) bm
      ++ numListParts ("BYMONTHDAY=".toList) bmd
      ++ numListParts ("BYYEARDAY=".toList) byd
      ++ numListParts ("BYWEEKNO=".toList) bwn
      ++ byDayPart bwd
      ++ numListParts ("BYHOUR=".toList) bh
      ++ numListParts ("BYMINUTE=".toList) bmin
      ++ numListParts ("BYSECOND=".toList) bsec
      ++ numListParts ("BYSETPOS=".toList) sp)) from by
      unfold rrulePayload
      rw [show ("RRULE:".toList ++ List.intercalate [';'] ([("FREQ=".toList) ++ freqStr f]
      ++ intervalPart iv ++ countPart cnt ++ untilPart u ++ wkstPart wk
      ++ numListParts ("BYMONTH=".toList) bm
      ++ numListParts ("BYMONTHDAY=".toList) bmd
      ++ numListParts ("BYYEARDAY=".toList) byd
      ++ numListParts ("BYWEEKNO=".toList) bwn
      ++ byDayPart bwd
      ++ numListParts ("BYHOUR=".toList) bh
      ++ numListParts ("BYMINUTE=".toList) bmin
      ++ numListParts ("BYSECOND=".toList) bsec
      ++ numListParts ("BYSETPOS=".toList) sp)).take 6 =
          "RRULE:".toList from by
        rw [show (6 : Nat) = ("RRULE:".toList : Str).length from rfl]
        exact List.take_left _ _]
      rw [if_pos (show toUpperStr (("RRULE:".toList : Str)) = "RRULE:".toList by decide)]
      dsimp only
      rw [show ("RRULE:".toList ++ List.intercalate [';'] ([("FREQ=".toList) ++ freqStr f]
      ++ intervalPart iv ++ countPart cnt ++ untilPart u ++ wkstPart wk
      ++ numListParts ("BYMONTH=".toList) bm
      ++ numListParts ("BYMONTHDAY=".toList) bmd
      ++ numListParts ("BYYEARDAY=".toList) byd
      ++ numListParts ("BYWEEKNO=".toList) bwn
      ++ byDayPart bwd
      ++ numListParts ("BYHOUR=".toList) bh
      ++ numListParts ("BYMINUTE=".toList) bmin
      ++ numListParts ("BYSECOND=".toList) bsec
      ++ numListParts ("BYSETPOS=".toList) sp)).drop 6 =
          List.intercalate [';'] ([("FREQ=".toList) ++ freqStr f]
      ++ intervalPart iv ++ countPart cnt ++ untilPart u ++ wkstPart wk
      ++ numListParts ("BYMONTH=".toList) bm
      ++ numListParts ("BYMONTHDAY=".toList) bmd
      ++ numListParts ("BYYEARDAY=".toList) byd
      ++ numListParts ("BYWEEKNO=".toList) bwn
      ++ byDayPart bwd
      ++ numListParts ("BYHOUR=".toList) bh
      ++ numListParts ("BYMINUTE=".toList) bmin
      ++ numListParts ("BYSECOND=".toList) bsec
      ++ numListParts ("BYSETPOS=".toList) sp) from by
        rw [show (6 : Nat) = ("RRULE:".toList : Str).length from rfl]
        exact List.drop_left _ _]
      rw [if_pos (by
        rw [Bool.and_eq_true]
        refine ⟨by simpa [List.isEmpty_iff] using hPayne, ?_⟩
        rw [List.all_eq_true]
        intro c hc
        exact notNl_of_notWs c (hPayloadChars c hc))]]
    dsimp only
    rw [parseList_intercalate ';' _ (by decide) hPne hPOk]
    rw [show List.foldlM (applyRRuleParam strict) ParseAccum.empty ([("FREQ=".toList) ++ freqStr f]
      ++ intervalPart iv ++ countPart cnt ++ untilPart u ++ wkstPart wk
      ++ numListParts ("BYMONTH=".toList) bm
      ++ numListParts ("BYMONTHDAY=".toList) bmd
      ++ numListParts ("BYYEARDAY=".toList) byd
      ++ numListParts ("BYWEEKNO=".toList) bwn
      ++ byDayPart bwd
      ++ numListParts ("BYHOUR=".toList) bh
      ++ numListParts ("BYMINUTE=".toList) bmin
      ++ numListParts ("BYSECOND=".toList) bsec
      ++ numListParts ("BYSETPOS=".toList) sp) =
        .ok ⟨some f, iv, cnt, u, wk, sp, bm, bmd, byd, bwd, bwn, bh, bmin, bsec⟩ from by
      simp only [List.append_assoc, List.nil_append]
      rw [foldlM_except_append _ _ _ _ _
        (foldlM_single _ _ _ _ (apply_param_freq strict ParseAccum.empty f))]
      rw [foldlM_except_append _ _ _ _ _ (foldseg_interval strict _ iv hi rfl)]
      rw [foldlM_except_append _ _ _ _ _ (foldseg_count strict _ cnt hc rfl)]
      rw [foldlM_except_append _ _ _ _ _ (foldseg_until strict _ u hu rfl)]
      rw [foldlM_except_append _ _ _ _ _ (foldseg_wkst strict _ wk rfl)]
      rw [foldlM_except_append _ _ _ _ _ (foldseg_bymonth strict _ bm hbm rfl)]
      rw [foldlM_except_append _ _ _ _ _ (foldseg_bymonthday strict _ bmd hbmd rfl)]
      rw [foldlM_except_append _ _ _ _ _ (foldseg_byyearday strict _ byd hbyd rfl)]
      rw [foldlM_except_append _ _ _ _ _ (foldseg_byweekno strict _ bwn hbwn rfl)]
      rw [foldlM_except_append _ _ _ _ _ (foldseg_byday strict _ bwd hbd rfl)]
      rw [foldlM_except_append _ _ _ _ _ (foldseg_byhour strict _ bh hbh rfl)]
      rw [foldlM_except_append _ _ _ _ _ (foldseg_byminute strict _ bmin hbmin rfl)]
      rw [foldlM_except_append _ _ _ _ _ (foldseg_bysecond strict _ bsec hbs rfl)]
      rw [foldseg_bysetpos strict _ sp hsp rfl]]
    rw [except_bind_ok]
    dsimp only
    rw [show (cnt.isSome && u.isSome) = false from by
      rcases hcu with h | h <;> rw [h] <;> simp]
    rfl

theorem claim_C5_witness :
    ∃ s, formatRRule c5opts = .ok s ∧ parseRRule s true = .ok c5opts :=
  claim_C5 c5opts true rfl (by decide) (Or.inl rfl) (by decide) (by decide)
    (by decide) (by decide) (by decide) (by decide) (by decide) (by decide)
    (by decide) (by decide) (by decide)

end RRule
